import Mathlib

/-!
# The chat room actor

A shallow embedding of the room actor of the chat server (`room.go`), with the
message model (`message.go`), the per-client profile (`client_data.go`), the
rules (`rules.go`), the command record (`command.go`) and the registry
(`util.go`, `main.go`) it works on.

Modelling conventions.

* A `*Client` is a handle (`ClientId`); a pointer field that may be nil is an
  `Option`.
* A Go `map` is an association list without duplicate keys.  The order of the
  list stands for the order in which `range` visits the map, which Go leaves
  unspecified: the results below hold for every list, hence for every order.
* A buffered channel is the list of the values it holds, oldest first.  A
  blocking send (`ch <- v`) appends: it waits while the buffer is full, and
  what is described is the state once the channel has taken the value.  The
  non-blocking send of `Room.send` (`select` with `default`) is the one place
  where the code branches on a full buffer: it appends only while the buffer
  holds fewer values than its capacity.  The welcome notice of the `Register`
  case is the one blocking send of the room loop on a `Send` channel: `RunCase`
  gives the case as completed, and `registerCase` tells whether it completes
  without waiting.
* The `Send` queues are those of open channels: the closing of `Send` by a
  session that shuts down (`Client.Serve`) is not part of the model.
* The loop of a room is run one `select` case at a time.  Which of several
  ready cases `select` takes is not fixed by Go: a result about several
  requests names the order in which the loops receive them.  A loop that has
  returned receives nothing more.
* `time.Now()` is the field `now` of the state, in Unix nanoseconds.
* A run-time panic (nil dereference, index out of range) is a `Fault`.
-/

namespace Chat

/-! ## Go maps as association lists -/

/-- The value stored under `k`, if any (`v, ok := m[k]`). -/
def mapGet {K V : Type} [DecidableEq K] (m : List (K × V)) (k : K) : Option V :=
  match m with
  | [] => none
  | e :: rest => if e.1 = k then some e.2 else mapGet rest k

/-- The assignment `m[k] = v`: replaces the value of a present key, adds an absent one. -/
def mapSet {K V : Type} [DecidableEq K] (m : List (K × V)) (k : K) (v : V) : List (K × V) :=
  if m.any (fun e => decide (e.1 = k)) then
    m.map (fun e => if e.1 = k then (k, v) else e)
  else
    m ++ [(k, v)]

/-- The builtin `delete(m, k)`. -/
def mapDelete {K V : Type} [DecidableEq K] (m : List (K × V)) (k : K) : List (K × V) :=
  m.filter (fun e => decide (e.1 ≠ k))

/-! ## command.go -/

/-- The type `CommandTarget`, a string type: its two constants and the zero value. -/
inductive CommandTarget where
  | unset
  | CommandTargetClient
  | CommandTargetRoom
  deriving DecidableEq, Repr

/-- The type `OPLevel` is a `uint8`. -/
abbrev OPLevel := Nat

def OPLevelNone : OPLevel := 0
def OPLevelUser : OPLevel := 1
def OPLevelAdmin : OPLevel := 2

/-- The function `ParseOPLevel`: the level, or the text of the error. -/
def ParseOPLevel (level : String) : Except String OPLevel :=
  if level = "none" then .ok OPLevelNone
  else if level = "user" then .ok OPLevelUser
  else if level = "admin" then .ok OPLevelAdmin
  else .error ("unknown OP level: " ++ level)

/-- The method `OPLevel.String`. -/
def OPLevel.String (l : OPLevel) : String :=
  if l = OPLevelNone then "none"
  else if l = OPLevelUser then "user"
  else if l = OPLevelAdmin then "admin"
  else "unknown"

/-- The struct `Command`. -/
structure Command where
  Name : String := ""
  Args : List String := []
  Target : CommandTarget := .unset
  OPLevel : OPLevel := OPLevelNone
  deriving DecidableEq, Repr

/-- The struct `CommandSpec`. -/
structure CommandSpec where
  Name : String
  Desc : String
  Help : String
  ArgsMin : Nat
  ArgsMax : Nat
  Target : CommandTarget := .unset
  OPLevel : OPLevel := OPLevelNone
  deriving DecidableEq, Repr

/-- The table `Commands`, keyed by command name. -/
def Commands : List (String × CommandSpec) :=
  [ ("join",
      { Name := "join"
        Desc := "join a room"
        Help := "/join <room> [password]"
        ArgsMin := 1
        ArgsMax := 2
        Target := .CommandTargetClient
        OPLevel := OPLevelNone }),
    ("start",
      { Name := "start"
        Desc := "start a new room"
        Help := "/start <room> [password]"
        ArgsMin := 1
        ArgsMax := 2
        Target := .CommandTargetClient
        OPLevel := OPLevelNone }),
    ("exit",
      { Name := "exit"
        Desc := "exit the current room"
        Help := "/exit"
        ArgsMin := 0
        ArgsMax := 0
        Target := .CommandTargetClient
        OPLevel := OPLevelNone }),
    ("nick",
      { Name := "nick"
        Desc := "change or set your nickname"
        Help := "/nick [nick]"
        ArgsMin := 1
        ArgsMax := 1
        Target := .CommandTargetClient
        OPLevel := OPLevelUser }),
    ("who",
      { Name := "who"
        Desc := "list all users in the current room"
        Help := "/who"
        ArgsMin := 0
        ArgsMax := 0
        Target := .CommandTargetRoom
        OPLevel := OPLevelUser }),
    ("w",
      { Name := "w"
        Desc := "send a direct message to a user"
        Help := "/w <nickname> <message>"
        ArgsMin := 2
        ArgsMax := 2
        Target := .CommandTargetRoom
        OPLevel := OPLevelUser }),
    ("clear",
      { Name := "clear"
        Desc := "clear the chat window"
        Help := "/clear"
        ArgsMin := 0
        ArgsMax := 0
        OPLevel := OPLevelNone }),
    ("help",
      { Name := "help"
        Desc := "list all commands, or get help for a specific command"
        Help := "/help [command]"
        ArgsMin := 0
        ArgsMax := 1
        Target := .CommandTargetClient
        OPLevel := OPLevelNone }),
    ("op",
      { Name := "op"
        Desc := "change permission levels"
        Help := "/op <user> <level>"
        ArgsMin := 2
        ArgsMax := 2
        Target := .CommandTargetRoom
        OPLevel := OPLevelAdmin }),
    ("welcome",
      { Name := "welcome"
        Desc := "set or clear the welcome message"
        Help := "/welcome [message]"
        ArgsMin := 0
        ArgsMax := 1
        Target := .CommandTargetRoom
        OPLevel := OPLevelAdmin }),
    ("password",
      { Name := "password"
        Desc := "set or clear the password for the room"
        Help := "/password [password]"
        ArgsMin := 0
        ArgsMax := 1
        Target := .CommandTargetRoom
        OPLevel := OPLevelAdmin }) ]

/-- The command that the last lines of `ParseCommand` build for a known `name` whose
argument count is in range: name and arguments as parsed, target and level from `Commands`. -/
def commandOf (name : String) (args : List String) : Option Command :=
  match mapGet Commands name with
  | none => none
  | some spec =>
    if args.length < spec.ArgsMin then none
    else if args.length > spec.ArgsMax then none
    else some { Name := name, Args := args, Target := spec.Target, OPLevel := spec.OPLevel }

/-! ## client_data.go -/

/-- A `*Client`, by identity. -/
abbrev ClientId := Nat

/-- The struct `ClientDataExternal`; the defaults are Go zero values. -/
structure ClientDataExternal where
  Nick : String := ""
  Color : String := ""
  OPLevel : OPLevel := OPLevelNone
  deriving DecidableEq, Repr

/-- The function `NewClientDataExternal`; `color` is what `colorful.HappyColor().Hex()` returned. -/
def NewClientDataExternal (creator : Bool) (color : String) : ClientDataExternal :=
  let level := if creator then OPLevelAdmin else OPLevelUser
  { Color := color, OPLevel := level }

/-! ## rules.go -/

/-- The struct `Rules`. -/
structure Rules where
  hasPassword : Bool := false
  password : String := ""
  hasWelcomeMessage : Bool := false
  welcomeMessage : String := ""
  noCommands : Bool := false
  noMessages : Bool := false
  keepOpen : Bool := false
  deriving DecidableEq, Repr

/-- The function `NewRules`. -/
def NewRules : Rules := { hasPassword := false, password := "" }

/-! ## message.go -/

/-- The constants of type `MessageType`. -/
inductive MessageType where
  | MessageTypeMessage
  | MessageTypeCommand
  | MessageTypeWhisper
  | MessageTypeError
  | MessageTypeNotice
  | MessageTypeJoin
  | MessageTypeLeave
  | MessageTypeReset
  deriving DecidableEq, Repr

/-- The constants of type `TargetType`, and `unset` for its zero value `""`. -/
inductive TargetType where
  | unset
  | TargetTypeAll
  | TargetTypeNickOne
  | TargetTypeNickOthers
  | TargetTypeOne
  | TargetTypeOthers
  deriving DecidableEq, Repr

/-- The struct `Target`. -/
structure Target where
  Typ : TargetType := .unset
  Nick : String := ""
  Client : Option ClientId := none
  deriving DecidableEq, Repr

/-- The method `Target.Should`. -/
def Target.Should (t : Target) (client : ClientId) (clientData : ClientDataExternal) : Bool :=
  match t.Typ with
  | .TargetTypeAll => true
  | .TargetTypeNickOne => decide (t.Nick = clientData.Nick)
  | .TargetTypeNickOthers => decide (t.Nick ≠ clientData.Nick)
  | .TargetTypeOne => decide (some client = t.Client)
  | .TargetTypeOthers => decide (some client ≠ t.Client)
  | .unset => false

/-- The struct `RoomMessage`; `Time` is `none` for the zero time, else Unix nanoseconds. -/
structure RoomMessage where
  ID : String := ""
  Typ : MessageType
  Time : Option Nat := none
  Nick : String := ""
  Color : String := ""
  Body : String := ""
  Target : Target := {}
  deriving DecidableEq, Repr

/-- The table `messageColors`; a type without an entry reads as `""`. -/
def messageColors (t : MessageType) : String :=
  match t with
  | .MessageTypeMessage => "#cdd6f4"
  | .MessageTypeCommand => "#74c7ec"
  | .MessageTypeWhisper => "#cba6f7"
  | .MessageTypeError => "#f38ba8"
  | .MessageTypeNotice => "#f9e2af"
  | .MessageTypeJoin => "#a6e3a1"
  | .MessageTypeLeave => "#eba0ac"
  | .MessageTypeReset => ""

/-- The function `messageID` at clock reading `now`. -/
def messageID (now : Nat) : String := "msg-" ++ toString now

/-- The method `RoomMessage.Fill` at clock reading `now`. -/
def RoomMessage.Fill (m : RoomMessage) (now : Nat) : RoomMessage :=
  let m := if m.ID = "" then { m with ID := messageID now } else m
  let m := if m.Time = none then { m with Time := some now } else m
  let m := if m.Nick = "" then { m with Nick := "*" } else m
  let m := if m.Color = "" then { m with Color := messageColors m.Typ } else m
  let m := if m.Target.Typ = .unset then { m with Target := { m.Target with Typ := .TargetTypeAll } } else m
  m

/-- The struct `ClientMessage`. -/
structure ClientMessage where
  Typ : MessageType
  Client : ClientId
  Body : String := ""
  Command : Option Command := none
  deriving DecidableEq, Repr

/-- The method `ClientMessage.Promote` at clock reading `now`. -/
def ClientMessage.Promote (m : ClientMessage) (data : ClientDataExternal) (now : Nat) : RoomMessage :=
  { ID := messageID now
    Typ := .MessageTypeMessage
    Time := some now
    Nick := data.Nick
    Color := data.Color
    Body := m.Body
    Target := { Typ := .TargetTypeAll } }

/-! ## strings -/

/-- The predicate `unicode.IsSpace`. -/
def isSpace (c : Char) : Bool :=
  c = '\t' || c = '\n' || c = '\x0b' || c = '\x0c' || c = '\r' || c = ' ' ||
  c = '\u0085' || c = '\u00a0' || c = '\u1680' ||
  (0x2000 ≤ c.toNat && c.toNat ≤ 0x200a) ||
  c = '\u2028' || c = '\u2029' || c = '\u202f' || c = '\u205f' || c = '\u3000'

/-- The function `strings.TrimSpace`. -/
def TrimSpace (s : String) : String :=
  String.mk ((s.data.dropWhile isSpace).reverse.dropWhile isSpace).reverse

/-- The function `strings.Join`. -/
def Join (elems : List String) (sep : String) : String :=
  match elems with
  | [] => ""
  | [a] => a
  | a :: rest => a ++ sep ++ Join rest sep

/-! ## room.go -/

/-- The value of an `error` result: `nil` or `roomErrShouldQuit`. -/
inductive GoError where
  | roomErrShouldQuit
  deriving DecidableEq, Repr

/-- A run-time panic. -/
inductive Fault where
  | nilDereference
  | indexOutOfRange
  deriving DecidableEq, Repr

/-- The struct `Room`: its name, roster, rules and the contents of its `Internal` channel. -/
structure Room where
  Name : String
  Clients : List (ClientId × ClientDataExternal) := []
  Internal : List RoomMessage := []
  Rules : Rules := NewRules

/-- What a room loop reads and writes: the room, the registry `Rooms` (name to room
handle), the contents of every session's `Send` channel, each connection's remote
address, and the clock. -/
structure World where
  room : Room
  Rooms : List (String × Nat) := []
  Send : ClientId → List RoomMessage := fun _ => []
  RemoteAddr : ClientId → String := fun _ => ""
  now : Nat := 0

/-- Capacity of a session's `Send` channel (`NewClient`). -/
def sendCap : Nat := 256

/-- The function `NewRoom`. -/
def NewRoom (name : String) : Room :=
  { Name := name, Clients := [], Internal := [], Rules := NewRules }

/-- The send `r.Internal <- m.Fill()`. -/
def sendInternal (w : World) (m : RoomMessage) : World :=
  { w with room := { w.room with Internal := w.room.Internal ++ [m.Fill w.now] } }

/-- The send `client.Send <- m`, once the channel has taken the value. -/
def sendClient (w : World) (client : ClientId) (m : RoomMessage) : World :=
  { w with Send := fun c => if c = client then w.Send c ++ [m] else w.Send c }

/-- The method `Room.shouldQuit`. -/
def shouldQuit (w : World) (err : Option GoError) : Bool :=
  if w.room.Rules.keepOpen then false
  else decide (err = some .roomErrShouldQuit)

/-- The method `Room.remove`. -/
def remove (w : World) (client : ClientId) : World × Option GoError :=
  let w := { w with room := { w.room with Clients := mapDelete w.room.Clients client } }
  if !w.room.Rules.keepOpen && w.room.Clients.length == 0 then
    ({ w with Rooms := mapDelete w.Rooms w.room.Name }, some .roomErrShouldQuit)
  else
    (w, none)

/-- The method `Room.send`. -/
def send (w : World) (client : ClientId) (message : RoomMessage) : World × Option GoError :=
  if (w.Send client).length < sendCap then
    (sendClient w client message, none)
  else
    remove w client

/-- The loop of `Room.handleInternal` over the roster entries still to visit. -/
def handleInternalLoop (todo : List (ClientId × ClientDataExternal)) (w : World)
    (message : RoomMessage) : World × Option GoError :=
  match todo with
  | [] => (w, none)
  | (client, data) :: rest =>
    if !message.Target.Should client data then
      handleInternalLoop rest w message
    else
      let res := send w client message
      if res.2 = some .roomErrShouldQuit then
        (res.1, some .roomErrShouldQuit)
      else
        handleInternalLoop rest res.1 message

/-- The method `Room.handleInternal`. -/
def handleInternal (w : World) (message : RoomMessage) : World × Option GoError :=
  handleInternalLoop w.room.Clients w message

/-- The read `r.Clients[client]`, the zero value for an absent key. -/
def clientData (w : World) (client : ClientId) : ClientDataExternal :=
  (mapGet w.room.Clients client).getD {}

/-- The assignment `r.Clients[client] = data`. -/
def setClientData (w : World) (client : ClientId) (data : ClientDataExternal) : World :=
  { w with room := { w.room with Clients := mapSet w.room.Clients client data } }

/-- The method `Room.setNick`. -/
def setNick (w : World) (client : ClientId) (nick : String) : World :=
  let newNick := TrimSpace nick
  if newNick = "" then
    sendInternal w
      { Typ := .MessageTypeError
        Body := "nickname cannot be empty"
        Target := { Typ := .TargetTypeOne, Client := some client } }
  else if w.room.Clients.any (fun e => decide (e.1 ≠ client) && decide (e.2.Nick = newNick)) then
    sendInternal w
      { Typ := .MessageTypeError
        Body := "nickname " ++ newNick ++ " is already in use"
        Target := { Typ := .TargetTypeOne, Client := some client } }
  else
    let data := clientData w client
    let oldNick := data.Nick
    let w := setClientData w client { data with Nick := newNick }
    if oldNick ≠ "" then
      sendInternal w
        { Typ := .MessageTypeNotice
          Body := oldNick ++ " changed their nickname to " ++ newNick }
    else
      sendInternal w
        { Typ := .MessageTypeJoin
          Body := newNick ++ " joined the room" }

/-- The method `Room.getWho`. -/
def getWho (w : World) (client : ClientId) : World :=
  let online := (w.room.Clients.filter (fun e => decide (e.2.Nick ≠ ""))).map
    (fun e => e.2.Nick ++ " (" ++ w.RemoteAddr e.1 ++ ")")
  let body :=
    if online.length = 0 then "no one is currently online"
    else "currently online:\n" ++ Join online "\n"
  sendInternal w
    { Typ := .MessageTypeCommand
      Body := body
      Target := { Typ := .TargetTypeOne, Client := some client } }

/-- The method `Room.whisper`. -/
def whisper (w : World) (client : ClientId) (nick : String) (message : String) : World :=
  match mapGet w.room.Clients client with
  | none => w
  | some data =>
    if data.Nick = "" then
      sendInternal w
        { Typ := .MessageTypeError
          Body := "you must set a nickname before sending messages"
          Target := { Typ := .TargetTypeOne, Client := some client } }
    else
      let w := sendInternal w
        { Typ := .MessageTypeWhisper
          Nick := data.Nick
          Color := data.Color
          Body := "whispers: " ++ message
          Target := { Typ := .TargetTypeNickOne, Nick := nick } }
      sendInternal w
        { Typ := .MessageTypeWhisper
          Nick := data.Nick
          Color := data.Color
          Body := "whispers: " ++ message
          Target := { Typ := .TargetTypeOne, Client := some client } }

/-- The lookup loop of `Room.op`: the first roster entry, in visiting order, with the nickname. -/
def findNick (clients : List (ClientId × ClientDataExternal)) (nick : String) : Option ClientId :=
  match clients with
  | [] => none
  | (test, data) :: rest => if data.Nick = nick then some test else findNick rest nick

/-- The method `Room.op`. -/
def op (w : World) (client : ClientId) (nick : String) (levelName : String) : World :=
  match ParseOPLevel levelName with
  | .error err =>
    sendInternal w
      { Typ := .MessageTypeError
        Body := err
        Target := { Typ := .TargetTypeOne, Client := some client } }
  | .ok level =>
    match findNick w.room.Clients nick with
    | none =>
      sendInternal w
        { Typ := .MessageTypeError
          Body := "user " ++ nick ++ " is not online"
          Target := { Typ := .TargetTypeOne, Client := some client } }
    | some target =>
      let data := clientData w client
      let w := setClientData w client { data with OPLevel := level }
      let w := sendInternal w
        { Typ := .MessageTypeNotice
          Body := nick ++ "\x27s permission level is now " ++ OPLevel.String level
          Target := { Typ := .TargetTypeOne, Client := some client } }
      sendInternal w
        { Typ := .MessageTypeNotice
          Body := "your permission level is now " ++ OPLevel.String level
          Target := { Typ := .TargetTypeOne, Client := some target } }

/-- The method `Room.welcome`; `message` is a `*string`, dereferenced at once. -/
def welcome (w : World) (client : ClientId) (message : Option String) : Except Fault World :=
  match message with
  | none => .error .nilDereference
  | some text =>
    if text = "" then
      let w := { w with room := { w.room with Rules := { w.room.Rules with hasWelcomeMessage := false } } }
      .ok (sendInternal w
        { Typ := .MessageTypeNotice
          Body := "welcome message disabled"
          Target := { Typ := .TargetTypeOne, Client := some client } })
    else
      let w := { w with room := { w.room with Rules :=
        { w.room.Rules with hasWelcomeMessage := true, welcomeMessage := text } } }
      .ok (sendInternal w
        { Typ := .MessageTypeNotice
          Body := "welcome message set to: " ++ text
          Target := { Typ := .TargetTypeOne, Client := some client } })

/-- The method `Room.password`; `password` is a `*string`. -/
def password (w : World) (client : ClientId) (password : Option String) : World :=
  match password with
  | none =>
    let w := { w with room := { w.room with Rules := { w.room.Rules with hasPassword := false } } }
    sendInternal w
      { Typ := .MessageTypeNotice
        Body := "password disabled"
        Target := { Typ := .TargetTypeOne, Client := some client } }
  | some text =>
    let w := { w with room := { w.room with Rules :=
      { w.room.Rules with hasPassword := true, password := text } } }
    sendInternal w
      { Typ := .MessageTypeNotice
        Body := "password set to: " ++ text
        Target := { Typ := .TargetTypeOne, Client := some client } }

/-- The handler switch of `Room.handleExternal` (`switch command.Name`). -/
def dispatch (w : World) (client : ClientId) (command : Command) : Except Fault World :=
  if command.Name = "nick" then
    match command.Args with
    | a0 :: _ => .ok (setNick w client a0)
    | [] => .error .indexOutOfRange
  else if command.Name = "who" then
    .ok (getWho w client)
  else if command.Name = "w" then
    match command.Args with
    | a0 :: a1 :: _ => .ok (whisper w client a0 a1)
    | _ => .error .indexOutOfRange
  else if command.Name = "op" then
    match command.Args with
    | a0 :: a1 :: _ => .ok (op w client a0 a1)
    | _ => .error .indexOutOfRange
  else if command.Name = "welcome" then
    welcome w client command.Args.head?
  else if command.Name = "password" then
    .ok (password w client command.Args.head?)
  else
    .ok w

/-- The method `Room.handleExternal`. -/
def handleExternal (w : World) (message : ClientMessage) : Except Fault (World × Option GoError) :=
  match message.Typ with
  | .MessageTypeMessage =>
    let data := clientData w message.Client
    if data.Nick = "" then
      .ok (sendInternal w
        { Typ := .MessageTypeError
          Body := "you must set a nickname with /nick before sending messages"
          Target := { Typ := .TargetTypeOne, Client := some message.Client } }, none)
    else
      let res := handleInternal w (message.Promote data w.now)
      if res.2 = some .roomErrShouldQuit then
        .ok (res.1, some .roomErrShouldQuit)
      else
        .ok (res.1, none)
  | .MessageTypeCommand =>
    match message.Command with
    | none => .ok (w, none)
    | some command =>
      let w :=
        if w.room.Rules.noCommands then
          sendInternal w
            { Typ := .MessageTypeError
              Body := "commands are disabled on this room"
              Target := { Typ := .TargetTypeOne, Client := some message.Client } }
        else w
      let data := clientData w message.Client
      if command.OPLevel > data.OPLevel then
        .ok (sendInternal w
          { Typ := .MessageTypeError
            Body := "insufficient permission (" ++ OPLevel.String data.OPLevel ++ ") to use " ++
              command.Name ++ " (" ++ OPLevel.String command.OPLevel ++ ")"
            Target := { Typ := .TargetTypeOne, Client := some message.Client } }, none)
      else
        match dispatch w message.Client command with
        | .error f => .error f
        | .ok w => .ok (w, none)
  | _ => .ok (w, none)

/-- The struct `RegisterRequest`. -/
structure RegisterRequest where
  Client : ClientId
  WantsNick : String := ""
  Creator : Bool := false
  deriving DecidableEq, Repr

/-- The struct `UnregisterRequest`. -/
structure UnregisterRequest where
  Client : ClientId
  Reason : String := ""
  deriving DecidableEq, Repr

/-- What the `select` of `Room.Run` receives: a request, the head of `Internal`, or an
inbound message.  A registration comes with the color drawn for the new profile. -/
inductive Event where
  | Register (req : RegisterRequest) (color : String)
  | Unregister (req : UnregisterRequest)
  | Internal
  | External (message : ClientMessage)

/-- One iteration of the loop of `Room.Run`: the state after it, and whether `Run`
returned.  The case `Internal` takes the head of the queue and cannot fire on an empty one.
The case `Register` is given as completed, its send done: `registerCase` tells when that
send waits. -/
def RunCase (w : World) (ev : Event) : Except Fault (World × Bool) :=
  match ev with
  | .Register req color =>
    let data := NewClientDataExternal req.Creator color
    let w := setClientData w req.Client data
    let w := if !w.room.Rules.noCommands && req.WantsNick ≠ "" then setNick w req.Client req.WantsNick else w
    let w :=
      if w.room.Rules.hasWelcomeMessage then
        sendClient w req.Client
          (RoomMessage.Fill { Typ := .MessageTypeNotice, Body := w.room.Rules.welcomeMessage } w.now)
      else w
    .ok (w, false)
  | .Unregister req =>
    match mapGet w.room.Clients req.Client with
    | none => .ok (w, false)
    | some data =>
      let w :=
        if data.Nick ≠ "" then
          sendInternal w
            { Typ := .MessageTypeLeave
              Body := data.Nick ++ " left the room: " ++ req.Reason
              Target := { Typ := .TargetTypeAll } }
        else w
      let res := remove w req.Client
      .ok (res.1, shouldQuit res.1 res.2)
  | .Internal =>
    match w.room.Internal with
    | [] => .ok (w, false)
    | message :: rest =>
      let w := { w with room := { w.room with Internal := rest } }
      let res := handleInternal w message
      .ok (res.1, shouldQuit res.1 res.2)
  | .External message =>
    if w.room.Rules.noMessages then
      .ok (sendInternal w
        { Typ := .MessageTypeError
          Body := "messages are disabled on this room"
          Target := { Typ := .TargetTypeOne, Client := some message.Client } }, false)
    else
      match handleExternal w message with
      | .error f => .error f
      | .ok res => .ok (res.1, shouldQuit res.1 res.2)

/-! ## Named parts of `handleExternal` and `Run` -/

/-- The conditional notice sent first in the command case of `handleExternal`. -/
def afterDisabledNotice (w : World) (client : ClientId) : World :=
  if w.room.Rules.noCommands then
    sendInternal w
      { Typ := .MessageTypeError
        Body := "commands are disabled on this room"
        Target := { Typ := .TargetTypeOne, Client := some client } }
  else w

/-- The nickname step of the `Register` case of `Room.Run`. -/
def registerNick (w : World) (req : RegisterRequest) : World :=
  if !w.room.Rules.noCommands && req.WantsNick ≠ "" then setNick w req.Client req.WantsNick else w

/-- The welcome step of the `Register` case of `Room.Run`, once the channel has taken the
notice (`registerCase` tells when the send waits). -/
def registerWelcome (w : World) (req : RegisterRequest) : World :=
  if w.room.Rules.hasWelcomeMessage then
    sendClient w req.Client
      (RoomMessage.Fill { Typ := .MessageTypeNotice, Body := w.room.Rules.welcomeMessage } w.now)
  else w

/-- The `Register` case of `Room.Run` as far as the loop gets on its own: the state it
reaches, and whether the case has completed.  The send `req.Client.Send <- ...` is a
plain channel send: it completes at once when the channel holds fewer than `sendCap`
values, and on a full channel the loop waits at it, with the roster and the nickname
already written, until the session takes a value off the channel. -/
def registerCase (w : World) (req : RegisterRequest) (color : String) : World × Bool :=
  let data := NewClientDataExternal req.Creator color
  let w := setClientData w req.Client data
  let w := if !w.room.Rules.noCommands && req.WantsNick ≠ "" then setNick w req.Client req.WantsNick else w
  if w.room.Rules.hasWelcomeMessage then
    if (w.Send req.Client).length < sendCap then
      (sendClient w req.Client
        (RoomMessage.Fill { Typ := .MessageTypeNotice, Body := w.room.Rules.welcomeMessage } w.now),
        true)
    else (w, false)
  else (w, true)

/-- The leave notice of the `Unregister` case of `Room.Run`. -/
def unregisterNotice (w : World) (data : ClientDataExternal) (req : UnregisterRequest) : World :=
  if data.Nick ≠ "" then
    sendInternal w
      { Typ := .MessageTypeLeave
        Body := data.Nick ++ " left the room: " ++ req.Reason
        Target := { Typ := .TargetTypeAll } }
  else w

/-! ## Roster invariants and reachable states -/

/-- Nicknames are pairwise distinct among the non-empty ones. -/
def NickUnique (clients : List (ClientId × ClientDataExternal)) : Prop :=
  ∀ a ∈ clients, ∀ b ∈ clients,
    a.1 ≠ b.1 → a.2.Nick ≠ "" → b.2.Nick ≠ "" → a.2.Nick ≠ b.2.Nick

/-- A roster is a map (no key twice) with distinct non-empty nicknames. -/
def RosterInv (clients : List (ClientId × ClientDataExternal)) : Prop :=
  (clients.map Prod.fst).Nodup ∧ NickUnique clients

/-- The states of a room loop started on an empty roster: between two iterations of
`Room.Run` the map may be visited in another order, and the other goroutines may
change everything but the room itself (drain a `Send` channel, advance the clock,
touch the registry). -/
inductive Reachable : World → Prop where
  | start (w : World) (h : w.room.Clients = []) : Reachable w
  | step (w w' : World) (ev : Event) (quit : Bool) (h : Reachable w)
      (hs : RunCase w ev = .ok (w', quit)) : Reachable w'
  | order (w : World) (l : List (ClientId × ClientDataExternal)) (h : Reachable w)
      (hl : l.Perm w.room.Clients) : Reachable { w with room := { w.room with Clients := l } }
  | outside (w w' : World) (h : Reachable w) (hr : w'.room = w.room) : Reachable w'

/-- A room state with two named members, reached by two registrations. -/
def twoMembers : World :=
  let w0 : World := { room := NewRoom "den" }
  let r1 : RegisterRequest := { Client := 1, WantsNick := " alice ", Creator := true }
  let r2 : RegisterRequest := { Client := 2, WantsNick := "bob" }
  let w1 := registerWelcome (registerNick
    (setClientData w0 1 (NewClientDataExternal true "#aaaaaa")) r1) r1
  registerWelcome (registerNick
    (setClientData w1 2 (NewClientDataExternal false "#bbbbbb")) r2) r2

/-! ## The loop over time -/

/-- The loop of `Room.Run` over the events it receives, in order, until it returns:
the state reached, and whether `Run` returned. -/
def Run (w : World) (events : List Event) : Except Fault (World × Bool) :=
  match events with
  | [] => .ok (w, false)
  | ev :: rest =>
    match RunCase w ev with
    | .error f => .error f
    | .ok (w', true) => .ok (w', true)
    | .ok (w', false) => Run w' rest

/-- The registry, the room name and the `keepOpen` rule are as before. -/
def Keeps (w w' : World) : Prop :=
  w'.Rooms = w.Rooms ∧ w'.room.Rules.keepOpen = w.room.Rules.keepOpen ∧ w'.room.Name = w.room.Name

/-- A room of three members in which the outbound queue of client 1 is full. -/
def crowdedRoom : World :=
  { room :=
      { Name := "den"
        Clients :=
          [(1, { Nick := "ann", OPLevel := OPLevelAdmin }),
           (2, { Nick := "bob", OPLevel := OPLevelUser }),
           (3, { OPLevel := OPLevelUser })] }
    Send := fun c => if c = 1 then List.replicate sendCap { Typ := .MessageTypeReset } else [] }

/-- A room with a welcome message and one member; the outbound queue of the session 4,
which is not a member, is full. -/
def welcomingRoom : World :=
  { room :=
      { Name := "den"
        Clients := [(1, { Nick := "ann", Color := "#aaaaaa", OPLevel := OPLevelAdmin })]
        Rules := { hasWelcomeMessage := true, welcomeMessage := "hello" } }
    Send := fun c => if c = 4 then List.replicate sendCap { Typ := .MessageTypeReset } else [] }

/-- A notice for everyone. -/
def noticeToAll : RoomMessage :=
  { ID := "msg-1", Typ := .MessageTypeNotice, Time := some 1, Nick := "*", Color := "#f9e2af",
    Body := "hello", Target := { Typ := .TargetTypeAll } }

/-- A room with a single member, registered under its name, with the given `keepOpen`. -/
def soloRoom (keepOpen : Bool) : World :=
  { room :=
      { Name := "den"
        Clients := [(1, { Nick := "ann", OPLevel := OPLevelAdmin })]
        Rules := { keepOpen := keepOpen } }
    Rooms := [("main", 0), ("den", 1)] }

/-- The private error `body` for `client`, as `Fill` completes it at clock reading `now`. -/
def privateError (client : ClientId) (body : String) (now : Nat) : RoomMessage :=
  { ID := messageID now
    Typ := .MessageTypeError
    Time := some now
    Nick := "*"
    Color := "#f38ba8"
    Body := body
    Target := { Typ := .TargetTypeOne, Nick := "", Client := some client } }

/-- The private notice `body` for `client`, as `Fill` completes it at clock reading `now`. -/
def privateNotice (client : ClientId) (body : String) (now : Nat) : RoomMessage :=
  { ID := messageID now
    Typ := .MessageTypeNotice
    Time := some now
    Nick := "*"
    Color := "#f9e2af"
    Body := body
    Target := { Typ := .TargetTypeOne, Nick := "", Client := some client } }

/-- The state `w` with `ms` sent on the `Internal` channel and nothing else changed. -/
def withInternal (w : World) (ms : List RoomMessage) : World :=
  { w with room := { w.room with Internal := w.room.Internal ++ ms } }

/-- The command that `/welcome` with the arguments `args` parses to (see `commandOf`). -/
def welcomeCommand (args : List String) : Command :=
  { Name := "welcome", Args := args, Target := .CommandTargetRoom, OPLevel := OPLevelAdmin }

/-- The command that `/password` with the arguments `args` parses to (see `commandOf`). -/
def passwordCommand (args : List String) : Command :=
  { Name := "password", Args := args, Target := .CommandTargetRoom, OPLevel := OPLevelAdmin }

/-- The inbound message by which a session forwards `command` to the room. -/
def commandMessage (client : ClientId) (command : Command) : ClientMessage :=
  { Typ := .MessageTypeCommand, Client := client, Command := some command }

/-- A room with `noMessages` set and commands allowed, with one admin member. -/
def quietRoom : World :=
  { room :=
      { Name := "den"
        Clients := [(1, { Nick := "ann", OPLevel := OPLevelAdmin })]
        Rules := { noMessages := true } } }

/-- The state `w` with the rules replaced by `rules`. -/
def withRules (w : World) (rules : Rules) : World :=
  { w with room := { w.room with Rules := rules } }

/-! ## command.go: ParseCommand and Help -/

/-- The states of the tokenizer of `shlex`. -/
inductive LexState where
  | startState
  | inWordState
  | escapingState
  | escapingQuotedState
  | quotingEscapingState
  | quotingState
  | commentState
  deriving DecidableEq, Repr

/-- The rune classes of `shlex`: space, escaping quote, non-escaping quote, escape, comment. -/
def isShellSpace (c : Char) : Bool :=
  c = ' ' || c = '\t' || c = '\r' || c = '\n'

/-- The double quote, the escaping quote of `shlex`. -/
def escapingQuoteRune : Char := Char.ofNat 34

/-- The single quote, the non-escaping quote of `shlex`. -/
def nonEscapingQuoteRune : Char := Char.ofNat 39

/-- The backslash, the escape rune of `shlex`. -/
def escapeRune : Char := Char.ofNat 92

/-- The comment rune of `shlex`. -/
def commentRune : Char := '#'

/-- Modelled from the spec: the tokenizer behind `shlex.Split` (library
github.com/google/shlex, not part of the repository), the shell-style tokenization
honoring quoting that `ParseCommand` calls.  It scans `input` in state `state` with the runes
`value` of the current token, after the words `words`; comment tokens are dropped. -/
def scanStream (state : LexState) (value : List Char) (input : List Char)
    (words : List String) : Except String (List String) :=
  match input with
  | [] =>
    match state with
    | .startState => .ok words
    | .inWordState => .ok (words ++ [String.mk value])
    | .escapingState => .error "EOF found after escape character"
    | .escapingQuotedState => .error "EOF found after escape character"
    | .quotingEscapingState => .error "EOF found when expecting closing quote"
    | .quotingState => .error "EOF found when expecting closing quote"
    | .commentState => .ok words
  | c :: rest =>
    match state with
    | .startState =>
      if isShellSpace c then scanStream .startState [] rest words
      else if c = escapingQuoteRune then scanStream .quotingEscapingState [] rest words
      else if c = nonEscapingQuoteRune then scanStream .quotingState [] rest words
      else if c = escapeRune then scanStream .escapingState [] rest words
      else if c = commentRune then scanStream .commentState [] rest words
      else scanStream .inWordState [c] rest words
    | .inWordState =>
      if isShellSpace c then scanStream .startState [] rest (words ++ [String.mk value])
      else if c = escapingQuoteRune then scanStream .quotingEscapingState value rest words
      else if c = nonEscapingQuoteRune then scanStream .quotingState value rest words
      else if c = escapeRune then scanStream .escapingState value rest words
      else scanStream .inWordState (value ++ [c]) rest words
    | .escapingState => scanStream .inWordState (value ++ [c]) rest words
    | .escapingQuotedState => scanStream .quotingEscapingState (value ++ [c]) rest words
    | .quotingEscapingState =>
      if c = escapingQuoteRune then scanStream .inWordState value rest words
      else if c = escapeRune then scanStream .escapingQuotedState value rest words
      else scanStream .quotingEscapingState (value ++ [c]) rest words
    | .quotingState =>
      if c = nonEscapingQuoteRune then scanStream .inWordState value rest words
      else scanStream .quotingState (value ++ [c]) rest words
    | .commentState =>
      if c = '\n' then scanStream .startState [] rest words
      else scanStream .commentState (value ++ [c]) rest words

/-- Modelled from the spec: the library function `shlex.Split`: the words of `s`, or the
text of the tokenization error. -/
def shlexSplit (s : String) : Except String (List String) :=
  scanStream .startState [] s.data []

/-- The function `strings.HasPrefix` for a prefix of one rune. -/
def HasPrefix (s : String) (c : Char) : Bool :=
  match s.data with
  | [] => false
  | d :: _ => d = c

/-- The function `strings.TrimPrefix` for a prefix of one rune. -/
def TrimPrefix (s : String) (c : Char) : String :=
  match s.data with
  | [] => s
  | d :: rest => if d = c then String.mk rest else s

/-- The function `ParseCommand`: the command pointer and the error text it returns. -/
def ParseCommand (input : String) : Except Fault (Option Command × Option String) :=
  let input := TrimSpace input
  if input = "" || !HasPrefix input '/' then .ok (none, none)
  else
    match shlexSplit input with
    | .error err => .ok (none, some ("failed to parse command: " ++ err))
    | .ok tokens =>
      match tokens with
      | [] => .error .indexOutOfRange
      | t0 :: args =>
        let name := TrimPrefix t0 '/'
        let command : Command := { Name := name, Args := args }
        match mapGet Commands name with
        | none => .ok (some command, some ("unknown command: " ++ name))
        | some spec =>
          if args.length < spec.ArgsMin then
            .ok (some command,
              some ("missing arguments for: " ++ name ++ "\nUsage:\n  " ++ spec.Help))
          else if args.length > spec.ArgsMax then
            .ok (some command,
              some ("too many arguments for: " ++ name ++ "\nUsage:\n  " ++ spec.Help))
          else
            .ok (some { Name := name, Args := args, Target := spec.Target, OPLevel := spec.OPLevel },
              none)

/-- The function `Help`; `visited` is the table `Commands` in the order in which `range`
visits it. -/
def Help (visited : List (String × CommandSpec)) (args : List String) : String :=
  match args with
  | [] => Join (visited.map (fun e => "/" ++ e.2.Name ++ ": " ++ e.2.Desc)) "\n"
  | a0 :: _ =>
    match mapGet Commands a0 with
    | none => "unknown command"
    | some command => "/" ++ command.Name ++ ": " ++ command.Desc ++ "\n  " ++ command.Help

/-! ## client.go and main.go: the session -/

/-- The method `Rules.Password`. -/
def Rules.Password (r : Rules) (password : String) : Rules :=
  { r with hasPassword := true, password := password }

/-- The method `Rules.WelcomeMessage`. -/
def Rules.WelcomeMessage (r : Rules) (message : String) : Rules :=
  { r with hasWelcomeMessage := true, welcomeMessage := message }

/-- The method `Rules.NoCommands`. -/
def Rules.NoCommands (r : Rules) : Rules := { r with noCommands := true }

/-- The method `Rules.NoMessages`. -/
def Rules.NoMessages (r : Rules) : Rules := { r with noMessages := true }

/-- The method `Rules.KeepOpen`. -/
def Rules.KeepOpen (r : Rules) : Rules := { r with keepOpen := true }

/-- The constant `DefaultRoom`. -/
def DefaultRoom : String := "main"

/-- The struct `ClientDataInternal`. -/
structure ClientDataInternal where
  Nick : String := ""
  deriving DecidableEq, Repr

/-- A `*Room` as the sessions use it: the room, the contents of its `Register`,
`Unregister` and `External` channels, and whether `go room.Run()` has been issued. -/
structure RoomProc where
  room : Room
  Register : List RegisterRequest := []
  Unregister : List UnregisterRequest := []
  External : List ClientMessage := []
  running : Bool := false

/-- The struct `Client`: the handle of the session, the contents of its `Send` and `Recv`
channels, its current room and what it remembers. -/
structure Client where
  id : ClientId
  Send : List RoomMessage := []
  Recv : List ClientMessage := []
  Room : Option Nat := none
  Data : ClientDataInternal := {}

/-- What the sessions share: the registry `Rooms`, the room objects by handle (handles
from `fresh` on are not allocated yet), and the clock. -/
structure Net where
  Rooms : List (String × Nat) := []
  procs : Nat → RoomProc
  fresh : Nat := 0
  now : Nat := 0

/-- The room object `id` replaced by `f` of it. -/
def Net.update (n : Net) (id : Nat) (f : RoomProc → RoomProc) : Net :=
  { n with procs := fun i => if i = id then f (n.procs id) else n.procs i }

/-- The send `room.Register <- req` on the room object `id`. -/
def Net.sendRegister (n : Net) (id : Nat) (req : RegisterRequest) : Net :=
  n.update id (fun p => { p with Register := p.Register ++ [req] })

/-- The send `room.Unregister <- req` on the room object `id`. -/
def Net.sendUnregister (n : Net) (id : Nat) (req : UnregisterRequest) : Net :=
  n.update id (fun p => { p with Unregister := p.Unregister ++ [req] })

/-- The send `room.External <- m` on the room object `id`. -/
def Net.sendExternal (n : Net) (id : Nat) (m : ClientMessage) : Net :=
  n.update id (fun p => { p with External := p.External ++ [m] })

/-- The send `c.Send <- m`. -/
def Client.put (c : Client) (m : RoomMessage) : Client :=
  { c with Send := c.Send ++ [m] }

/-- The send `c.Send <- RoomMessage{Type: MessageTypeError, Body: body}.Fill()`. -/
def Client.putError (c : Client) (body : String) (now : Nat) : Client :=
  c.put (RoomMessage.Fill { Typ := .MessageTypeError, Body := body } now)

/-- The block "exit current room" of `Client.start` and `Client.join`. -/
def Client.leave (c : Client) (n : Net) (reason : String) : Client × Net :=
  match c.Room with
  | none => (c, n)
  | some old =>
    let n := n.sendUnregister old { Client := c.id, Reason := reason }
    let c := { c with Send := [] }
    let c := { c with Recv := [] }
    let c := { c with Room := none }
    (c.put { Typ := .MessageTypeReset }, n)

/-- The statements "create the room" of `Client.start`: the new room object gets the
handle `n.fresh`, is registered under its name and its loop is started. -/
def Net.create (n : Net) (roomName : String) (password : Option String) : Net :=
  let room := NewRoom roomName
  let room :=
    match password with
    | some p => { room with Rules := room.Rules.Password p }
    | none => room
  { n with
    Rooms := mapSet n.Rooms roomName n.fresh
    procs := fun i => if i = n.fresh then { room := room, running := true } else n.procs i
    fresh := n.fresh + 1 }

/-- The method `Client.start`. -/
def Client.start (c : Client) (n : Net) (roomName : String) (password : Option String) :
    Client × Net :=
  match mapGet n.Rooms roomName with
  | some _ => (c.putError ("room " ++ roomName ++ " already exists") n.now, n)
  | none =>
    let left := c.leave n ("starting room " ++ roomName)
    let c := left.1
    let id := left.2.fresh
    let n := left.2.create roomName password
    let c := { c with Room := some id }
    (c, n.sendRegister id { Client := c.id, WantsNick := c.Data.Nick, Creator := true })

/-- The statements "join room" at the end of `Client.join`, after the checks. -/
def Client.enter (c : Client) (n : Net) (roomName : String) (id : Nat) : Client × Net :=
  let left := c.leave n ("joining room " ++ roomName)
  let c := left.1
  let n := left.2
  let c := { c with Room := some id }
  (c, n.sendRegister id { Client := c.id, WantsNick := c.Data.Nick })

/-- The method `Client.join`. -/
def Client.join (c : Client) (n : Net) (roomName : String) (password : Option String) :
    Client × Net :=
  match mapGet n.Rooms roomName with
  | none => (c.putError ("room " ++ roomName ++ " does not exist") n.now, n)
  | some id =>
    let rules := (n.procs id).room.Rules
    if rules.hasPassword then
      match password with
      | none => (c.putError "room has a password" n.now, n)
      | some given =>
        if rules.password ≠ given then (c.putError "incorrect password" n.now, n)
        else c.enter n roomName id
    else c.enter n roomName id

/-- The send `c.Room.External <- m`; `c.Room` is dereferenced. -/
def Client.forward (c : Client) (n : Net) (m : ClientMessage) : Except Fault Net :=
  match c.Room with
  | none => .error .nilDereference
  | some id => .ok (n.sendExternal id m)

/-- The method `Client.command`; `visited` is the order in which `Help` ranges over
`Commands`. -/
def Client.command (c : Client) (n : Net) (visited : List (String × CommandSpec))
    (command : Command) : Except Fault (Client × Net) :=
  if command.Name = "join" then
    match command.Args with
    | [] => .error .indexOutOfRange
    | a0 :: rest => .ok (c.join n a0 rest.head?)
  else if command.Name = "start" then
    match command.Args with
    | [] => .error .indexOutOfRange
    | a0 :: rest => .ok (c.start n a0 rest.head?)
  else if command.Name = "exit" then
    .ok (c.join n "main" none)
  else if command.Name = "clear" then
    .ok (c.put { Typ := .MessageTypeReset }, n)
  else if command.Name = "nick" then
    match command.Args with
    | [] => .error .indexOutOfRange
    | a0 :: _ =>
      let c := { c with Data := { c.Data with Nick := a0 } }
      match c.Room with
      | none => .error .nilDereference
      | some id =>
        if !(n.procs id).room.Rules.noCommands then
          match c.forward n { Typ := .MessageTypeCommand, Client := c.id, Command := some command } with
          | .error f => .error f
          | .ok n => .ok (c, n)
        else .ok (c, n)
  else if command.Name = "help" then
    .ok (c.put (RoomMessage.Fill
      { Typ := .MessageTypeCommand, Body := Help visited command.Args } n.now), n)
  else
    .ok (c, n)

/-- The first statement of `Client.handle`, before its loop. -/
def Client.handleStart (c : Client) : Client :=
  c.put { Typ := .MessageTypeReset }

/-- One iteration of the loop of `Client.handle` on a received message: `c.Recv` loses its
head `msg`, which is parsed and dispatched. -/
def Client.handleCase (c : Client) (n : Net) (visited : List (String × CommandSpec)) :
    Except Fault (Client × Net) :=
  match c.Recv with
  | [] => .ok (c, n)
  | msg :: rest =>
    let c := { c with Recv := rest }
    match ParseCommand msg.Body with
    | .error f => .error f
    | .ok (none, _) =>
      match c.forward n msg with
      | .error f => .error f
      | .ok n => .ok (c, n)
    | .ok (some _, some err) => .ok (c.putError err n.now, n)
    | .ok (some command, none) =>
      if command.Target = .CommandTargetRoom then
        match c.forward n { Typ := .MessageTypeCommand, Client := c.id, Command := some command } with
        | .error f => .error f
        | .ok n => .ok (c, n)
      else
        c.command n visited command

/-- What `Client.readPump` puts on `c.Recv` for the frame text `line`. -/
def inboundLine (c : Client) (line : String) : ClientMessage :=
  { Typ := .MessageTypeMessage, Client := c.id, Body := line }

/-! ## The command grammar -/

/-- The partially built command that `ParseCommand` returns with its errors. -/
def partialCommand (name : String) (args : List String) : Command :=
  { Name := name, Args := args }

/-- The command that `ParseCommand` returns on success for the table entry `spec`. -/
def fullCommand (name : String) (args : List String) (spec : CommandSpec) : Command :=
  { Name := name, Args := args, Target := spec.Target, OPLevel := spec.OPLevel }

/-- The eleven command names of the table of the spec. -/
def commandNames : List String :=
  ["join", "start", "exit", "nick", "who", "w", "clear", "help", "op", "welcome", "password"]

/-- The target column of the table of the spec, row by row: client-local or room. -/
def specTarget (name : String) : CommandTarget :=
  if name = "who" ∨ name = "w" ∨ name = "op" ∨ name = "welcome" ∨ name = "password" then
    .CommandTargetRoom
  else .CommandTargetClient

/-- The permission column of the table of the spec, row by row. -/
def specPermission (name : String) : OPLevel :=
  if name = "nick" ∨ name = "who" ∨ name = "w" then OPLevelUser
  else if name = "op" ∨ name = "welcome" ∨ name = "password" then OPLevelAdmin
  else OPLevelNone

/-! ## Help -/

/-- The line of `Help` for one entry of `Commands`. -/
def helpLine (e : String × CommandSpec) : String :=
  "/" ++ e.2.Name ++ ": " ++ e.2.Desc

/-- The lines of a text, cut at every newline, after the runes `cur` of the current line. -/
def splitLinesAux (cs : List Char) (cur : List Char) : List String :=
  match cs with
  | [] => [String.mk cur]
  | c :: rest =>
    if c = '\n' then String.mk cur :: splitLinesAux rest []
    else splitLinesAux rest (cur ++ [c])

/-- The lines of a text (`strings.Split(s, "\n")`). -/
def splitLines (s : String) : List String :=
  splitLinesAux s.data []

/-! ## The dispatch of the session -/

/-- No `External` queue of `n'` holds a chat message that it did not hold in `n`: what
was added is of command type. -/
def NoChatAdded (n n' : Net) : Prop :=
  ∀ i, ∀ m ∈ (n'.procs i).External, m ∈ (n.procs i).External ∨ m.Typ = .MessageTypeCommand

/-! ## Joining and starting rooms -/

/-- The room `roomMain` of `main`: the default lobby. -/
def roomMain : Room :=
  { NewRoom DefaultRoom with
    Rules := (((NewRules.KeepOpen).NoCommands).NoMessages).WelcomeMessage
      "welcome to e74chat.\n - messages are disabled in the main lobby\n - please use /start or /join to start chatting\n - you can run /help for a list of commands" }

/-- The error `body` that a session puts on its own `Send`, as `Fill` completes it. -/
def sessionError (body : String) (now : Nat) : RoomMessage :=
  { ID := messageID now
    Typ := .MessageTypeError
    Time := some now
    Nick := "*"
    Color := "#f38ba8"
    Body := body
    Target := { Typ := .TargetTypeAll, Nick := "", Client := none } }

/-! ## Register and Unregister -/

/-- Some member other than `client` has the nickname `nick` (the test of the loop of
`Room.setNick`). -/
def heldByOther (clients : List (ClientId × ClientDataExternal)) (client : ClientId)
    (nick : String) : Bool :=
  clients.any (fun e => decide (e.1 ≠ client) && decide (e.2.Nick = nick))

/-- The nickname that the `Register` case leaves to the new member. -/
def registeredNick (w : World) (req : RegisterRequest) : String :=
  if w.room.Rules.noCommands = false ∧ TrimSpace req.WantsNick ≠ "" ∧
      heldByOther w.room.Clients req.Client (TrimSpace req.WantsNick) = false then
    TrimSpace req.WantsNick
  else ""

/-- The welcome notice of the `Register` case, as `Fill` completes it. -/
def welcomeNotice (body : String) (now : Nat) : RoomMessage :=
  { ID := messageID now
    Typ := .MessageTypeNotice
    Time := some now
    Nick := "*"
    Color := "#f9e2af"
    Body := body
    Target := { Typ := .TargetTypeAll, Nick := "", Client := none } }

/-- The leave notice of the `Unregister` case, as `Fill` completes it. -/
def leaveNotice (nick reason : String) (now : Nat) : RoomMessage :=
  { ID := messageID now
    Typ := .MessageTypeLeave
    Time := some now
    Nick := "*"
    Color := "#eba0ac"
    Body := nick ++ " left the room: " ++ reason
    Target := { Typ := .TargetTypeAll, Nick := "", Client := none } }

/-! ## Whispers -/

/-- A whisper of the member with profile `d`, as `Fill` completes it. -/
def whisperTo (d : ClientDataExternal) (text : String) (target : Target) (now : Nat) :
    RoomMessage :=
  { ID := messageID now
    Typ := .MessageTypeWhisper
    Time := some now
    Nick := d.Nick
    Color := if d.Color = "" then "#cba6f7" else d.Color
    Body := "whispers: " ++ text
    Target := target }

/-- A room whose member 1 has a nickname and whose members 2 and 3 have none. -/
def nicklessRoom : World :=
  { room :=
      { Name := "den"
        Clients :=
          [(1, { Nick := "ann", Color := "#aaaaaa", OPLevel := OPLevelUser }),
           (2, { Color := "#bbbbbb", OPLevel := OPLevelUser }),
           (3, { Color := "#cccccc", OPLevel := OPLevelUser })] } }

/-! ## Resolved messages -/

/-- The four fields of a delivered message are resolved: identifier, time, nickname and
color. -/
def Good (m : RoomMessage) : Prop :=
  m.ID ≠ "" ∧ m.Time ≠ none ∧ m.Nick ≠ "" ∧ m.Color ≠ ""

/-- Every profile of the roster has a color. -/
def Colored (w : World) : Prop :=
  ∀ e ∈ w.room.Clients, e.2.Color ≠ ""

/-- Every message waiting on the `Internal` channel is resolved. -/
def QueueGood (w : World) : Prop :=
  ∀ m ∈ w.room.Internal, Good m

/-- Every message that `w'` holds on an outbound queue and `w` did not is resolved. -/
def Delivered (w w' : World) : Prop :=
  ∀ c, ∀ m ∈ w'.Send c, m ∈ w.Send c ∨ Good m

/-- An event as the sessions of this program produce it: a registration comes with a
color (`HappyColor().Hex()` is never empty), and a nick or op command carries a required
level of user or more, as `Commands` gives them. -/
def Event.WellFormed (ev : Event) : Prop :=
  match ev with
  | .Register _ color => color ≠ ""
  | .External message =>
    ∀ command, message.Command = some command →
      (command.Name = "nick" ∨ command.Name = "op") → OPLevelUser ≤ command.OPLevel
  | _ => True

/-- The reset signal as the session sends it, without `Fill`. -/
def bareReset : RoomMessage := { Typ := .MessageTypeReset }

/-- The state `w'` keeps what `w` has: colored profiles and a resolved internal queue. -/
def Sound (w : World) : Prop :=
  Colored w ∧ QueueGood w

/-- Every message on the outbound queue of `c'` was there in `c`, is resolved, or is a
bare reset signal. -/
def SessionPlaced (c c' : Client) : Prop :=
  ∀ m ∈ c'.Send, m ∈ c.Send ∨ Good m ∨ m = bareReset

/-- The registry and room objects at start-up: the lobby alone, its loop running. -/
def lobbyNet : Net :=
  { Rooms := [(DefaultRoom, 0)]
    procs := fun _ => { room := roomMain, running := true }
    fresh := 1 }

/-- A session in the lobby that remembers the nickname "ann". -/
def guest : Client :=
  { id := 7, Room := some 0, Data := { Nick := "ann" } }

/-- The lobby and a running room "den" with password "pw". -/
def denNet : Net :=
  { Rooms := [(DefaultRoom, 0), ("den", 1)]
    procs := fun i =>
      if i = 1 then
        { room := { NewRoom "den" with Rules := NewRules.Password "pw" }, running := true }
      else { room := roomMain, running := true }
    fresh := 2 }

/-! ## Changing the nickname -/

/-- The join notice of `Room.setNick`, as `Fill` completes it. -/
def joinNotice (nick : String) (now : Nat) : RoomMessage :=
  { ID := messageID now
    Typ := .MessageTypeJoin
    Time := some now
    Nick := "*"
    Color := "#a6e3a1"
    Body := nick ++ " joined the room"
    Target := { Typ := .TargetTypeAll, Nick := "", Client := none } }

/-- The notice of `Room.setNick` for a changed nickname, as `Fill` completes it. -/
def renameNotice (oldNick newNick : String) (now : Nat) : RoomMessage :=
  { ID := messageID now
    Typ := .MessageTypeNotice
    Time := some now
    Nick := "*"
    Color := "#f9e2af"
    Body := oldNick ++ " changed their nickname to " ++ newNick
    Target := { Typ := .TargetTypeAll, Nick := "", Client := none } }

/-! ## Commands in a room with noCommands -/

/-- The two states differ at most in what waits on the `Internal` channel. -/
def SameButInternal (a b : World) : Prop :=
  a.room.Name = b.room.Name ∧ a.room.Clients = b.room.Clients ∧ a.room.Rules = b.room.Rules ∧
  a.Rooms = b.Rooms ∧ a.Send = b.Send ∧ a.RemoteAddr = b.RemoteAddr ∧ a.now = b.now

/-- The error of `handleExternal` for a room with `noCommands` set, as `Fill` completes it. -/
def disabledError (client : ClientId) (now : Nat) : RoomMessage :=
  privateError client "commands are disabled on this room" now

/-- The error of `handleExternal` for a sender whose level is below the level of the command,
as `Fill` completes it. -/
def permissionError (client : ClientId) (level need : OPLevel) (name : String) (now : Nat) :
    RoomMessage :=
  privateError client ("insufficient permission (" ++ OPLevel.String level ++ ") to use " ++
    name ++ " (" ++ OPLevel.String need ++ ")") now

/-- A room with `noCommands` set and messages allowed, with an admin and a user. -/
def mutedRoom : World :=
  { room :=
      { Name := "den"
        Clients :=
          [(1, { Nick := "ann", Color := "#aaaaaa", OPLevel := OPLevelAdmin }),
           (2, { Nick := "bob", Color := "#bbbbbb", OPLevel := OPLevelUser })]
        Rules := { noCommands := true } } }

/-- The outcome of a handler on two states is alike: the same fault, or two states that
differ at most in the `Internal` channel. -/
def AlikeOutcome (x y : Except Fault World) : Prop :=
  match x, y with
  | .ok a, .ok b => SameButInternal a b
  | .error f, .error g => f = g
  | _, _ => False

/-! ## Who may change rules and levels -/

/-- The rules of `w'` are those of `w`, every handle has in `w'` the permission level it
has in `w`, and the handles in the roster are the same. -/
def SameAuthority (w w' : World) : Prop :=
  w'.room.Rules = w.room.Rules ∧
  ∀ x, (mapGet w'.room.Clients x).map (fun d => d.OPLevel) =
    (mapGet w.room.Clients x).map (fun d => d.OPLevel)

/-- The command names whose handlers write rules or permission levels. -/
def adminNames : List String := ["op", "welcome", "password"]

/-! ## The rooms and the sessions together -/

/-- The server: what the sessions share, the contents of the `Send` channel of every
session, and the remote address of every connection. -/
structure Server where
  net : Net
  Send : ClientId → List RoomMessage := fun _ => []
  RemoteAddr : ClientId → String := fun _ => ""

/-- What the loop of the room object `id` reads and writes. -/
def Server.world (s : Server) (id : Nat) : World :=
  { room := (s.net.procs id).room
    Rooms := s.net.Rooms
    Send := s.Send
    RemoteAddr := s.RemoteAddr
    now := s.net.now }

/-- The server after an iteration of the loop of the room object `id` that ended in the
state `w`: `p` is the room object without the request received, and `quit` tells whether
`Room.Run` returned. -/
def Server.store (s : Server) (id : Nat) (p : RoomProc) (w : World) (quit : Bool) : Server :=
  { s with
    net :=
      { s.net with
        Rooms := w.Rooms
        procs := fun i =>
          if i = id then { p with room := w.room, running := !quit } else s.net.procs i }
    Send := w.Send }

/-- The loop of the room object `id` receives the oldest request on its `Unregister`
channel (the case `req := <-r.Unregister` of `Room.Run`).  A loop that has returned, or
was never started, receives nothing. -/
def Server.recvUnregister (s : Server) (id : Nat) : Except Fault Server :=
  let p := s.net.procs id
  if p.running then
    match p.Unregister with
    | [] => .ok s
    | req :: rest =>
      match RunCase (s.world id) (.Unregister req) with
      | .error f => .error f
      | .ok res => .ok (s.store id { p with Unregister := rest } res.1 res.2)
  else .ok s

/-- The loop of the room object `id` receives the oldest request on its `Register`
channel (the case `req := <-r.Register` of `Room.Run`); `color` is the color drawn for
the new profile.  A loop that has returned, or was never started, receives nothing. -/
def Server.recvRegister (s : Server) (id : Nat) (color : String) : Except Fault Server :=
  let p := s.net.procs id
  if p.running then
    match p.Register with
    | [] => .ok s
    | req :: rest =>
      match RunCase (s.world id) (.Register req color) with
      | .error f => .error f
      | .ok res => .ok (s.store id { p with Register := rest } res.1 res.2)
  else .ok s

/-- The session `c` runs `join`: the registry and the room objects are those of the
server, and the `Send` channel of the session is `c.Send`. -/
def Server.join (s : Server) (c : Client) (roomName : String) (password : Option String) :
    Client × Server :=
  let res := c.join s.net roomName password
  (res.1, { s with net := res.2, Send := fun i => if i = c.id then res.1.Send else s.Send i })

/-- The handle `c` is a key of the roster of the room object `id`. -/
def Net.member (n : Net) (id : Nat) (c : ClientId) : Bool :=
  (mapGet (n.procs id).room.Clients c).isSome

/-- The checks of `Client.join` pass: the name is registered, to the room object `id`, and
the password is the one of the room if it has one. -/
def joinPasses (n : Net) (roomName : String) (password : Option String) (id : Nat) : Prop :=
  mapGet n.Rooms roomName = some id ∧
  ((n.procs id).room.Rules.hasPassword = true →
    password = some (n.procs id).room.Rules.password)

/-- The lobby and a running room "den" whose only member is the session 7. -/
def soloNet : Net :=
  { Rooms := [(DefaultRoom, 0), ("den", 1)]
    procs := fun i =>
      if i = 1 then
        { room :=
            { NewRoom "den" with
              Clients := [(7, { Nick := "ann", Color := "#aaaaaa", OPLevel := OPLevelAdmin })] }
          running := true }
      else { room := roomMain, running := true }
    fresh := 2 }

/-- The session 7 of `soloNet`, in the room "den". -/
def denGuest : Client :=
  { id := 7, Room := some 1, Data := { Nick := "ann" } }

/-! ## Lemmas on maps -/

theorem mem_mapSet {K V : Type} [DecidableEq K] (m : List (K × V)) (k : K) (v : V) (e : K × V) :
    e ∈ mapSet m k v ↔ e = (k, v) ∨ (e.1 ≠ k ∧ e ∈ m) := by
  unfold mapSet
  split
  · rename_i h
    simp only [List.any_eq_true, decide_eq_true_eq] at h
    obtain ⟨x, hx, hk⟩ := h
    simp only [List.mem_map]
    constructor
    · rintro ⟨y, hy, rfl⟩
      by_cases hyk : y.1 = k
      · left; simp [hyk]
      · right; simp [hyk, hy]
    · rintro (rfl | ⟨hne, he⟩)
      · exact ⟨x, hx, by simp [hk]⟩
      · exact ⟨e, he, by simp [hne]⟩
  · rename_i h
    simp only [List.any_eq_true, decide_eq_true_eq, not_exists, not_and] at h
    simp only [List.mem_append, List.mem_singleton]
    constructor
    · rintro (he | rfl)
      · exact Or.inr ⟨h e he, he⟩
      · exact Or.inl rfl
    · rintro (rfl | ⟨_, he⟩)
      · exact Or.inr rfl
      · exact Or.inl he

theorem keys_mapSet_nodup {K V : Type} [DecidableEq K] (m : List (K × V)) (k : K) (v : V)
    (h : (m.map Prod.fst).Nodup) : ((mapSet m k v).map Prod.fst).Nodup := by
  unfold mapSet
  split
  · have : (m.map (fun e => if e.1 = k then (k, v) else e)).map Prod.fst = m.map Prod.fst := by
      rw [List.map_map]
      apply List.map_congr_left
      intro e _
      by_cases hk : e.1 = k <;> simp [hk]
    rw [this]; exact h
  · rename_i hk
    simp only [List.any_eq_true, decide_eq_true_eq, not_exists, not_and] at hk
    rw [List.map_append, List.nodup_append]
    refine ⟨h, by simp, ?_⟩
    intro a ha hb
    simp only [List.map_cons, List.map_nil, List.mem_singleton] at hb
    obtain ⟨x, hx, rfl⟩ := List.mem_map.mp ha
    exact hk x hx hb

theorem mem_mapDelete {K V : Type} [DecidableEq K] (m : List (K × V)) (k : K) (e : K × V) :
    e ∈ mapDelete m k ↔ e ∈ m ∧ e.1 ≠ k := by
  simp [mapDelete]

theorem keys_mapDelete_nodup {K V : Type} [DecidableEq K] (m : List (K × V)) (k : K)
    (h : (m.map Prod.fst).Nodup) : ((mapDelete m k).map Prod.fst).Nodup := by
  unfold mapDelete
  exact h.sublist ((List.filter_sublist m).map Prod.fst)

theorem mapGet_mem {K V : Type} [DecidableEq K] (m : List (K × V)) (k : K) (v : V)
    (h : mapGet m k = some v) : (k, v) ∈ m := by
  induction m with
  | nil => simp [mapGet] at h
  | cons e rest ih =>
    unfold mapGet at h
    split at h
    · rename_i hk
      simp only [Option.some.injEq] at h
      subst hk; subst h
      simp
    · exact List.mem_cons_of_mem _ (ih h)

theorem mapGet_none {K V : Type} [DecidableEq K] (m : List (K × V)) (k : K)
    (h : mapGet m k = none) : ∀ e ∈ m, e.1 ≠ k := by
  induction m with
  | nil => simp
  | cons e rest ih =>
    unfold mapGet at h
    split at h
    · simp at h
    · rename_i hk
      intro x hx
      rcases List.mem_cons.mp hx with rfl | hx
      · exact hk
      · exact ih h x hx

theorem mapGet_of_mem {K V : Type} [DecidableEq K] (m : List (K × V)) (k : K) (v : V)
    (hn : (m.map Prod.fst).Nodup) (h : (k, v) ∈ m) : mapGet m k = some v := by
  induction m with
  | nil => simp at h
  | cons e rest ih =>
    simp only [List.map_cons, List.nodup_cons] at hn
    unfold mapGet
    rcases List.mem_cons.mp h with rfl | h
    · simp
    · have : e.1 ≠ k := by
        intro hk
        apply hn.1
        rw [hk]
        exact List.mem_map.mpr ⟨(k, v), h, rfl⟩
      simp [this, ih hn.2 h]

/-! ## Frame lemmas of the two sends -/

@[simp] theorem sendInternal_Clients (w : World) (m : RoomMessage) :
    (sendInternal w m).room.Clients = w.room.Clients := rfl

@[simp] theorem sendInternal_Rules (w : World) (m : RoomMessage) :
    (sendInternal w m).room.Rules = w.room.Rules := rfl

@[simp] theorem sendInternal_Name (w : World) (m : RoomMessage) :
    (sendInternal w m).room.Name = w.room.Name := rfl

@[simp] theorem sendInternal_Internal (w : World) (m : RoomMessage) :
    (sendInternal w m).room.Internal = w.room.Internal ++ [m.Fill w.now] := rfl

@[simp] theorem sendInternal_Send (w : World) (m : RoomMessage) :
    (sendInternal w m).Send = w.Send := rfl

@[simp] theorem sendInternal_Rooms (w : World) (m : RoomMessage) :
    (sendInternal w m).Rooms = w.Rooms := rfl

@[simp] theorem sendInternal_now (w : World) (m : RoomMessage) :
    (sendInternal w m).now = w.now := rfl

@[simp] theorem sendClient_room (w : World) (c : ClientId) (m : RoomMessage) :
    (sendClient w c m).room = w.room := rfl

@[simp] theorem sendClient_Rooms (w : World) (c : ClientId) (m : RoomMessage) :
    (sendClient w c m).Rooms = w.Rooms := rfl

@[simp] theorem sendClient_Send_self (w : World) (c : ClientId) (m : RoomMessage) :
    (sendClient w c m).Send c = w.Send c ++ [m] := by
  simp [sendClient]

theorem sendClient_Send_other (w : World) (c x : ClientId) (m : RoomMessage) (h : x ≠ c) :
    (sendClient w c m).Send x = w.Send x := by
  simp [sendClient, h]

@[simp] theorem setClientData_Clients (w : World) (c : ClientId) (d : ClientDataExternal) :
    (setClientData w c d).room.Clients = mapSet w.room.Clients c d := rfl

@[simp] theorem setClientData_Rules (w : World) (c : ClientId) (d : ClientDataExternal) :
    (setClientData w c d).room.Rules = w.room.Rules := rfl

@[simp] theorem setClientData_Internal (w : World) (c : ClientId) (d : ClientDataExternal) :
    (setClientData w c d).room.Internal = w.room.Internal := rfl

@[simp] theorem setClientData_Send (w : World) (c : ClientId) (d : ClientDataExternal) :
    (setClientData w c d).Send = w.Send := rfl

@[simp] theorem setClientData_Rooms (w : World) (c : ClientId) (d : ClientDataExternal) :
    (setClientData w c d).Rooms = w.Rooms := rfl

@[simp] theorem setClientData_now (w : World) (c : ClientId) (d : ClientDataExternal) :
    (setClientData w c d).now = w.now := rfl

/-! ## The roster invariant is kept by every operation -/

theorem RosterInv_nil : RosterInv [] := by
  refine ⟨by simp, ?_⟩
  intro a ha
  simp at ha

theorem RosterInv_perm (l m : List (ClientId × ClientDataExternal)) (h : l.Perm m)
    (hi : RosterInv m) : RosterInv l := by
  refine ⟨(h.map Prod.fst).nodup_iff.mpr hi.1, ?_⟩
  intro a ha b hb
  exact hi.2 a (h.subset ha) b (h.subset hb)

theorem RosterInv_sublist (l m : List (ClientId × ClientDataExternal)) (h : l.Sublist m)
    (hi : RosterInv m) : RosterInv l := by
  refine ⟨hi.1.sublist (h.map Prod.fst), ?_⟩
  intro a ha b hb
  exact hi.2 a (h.subset ha) b (h.subset hb)

theorem RosterInv_mapSet (m : List (ClientId × ClientDataExternal)) (k : ClientId)
    (v : ClientDataExternal) (hi : RosterInv m)
    (hv : ∀ e ∈ m, e.1 ≠ k → e.2.Nick ≠ "" → v.Nick ≠ "" → e.2.Nick ≠ v.Nick) :
    RosterInv (mapSet m k v) := by
  refine ⟨keys_mapSet_nodup m k v hi.1, ?_⟩
  intro a ha b hb hab hna hnb
  rcases (mem_mapSet m k v a).mp ha with rfl | ⟨hak, ha⟩
  · rcases (mem_mapSet m k v b).mp hb with rfl | ⟨hbk, hb⟩
    · exact absurd rfl hab
    · exact fun h => hv b hb hbk hnb hna h.symm
  · rcases (mem_mapSet m k v b).mp hb with rfl | ⟨hbk, hb⟩
    · exact hv a ha hak hna hnb
    · exact hi.2 a ha b hb hab hna hnb

theorem clientData_of_mem (w : World) (c : ClientId) (d : ClientDataExternal)
    (hn : (w.room.Clients.map Prod.fst).Nodup) (h : (c, d) ∈ w.room.Clients) :
    clientData w c = d := by
  simp [clientData, mapGet_of_mem _ c d hn h]

theorem clientData_cases (w : World) (c : ClientId) :
    (clientData w c = {} ∧ ∀ e ∈ w.room.Clients, e.1 ≠ c) ∨ (c, clientData w c) ∈ w.room.Clients := by
  unfold clientData
  cases h : mapGet w.room.Clients c with
  | none => exact Or.inl ⟨rfl, mapGet_none _ _ h⟩
  | some d => exact Or.inr (mapGet_mem _ _ _ h)

/-- Rewriting a field other than the nickname of the stored profile keeps the invariant. -/
theorem RosterInv_setSameNick (w : World) (c : ClientId) (v : ClientDataExternal)
    (hi : RosterInv w.room.Clients) (hv : v.Nick = (clientData w c).Nick) :
    RosterInv (mapSet w.room.Clients c v) := by
  apply RosterInv_mapSet _ _ _ hi
  intro e he hec hne hnv
  rw [hv] at hnv ⊢
  rcases clientData_cases w c with ⟨h0, _⟩ | hm
  · rw [h0] at hnv; exact absurd rfl hnv
  · exact hi.2 e he _ hm hec hne hnv

theorem setNick_Clients_inv (w : World) (c : ClientId) (nick : String)
    (hi : RosterInv w.room.Clients) : RosterInv (setNick w c nick).room.Clients := by
  unfold setNick
  simp only
  split
  · simpa using hi
  · split
    · simpa using hi
    · rename_i hany
      simp only [List.any_eq_true, Bool.and_eq_true, decide_eq_true_eq, not_exists, not_and] at hany
      have key : RosterInv (mapSet w.room.Clients c { clientData w c with Nick := TrimSpace nick }) := by
        apply RosterInv_mapSet _ _ _ hi
        intro e he hec _ _
        exact hany e he hec
      split <;> simpa using key

theorem remove_Clients (w : World) (c : ClientId) :
    (remove w c).1.room.Clients = mapDelete w.room.Clients c := by
  unfold remove
  simp only
  split <;> rfl

theorem remove_Rules (w : World) (c : ClientId) :
    (remove w c).1.room.Rules = w.room.Rules := by
  unfold remove
  simp only
  split <;> rfl

theorem remove_Internal (w : World) (c : ClientId) :
    (remove w c).1.room.Internal = w.room.Internal := by
  unfold remove
  simp only
  split <;> rfl

theorem remove_Send (w : World) (c : ClientId) :
    (remove w c).1.Send = w.Send := by
  unfold remove
  simp only
  split <;> rfl

theorem send_Clients_sublist (w : World) (c : ClientId) (m : RoomMessage) :
    (send w c m).1.room.Clients.Sublist w.room.Clients := by
  unfold send
  split
  · simp
  · rw [remove_Clients]; exact List.filter_sublist _

theorem send_Rules (w : World) (c : ClientId) (m : RoomMessage) :
    (send w c m).1.room.Rules = w.room.Rules := by
  unfold send
  split
  · simp
  · exact remove_Rules w c

theorem send_Internal (w : World) (c : ClientId) (m : RoomMessage) :
    (send w c m).1.room.Internal = w.room.Internal := by
  unfold send
  split
  · simp
  · exact remove_Internal w c

theorem handleInternalLoop_frame (todo : List (ClientId × ClientDataExternal)) (w : World)
    (m : RoomMessage) :
    (handleInternalLoop todo w m).1.room.Clients.Sublist w.room.Clients ∧
    (handleInternalLoop todo w m).1.room.Rules = w.room.Rules ∧
    (handleInternalLoop todo w m).1.room.Internal = w.room.Internal := by
  induction todo generalizing w with
  | nil => simp [handleInternalLoop]
  | cons e rest ih =>
    obtain ⟨client, data⟩ := e
    unfold handleInternalLoop
    split
    · exact ih w
    · simp only
      split
      · exact ⟨send_Clients_sublist w client m, send_Rules w client m, send_Internal w client m⟩
      · obtain ⟨h1, h2, h3⟩ := ih (send w client m).1
        exact ⟨h1.trans (send_Clients_sublist w client m), h2.trans (send_Rules w client m),
          h3.trans (send_Internal w client m)⟩

theorem op_Clients_inv (w : World) (c : ClientId) (nick levelName : String)
    (hi : RosterInv w.room.Clients) : RosterInv (op w c nick levelName).room.Clients := by
  unfold op
  split
  · simpa using hi
  · split
    · simpa using hi
    · simp only [sendInternal_Clients, setClientData_Clients]
      exact RosterInv_setSameNick w c _ hi rfl

theorem whisper_Clients (w : World) (c : ClientId) (nick message : String) :
    (whisper w c nick message).room.Clients = w.room.Clients := by
  unfold whisper
  split
  · rfl
  · split <;> rfl

theorem getWho_Clients (w : World) (c : ClientId) :
    (getWho w c).room.Clients = w.room.Clients := rfl

theorem welcome_Clients (w w' : World) (c : ClientId) (message : Option String)
    (h : welcome w c message = .ok w') : w'.room.Clients = w.room.Clients := by
  unfold welcome at h
  split at h
  · simp at h
  · split at h <;> (simp only [Except.ok.injEq] at h; subst h; rfl)

theorem password_Clients (w : World) (c : ClientId) (p : Option String) :
    (password w c p).room.Clients = w.room.Clients := by
  unfold password
  split <;> rfl

theorem dispatch_Clients_inv (w w' : World) (c : ClientId) (command : Command)
    (hi : RosterInv w.room.Clients) (h : dispatch w c command = .ok w') :
    RosterInv w'.room.Clients := by
  unfold dispatch at h
  split at h
  · split at h
    · simp only [Except.ok.injEq] at h; subst h
      exact setNick_Clients_inv w c _ hi
    · simp at h
  · split at h
    · simp only [Except.ok.injEq] at h; subst h
      simpa [getWho_Clients] using hi
    · split at h
      · split at h
        · simp only [Except.ok.injEq] at h; subst h
          simpa [whisper_Clients] using hi
        · simp at h
      · split at h
        · split at h
          · simp only [Except.ok.injEq] at h; subst h
            exact op_Clients_inv w c _ _ hi
          · simp at h
        · split at h
          · rw [welcome_Clients w w' c _ h]; exact hi
          · split at h
            · simp only [Except.ok.injEq] at h; subst h
              simpa [password_Clients] using hi
            · simp only [Except.ok.injEq] at h; subst h
              exact hi

theorem handleInternal_Clients_inv (w : World) (m : RoomMessage)
    (hi : RosterInv w.room.Clients) : RosterInv (handleInternal w m).1.room.Clients :=
  RosterInv_sublist _ _ (handleInternalLoop_frame w.room.Clients w m).1 hi

theorem handleExternal_chat (w : World) (message : ClientMessage)
    (hT : message.Typ = .MessageTypeMessage) :
    handleExternal w message =
      if (clientData w message.Client).Nick = "" then
        .ok (sendInternal w
          { Typ := .MessageTypeError
            Body := "you must set a nickname with /nick before sending messages"
            Target := { Typ := .TargetTypeOne, Client := some message.Client } }, none)
      else
        .ok ((handleInternal w (message.Promote (clientData w message.Client) w.now)).1,
          if (handleInternal w (message.Promote (clientData w message.Client) w.now)).2 =
            some .roomErrShouldQuit then some .roomErrShouldQuit else none) := by
  unfold handleExternal
  simp only [hT]
  split
  · rfl
  · split <;> simp [*]

theorem handleExternal_command (w : World) (message : ClientMessage) (command : Command)
    (hT : message.Typ = .MessageTypeCommand) (hC : message.Command = some command) :
    handleExternal w message =
      if command.OPLevel > (clientData w message.Client).OPLevel then
        .ok (sendInternal (afterDisabledNotice w message.Client)
          { Typ := .MessageTypeError
            Body := "insufficient permission (" ++ OPLevel.String (clientData w message.Client).OPLevel ++
              ") to use " ++ command.Name ++ " (" ++ OPLevel.String command.OPLevel ++ ")"
            Target := { Typ := .TargetTypeOne, Client := some message.Client } }, none)
      else
        match dispatch (afterDisabledNotice w message.Client) message.Client command with
        | .error f => .error f
        | .ok w2 => .ok (w2, none) := by
  unfold handleExternal afterDisabledNotice
  simp only [hT, hC]
  by_cases hn : w.room.Rules.noCommands = true
  · simp only [hn, if_true]
    rfl
  · simp only [hn]
    rfl

theorem handleExternal_other (w : World) (message : ClientMessage)
    (h1 : message.Typ ≠ .MessageTypeMessage)
    (h2 : message.Typ ≠ .MessageTypeCommand ∨ message.Command = none) :
    handleExternal w message = .ok (w, none) := by
  unfold handleExternal
  cases hT : message.Typ <;> simp_all



theorem afterDisabledNotice_Clients (w : World) (c : ClientId) :
    (afterDisabledNotice w c).room.Clients = w.room.Clients := by
  unfold afterDisabledNotice
  split <;> rfl

theorem handleExternal_Clients_inv (w : World) (message : ClientMessage)
    (res : World × Option GoError) (hi : RosterInv w.room.Clients)
    (h : handleExternal w message = .ok res) : RosterInv res.1.room.Clients := by
  by_cases hT : message.Typ = .MessageTypeMessage
  · rw [handleExternal_chat w message hT] at h
    split at h
    · simp only [Except.ok.injEq] at h; subst h
      simpa using hi
    · simp only [Except.ok.injEq] at h; subst h
      exact handleInternal_Clients_inv w _ hi
  · by_cases hC : message.Typ = .MessageTypeCommand
    · cases hcmd : message.Command with
      | none =>
        rw [handleExternal_other w message hT (Or.inr hcmd)] at h
        simp only [Except.ok.injEq] at h; subst h; exact hi
      | some command =>
        rw [handleExternal_command w message command hC hcmd] at h
        split at h
        · simp only [Except.ok.injEq] at h; subst h
          simpa [afterDisabledNotice_Clients] using hi
        · split at h
          · simp at h
          · rename_i w2 hd
            simp only [Except.ok.injEq] at h; subst h
            refine dispatch_Clients_inv _ w2 message.Client command ?_ hd
            simpa [afterDisabledNotice_Clients] using hi
    · rw [handleExternal_other w message hT (Or.inl hC)] at h
      simp only [Except.ok.injEq] at h; subst h; exact hi

theorem RunCase_Register (w : World) (req : RegisterRequest) (color : String) :
    RunCase w (.Register req color) =
      .ok (registerWelcome (registerNick
        (setClientData w req.Client (NewClientDataExternal req.Creator color)) req) req, false) := rfl

theorem RunCase_Unregister_absent (w : World) (req : UnregisterRequest)
    (h : mapGet w.room.Clients req.Client = none) :
    RunCase w (.Unregister req) = .ok (w, false) := by
  simp [RunCase, h]

theorem RunCase_Unregister_member (w : World) (req : UnregisterRequest) (data : ClientDataExternal)
    (h : mapGet w.room.Clients req.Client = some data) :
    RunCase w (.Unregister req) =
      .ok ((remove (unregisterNotice w data req) req.Client).1,
        shouldQuit (remove (unregisterNotice w data req) req.Client).1
          (remove (unregisterNotice w data req) req.Client).2) := by
  simp only [RunCase, h]
  rfl

theorem RunCase_Clients_inv (w w' : World) (ev : Event) (quit : Bool)
    (hi : RosterInv w.room.Clients) (h : RunCase w ev = .ok (w', quit)) :
    RosterInv w'.room.Clients := by
  cases ev with
  | Register req color =>
    rw [RunCase_Register] at h
    simp only [Except.ok.injEq, Prod.mk.injEq] at h
    rw [← h.1]
    have h1 : RosterInv (setClientData w req.Client (NewClientDataExternal req.Creator color)).room.Clients := by
      simp only [setClientData_Clients]
      apply RosterInv_mapSet _ _ _ hi
      intro e _ _ _ hv
      exact absurd rfl hv
    have h2 : RosterInv (registerNick
        (setClientData w req.Client (NewClientDataExternal req.Creator color)) req).room.Clients := by
      unfold registerNick
      split
      · exact setNick_Clients_inv _ _ _ h1
      · exact h1
    unfold registerWelcome
    split
    · simpa using h2
    · exact h2
  | Unregister req =>
    cases hg : mapGet w.room.Clients req.Client with
    | none =>
      rw [RunCase_Unregister_absent w req hg] at h
      simp only [Except.ok.injEq, Prod.mk.injEq] at h
      rw [← h.1]; exact hi
    | some data =>
      rw [RunCase_Unregister_member w req data hg] at h
      simp only [Except.ok.injEq, Prod.mk.injEq] at h
      rw [← h.1, remove_Clients]
      refine RosterInv_sublist _ _ (List.filter_sublist _) ?_
      unfold unregisterNotice
      split <;> simpa using hi
  | Internal =>
    unfold RunCase at h
    simp only at h
    split at h
    · simp only [Except.ok.injEq, Prod.mk.injEq] at h
      rw [← h.1]; exact hi
    · simp only [Except.ok.injEq, Prod.mk.injEq] at h
      rw [← h.1]
      exact handleInternal_Clients_inv _ _ hi
  | External message =>
    unfold RunCase at h
    simp only at h
    split at h
    · simp only [Except.ok.injEq, Prod.mk.injEq] at h
      rw [← h.1]; simpa using hi
    · split at h
      · simp at h
      · rename_i res hr
        simp only [Except.ok.injEq, Prod.mk.injEq] at h
        rw [← h.1]
        exact handleExternal_Clients_inv w _ res hi hr

theorem Reachable_RosterInv (w : World) (h : Reachable w) : RosterInv w.room.Clients := by
  induction h with
  | start w h => rw [h]; exact RosterInv_nil
  | step w w' ev quit _ hs ih => exact RunCase_Clients_inv w w' ev quit ih hs
  | order w l _ hl ih => exact RosterInv_perm l _ hl ih
  | outside w w' _ hr ih => rw [hr]; exact ih

theorem twoMembers_reachable : Reachable twoMembers :=
  Reachable.step _ _ (.Register { Client := 2, WantsNick := "bob" } "#bbbbbb") false
    (Reachable.step _ _ (.Register { Client := 1, WantsNick := " alice ", Creator := true } "#aaaaaa") false
      (Reachable.start { room := NewRoom "den" } rfl) rfl) rfl

/-- C1: in every state a room loop reaches from an empty roster by processing Register,
Unregister, Internal and External events, two distinct clients of the roster whose
nicknames are both non-empty have different nicknames. -/
theorem nick_unique_invariant (w : World) (h : Reachable w)
    (c1 c2 : ClientId) (d1 d2 : ClientDataExternal)
    (h1 : (c1, d1) ∈ w.room.Clients) (h2 : (c2, d2) ∈ w.room.Clients) (hne : c1 ≠ c2)
    (hn1 : d1.Nick ≠ "") (hn2 : d2.Nick ≠ "") : d1.Nick ≠ d2.Nick :=
  (Reachable_RosterInv w h).2 (c1, d1) h1 (c2, d2) h2 hne hn1 hn2

theorem remove_Rooms_of_nonempty (w : World) (c : ClientId)
    (h : ∃ e ∈ w.room.Clients, e.1 ≠ c) :
    (remove w c).1.Rooms = w.Rooms ∧ (remove w c).2 = none := by
  obtain ⟨e, he, hec⟩ := h
  have hmem : e ∈ mapDelete w.room.Clients c := (mem_mapDelete _ _ _).mpr ⟨he, hec⟩
  have hlen : (mapDelete w.room.Clients c).length ≠ 0 := by
    intro h0
    rw [List.length_eq_zero] at h0
    rw [h0] at hmem
    simp at hmem
  unfold remove
  simp [hlen]

/-- The loop of `handleInternal` when exactly the queue of `X` is full, every entry still
to visit is a recipient, and somebody else than `X` is in the roster. -/
theorem handleInternalLoop_one_full (todo : List (ClientId × ClientDataExternal)) (w : World)
    (m : RoomMessage) (X : ClientId)
    (hnd : (todo.map Prod.fst).Nodup)
    (hshould : ∀ e ∈ todo, m.Target.Should e.1 e.2 = true)
    (hfull : sendCap ≤ (w.Send X).length)
    (hroom : ∀ e ∈ todo, e.1 ≠ X → (w.Send e.1).length < sendCap)
    (hother : ∃ e ∈ w.room.Clients, e.1 ≠ X) :
    (handleInternalLoop todo w m).2 = none ∧
    (X ∈ todo.map Prod.fst →
      (handleInternalLoop todo w m).1.room.Clients = mapDelete w.room.Clients X) ∧
    (X ∉ todo.map Prod.fst →
      (handleInternalLoop todo w m).1.room.Clients = w.room.Clients) ∧
    (∀ c, c ∈ todo.map Prod.fst → c ≠ X →
      (handleInternalLoop todo w m).1.Send c = w.Send c ++ [m]) ∧
    (∀ c, (c ∉ todo.map Prod.fst ∨ c = X) →
      (handleInternalLoop todo w m).1.Send c = w.Send c) ∧
    (handleInternalLoop todo w m).1.Rooms = w.Rooms := by
  induction todo generalizing w with
  | nil => simp [handleInternalLoop]
  | cons e rest ih =>
    obtain ⟨client, data⟩ := e
    simp only [List.map_cons, List.nodup_cons] at hnd
    have hs : m.Target.Should client data = true := hshould (client, data) (List.mem_cons_self _ _)
    have hshould2 : ∀ e ∈ rest, m.Target.Should e.1 e.2 = true :=
      fun e he => hshould e (List.mem_cons_of_mem _ he)
    unfold handleInternalLoop
    simp only [hs, Bool.not_true, Bool.false_eq_true, if_false, List.map_cons, List.mem_cons]
    by_cases hX : client = X
    · subst hX
      have hsend : send w client m = remove w client := by
        unfold send
        simp [Nat.not_lt.mpr hfull]
      obtain ⟨hR, hN⟩ := remove_Rooms_of_nonempty w client hother
      rw [hsend]
      simp only [hN]
      have hother2 : ∃ e ∈ (remove w client).1.room.Clients, e.1 ≠ client := by
        obtain ⟨e, he, hec⟩ := hother
        exact ⟨e, by rw [remove_Clients]; exact (mem_mapDelete _ _ _).mpr ⟨he, hec⟩, hec⟩
      have hroom2 : ∀ e ∈ rest, e.1 ≠ client → ((remove w client).1.Send e.1).length < sendCap := by
        intro e he hec
        rw [remove_Send]
        exact hroom e (List.mem_cons_of_mem _ he) hec
      obtain ⟨h1, _, h2, h3, h3b, h4⟩ := ih (remove w client).1 hnd.2 hshould2
        (by rw [remove_Send]; exact hfull) hroom2 hother2
      simp only [reduceCtorEq, if_false]
      refine ⟨h1, ?_, ?_, ?_, ?_, ?_⟩
      · intro _
        rw [h2 hnd.1, remove_Clients]
      · intro h
        exact absurd (Or.inl trivial) h
      · intro c hc hne
        rcases hc with hc | hc
        · exact absurd hc hne
        · rw [h3 c hc hne, remove_Send]
      · intro c hc
        rw [← remove_Send w client]
        apply h3b c
        rcases hc with hc | hc
        · exact Or.inl (fun h => hc (Or.inr h))
        · exact Or.inr hc
      · rw [h4, hR]
    · have hlt : (w.Send client).length < sendCap :=
        hroom (client, data) (List.mem_cons_self _ _) hX
      have hsend : send w client m = (sendClient w client m, none) := by
        unfold send
        simp [hlt]
      rw [hsend]
      have hfull2 : sendCap ≤ ((sendClient w client m).Send X).length := by
        rw [sendClient_Send_other w client X m (Ne.symm hX)]
        exact hfull
      have hroom2 : ∀ e ∈ rest, e.1 ≠ X → ((sendClient w client m).Send e.1).length < sendCap := by
        intro e he hec
        have : e.1 ≠ client := by
          intro h
          apply hnd.1
          rw [← h]
          exact List.mem_map.mpr ⟨e, he, rfl⟩
        rw [sendClient_Send_other w client e.1 m this]
        exact hroom e (List.mem_cons_of_mem _ he) hec
      obtain ⟨h1, h2a, h2, h3, h3b, h4⟩ := ih (sendClient w client m) hnd.2 hshould2 hfull2 hroom2
        (by simpa using hother)
      simp only [reduceCtorEq, if_false]
      refine ⟨h1, ?_, ?_, ?_, ?_, ?_⟩
      · intro h
        rcases h with h | h
        · exact absurd h.symm hX
        · rw [h2a h]; rfl
      · intro h
        rw [h2 (fun h' => h (Or.inr h'))]; rfl
      · intro c hc hne
        rcases hc with hc | hc
        · subst hc
          rw [h3b c (Or.inl hnd.1)]
          simp
        · have hcc : c ≠ client := fun h => hnd.1 (h ▸ hc)
          rw [h3 c hc hne, sendClient_Send_other w client c m hcc]
      · intro c hc
        have hcc : c ≠ client := by
          rcases hc with hc | hc
          · exact fun h => hc (Or.inl h)
          · exact fun h => hX (h ▸ hc)
        rw [← sendClient_Send_other w client c m hcc]
        apply h3b c
        rcases hc with hc | hc
        · exact Or.inl (fun h => hc (Or.inr h))
        · exact Or.inr hc
      · rw [h4]
        rfl

/-- C2: in a roster of at least two members who are all recipients of the message, when
exactly one member `X` has a full outbound queue, `handleInternal` removes `X` from the
roster, keeps every other member and appends the message to its queue, appends nothing
to the queue of `X`, and does not signal the room to quit. -/
theorem broadcast_drops_only_full_client (w : World) (m : RoomMessage) (X : ClientId)
    (hmap : (w.room.Clients.map Prod.fst).Nodup)
    (hN : 2 ≤ w.room.Clients.length)
    (hall : ∀ e ∈ w.room.Clients, m.Target.Should e.1 e.2 = true)
    (hX : X ∈ w.room.Clients.map Prod.fst)
    (hfull : (w.Send X).length = sendCap)
    (hroom : ∀ e ∈ w.room.Clients, e.1 ≠ X → (w.Send e.1).length < sendCap) :
    (∀ e ∈ (handleInternal w m).1.room.Clients, e.1 ≠ X) ∧
    (∀ e ∈ w.room.Clients, e.1 ≠ X →
      e ∈ (handleInternal w m).1.room.Clients ∧
      (handleInternal w m).1.Send e.1 = w.Send e.1 ++ [m]) ∧
    (handleInternal w m).1.room.Clients = mapDelete w.room.Clients X ∧
    (handleInternal w m).1.Send X = w.Send X ∧
    (handleInternal w m).2 = none := by
  have hother : ∃ e ∈ w.room.Clients, e.1 ≠ X := by
    match hc : w.room.Clients, hN, hmap with
    | a :: b :: rest, _, hmap =>
      simp only [List.map_cons, List.nodup_cons, List.mem_cons, not_or] at hmap
      by_cases ha : a.1 = X
      · exact ⟨b, by simp, fun hb => hmap.1.1 (ha.trans hb.symm)⟩
      · exact ⟨a, by simp, ha⟩
  obtain ⟨h1, h2, _, h3, h4, _⟩ := handleInternalLoop_one_full w.room.Clients w m X hmap hall
    (le_of_eq hfull.symm) hroom hother
  unfold handleInternal
  refine ⟨?_, ?_, ?_, h4 X (Or.inr rfl), h1⟩
  · intro e he
    rw [h2 hX] at he
    exact ((mem_mapDelete _ _ _).mp he).2
  · intro e he hne
    refine ⟨?_, h3 e.1 (List.mem_map.mpr ⟨e, he, rfl⟩) hne⟩
    rw [h2 hX]
    exact (mem_mapDelete _ _ _).mpr ⟨he, hne⟩
  · exact h2 hX

theorem Keeps_refl (w : World) : Keeps w w := ⟨rfl, rfl, rfl⟩

theorem Keeps_trans (a b c : World) (h1 : Keeps a b) (h2 : Keeps b c) : Keeps a c :=
  ⟨h2.1.trans h1.1, h2.2.1.trans h1.2.1, h2.2.2.trans h1.2.2⟩

theorem Keeps_sendInternal (w : World) (m : RoomMessage) : Keeps w (sendInternal w m) :=
  ⟨rfl, rfl, rfl⟩

theorem Keeps_sendClient (w : World) (c : ClientId) (m : RoomMessage) :
    Keeps w (sendClient w c m) := ⟨rfl, rfl, rfl⟩

theorem Keeps_setClientData (w : World) (c : ClientId) (d : ClientDataExternal) :
    Keeps w (setClientData w c d) := ⟨rfl, rfl, rfl⟩

theorem Keeps_setNick (w : World) (c : ClientId) (nick : String) : Keeps w (setNick w c nick) := by
  unfold setNick
  simp only
  split
  · exact Keeps_sendInternal _ _
  · split
    · exact Keeps_sendInternal _ _
    · split <;> exact ⟨rfl, rfl, rfl⟩

theorem Keeps_whisper (w : World) (c : ClientId) (nick message : String) :
    Keeps w (whisper w c nick message) := by
  unfold whisper
  split
  · exact Keeps_refl w
  · split <;> exact ⟨rfl, rfl, rfl⟩

theorem Keeps_op (w : World) (c : ClientId) (nick levelName : String) :
    Keeps w (op w c nick levelName) := by
  unfold op
  split
  · exact Keeps_sendInternal _ _
  · split <;> exact ⟨rfl, rfl, rfl⟩

theorem Keeps_welcome (w w' : World) (c : ClientId) (message : Option String)
    (h : welcome w c message = .ok w') : Keeps w w' := by
  unfold welcome at h
  split at h
  · simp at h
  · split at h <;> (simp only [Except.ok.injEq] at h; subst h; exact ⟨rfl, rfl, rfl⟩)

theorem Keeps_password (w : World) (c : ClientId) (p : Option String) :
    Keeps w (password w c p) := by
  unfold password
  split <;> exact ⟨rfl, rfl, rfl⟩

theorem Keeps_dispatch (w w' : World) (c : ClientId) (command : Command)
    (h : dispatch w c command = .ok w') : Keeps w w' := by
  unfold dispatch at h
  split at h
  · split at h
    · simp only [Except.ok.injEq] at h; subst h
      exact Keeps_setNick w c _
    · simp at h
  · split at h
    · simp only [Except.ok.injEq] at h; subst h
      exact ⟨rfl, rfl, rfl⟩
    · split at h
      · split at h
        · simp only [Except.ok.injEq] at h; subst h
          exact Keeps_whisper w c _ _
        · simp at h
      · split at h
        · split at h
          · simp only [Except.ok.injEq] at h; subst h
            exact Keeps_op w c _ _
          · simp at h
        · split at h
          · exact Keeps_welcome w w' c _ h
          · split at h
            · simp only [Except.ok.injEq] at h; subst h
              exact Keeps_password w c _
            · simp only [Except.ok.injEq] at h; subst h
              exact Keeps_refl w

theorem Keeps_remove (w : World) (c : ClientId) (hk : w.room.Rules.keepOpen = true) :
    Keeps w (remove w c).1 ∧ (remove w c).2 = none := by
  unfold remove
  simp [hk, Keeps]

theorem Keeps_send (w : World) (c : ClientId) (m : RoomMessage)
    (hk : w.room.Rules.keepOpen = true) : Keeps w (send w c m).1 ∧ (send w c m).2 = none := by
  unfold send
  split
  · exact ⟨Keeps_sendClient w c m, rfl⟩
  · exact Keeps_remove w c hk

theorem Keeps_handleInternalLoop (todo : List (ClientId × ClientDataExternal)) (w : World)
    (m : RoomMessage) (hk : w.room.Rules.keepOpen = true) :
    Keeps w (handleInternalLoop todo w m).1 ∧ (handleInternalLoop todo w m).2 = none := by
  induction todo generalizing w with
  | nil => exact ⟨Keeps_refl w, rfl⟩
  | cons e rest ih =>
    obtain ⟨client, data⟩ := e
    unfold handleInternalLoop
    split
    · exact ih w hk
    · obtain ⟨h1, h2⟩ := Keeps_send w client m hk
      simp only [h2, reduceCtorEq, if_false]
      obtain ⟨h3, h4⟩ := ih (send w client m).1 (h1.2.1.trans hk)
      exact ⟨Keeps_trans _ _ _ h1 h3, h4⟩

theorem Keeps_afterDisabledNotice (w : World) (c : ClientId) :
    Keeps w (afterDisabledNotice w c) := by
  unfold afterDisabledNotice
  split
  · exact Keeps_sendInternal _ _
  · exact Keeps_refl w

theorem Keeps_handleExternal (w : World) (message : ClientMessage)
    (res : World × Option GoError) (hk : w.room.Rules.keepOpen = true)
    (h : handleExternal w message = .ok res) : Keeps w res.1 := by
  by_cases hT : message.Typ = .MessageTypeMessage
  · rw [handleExternal_chat w message hT] at h
    split at h
    · simp only [Except.ok.injEq] at h; subst h
      exact Keeps_sendInternal _ _
    · simp only [Except.ok.injEq] at h; subst h
      exact (Keeps_handleInternalLoop _ w _ hk).1
  · by_cases hC : message.Typ = .MessageTypeCommand
    · cases hcmd : message.Command with
      | none =>
        rw [handleExternal_other w message hT (Or.inr hcmd)] at h
        simp only [Except.ok.injEq] at h; subst h; exact Keeps_refl w
      | some command =>
        rw [handleExternal_command w message command hC hcmd] at h
        split at h
        · simp only [Except.ok.injEq] at h; subst h
          exact Keeps_trans _ _ _ (Keeps_afterDisabledNotice w _) (Keeps_sendInternal _ _)
        · split at h
          · simp at h
          · rename_i w2 hd
            simp only [Except.ok.injEq] at h; subst h
            exact Keeps_trans _ _ _ (Keeps_afterDisabledNotice w _) (Keeps_dispatch _ w2 _ _ hd)
    · rw [handleExternal_other w message hT (Or.inl hC)] at h
      simp only [Except.ok.injEq] at h; subst h; exact Keeps_refl w

theorem shouldQuit_keepOpen (w : World) (err : Option GoError)
    (hk : w.room.Rules.keepOpen = true) : shouldQuit w err = false := by
  simp [shouldQuit, hk]

theorem Keeps_RunCase (w w' : World) (ev : Event) (quit : Bool)
    (hk : w.room.Rules.keepOpen = true) (h : RunCase w ev = .ok (w', quit)) :
    Keeps w w' ∧ quit = false := by
  cases ev with
  | Register req color =>
    rw [RunCase_Register] at h
    simp only [Except.ok.injEq, Prod.mk.injEq] at h
    refine ⟨?_, h.2.symm⟩
    rw [← h.1]
    have ha := Keeps_setClientData w req.Client (NewClientDataExternal req.Creator color)
    have hb : Keeps (setClientData w req.Client (NewClientDataExternal req.Creator color))
        (registerNick (setClientData w req.Client (NewClientDataExternal req.Creator color)) req) := by
      unfold registerNick
      split
      · exact Keeps_setNick _ _ _
      · exact Keeps_refl _
    have hc : Keeps (registerNick (setClientData w req.Client (NewClientDataExternal req.Creator color)) req)
        (registerWelcome (registerNick
          (setClientData w req.Client (NewClientDataExternal req.Creator color)) req) req) := by
      unfold registerWelcome
      split
      · exact Keeps_sendClient _ _ _
      · exact Keeps_refl _
    exact Keeps_trans _ _ _ (Keeps_trans _ _ _ ha hb) hc
  | Unregister req =>
    cases hg : mapGet w.room.Clients req.Client with
    | none =>
      rw [RunCase_Unregister_absent w req hg] at h
      simp only [Except.ok.injEq, Prod.mk.injEq] at h
      rw [← h.1]; exact ⟨Keeps_refl w, h.2.symm⟩
    | some data =>
      rw [RunCase_Unregister_member w req data hg] at h
      simp only [Except.ok.injEq, Prod.mk.injEq] at h
      have hn : Keeps w (unregisterNotice w data req) := by
        unfold unregisterNotice
        split
        · exact Keeps_sendInternal _ _
        · exact Keeps_refl w
      have hr := Keeps_remove (unregisterNotice w data req) req.Client (hn.2.1.trans hk)
      have hk2 := (Keeps_trans _ _ _ hn hr.1).2.1.trans hk
      rw [shouldQuit_keepOpen _ _ hk2] at h
      rw [← h.1]
      exact ⟨Keeps_trans _ _ _ hn hr.1, h.2.symm⟩
  | Internal =>
    unfold RunCase at h
    simp only at h
    split at h
    · simp only [Except.ok.injEq, Prod.mk.injEq] at h
      rw [← h.1]; exact ⟨Keeps_refl w, h.2.symm⟩
    · rename_i message rest hq
      simp only [Except.ok.injEq, Prod.mk.injEq] at h
      have hl := Keeps_handleInternalLoop w.room.Clients
        { w with room := { w.room with Internal := rest } } message hk
      have hk2 : (handleInternal { w with room := { w.room with Internal := rest } }
          message).1.room.Rules.keepOpen = true :=
        hl.1.2.1.trans hk
      rw [shouldQuit_keepOpen _ _ hk2] at h
      rw [← h.1]
      exact ⟨⟨hl.1.1, hl.1.2.1, hl.1.2.2⟩, h.2.symm⟩
  | External message =>
    unfold RunCase at h
    simp only at h
    split at h
    · simp only [Except.ok.injEq, Prod.mk.injEq] at h
      rw [← h.1]; exact ⟨Keeps_sendInternal _ _, h.2.symm⟩
    · split at h
      · simp at h
      · rename_i res hr
        simp only [Except.ok.injEq, Prod.mk.injEq] at h
        have hke := Keeps_handleExternal w message res hk hr
        rw [shouldQuit_keepOpen _ _ (hke.2.1.trans hk)] at h
        rw [← h.1]
        exact ⟨hke, h.2.symm⟩

theorem Keeps_Run (events : List Event) (w w' : World) (quit : Bool)
    (hk : w.room.Rules.keepOpen = true) (h : Run w events = .ok (w', quit)) :
    Keeps w w' ∧ quit = false := by
  induction events generalizing w with
  | nil =>
    simp only [Run, Except.ok.injEq, Prod.mk.injEq] at h
    rw [← h.1]; exact ⟨Keeps_refl w, h.2.symm⟩
  | cons ev rest ih =>
    unfold Run at h
    split at h
    · simp at h
    · rename_i w1 hr
      exact absurd (Keeps_RunCase w w1 ev true hk hr).2 (by simp)
    · rename_i w1 hr
      have h1 := (Keeps_RunCase w w1 ev false hk hr).1
      obtain ⟨h2, h3⟩ := ih w1 (h1.2.1.trans hk) h
      exact ⟨Keeps_trans _ _ _ h1 h2, h3⟩

theorem mapGet_mapDelete {K V : Type} [DecidableEq K] (m : List (K × V)) (k : K) :
    mapGet (mapDelete m k) k = none := by
  cases h : mapGet (mapDelete m k) k with
  | none => rfl
  | some v => exact absurd rfl ((mem_mapDelete m k (k, v)).mp (mapGet_mem _ _ _ h)).2

/-- C3: unregistering the only member of a room makes the loop return and deletes the
name of the room from the registry exactly when `keepOpen` is false; and a room with
`keepOpen` set never returns from its loop nor touches the registry, whatever events it
processes, and `shouldQuit` is false there for every error value. -/
theorem last_unregister_teardown (w : World) :
    (∀ (c : ClientId) (d : ClientDataExternal) (reason : String),
      w.room.Clients = [(c, d)] →
      ∃ w', RunCase w (.Unregister { Client := c, Reason := reason }) =
          .ok (w', !w.room.Rules.keepOpen) ∧
        w'.room.Clients = [] ∧
        (w.room.Rules.keepOpen = false →
          w'.Rooms = mapDelete w.Rooms w.room.Name ∧ mapGet w'.Rooms w.room.Name = none) ∧
        (w.room.Rules.keepOpen = true → w'.Rooms = w.Rooms)) ∧
    (w.room.Rules.keepOpen = true →
      ∀ (events : List Event) (w' : World) (quit : Bool), Run w events = .ok (w', quit) →
        quit = false ∧ w'.Rooms = w.Rooms ∧ w'.room.Rules.keepOpen = true ∧
        ∀ err, shouldQuit w' err = false) := by
  constructor
  · intro c d reason hc
    have hg : mapGet w.room.Clients c = some d := by simp [hc, mapGet]
    have hcl : (unregisterNotice w d { Client := c, Reason := reason }).room.Clients = [(c, d)] := by
      unfold unregisterNotice
      split <;> simpa using hc
    have hru : (unregisterNotice w d { Client := c, Reason := reason }).room.Rules = w.room.Rules := by
      unfold unregisterNotice
      split <;> rfl
    have hro : (unregisterNotice w d { Client := c, Reason := reason }).Rooms = w.Rooms := by
      unfold unregisterNotice
      split <;> rfl
    have hna : (unregisterNotice w d { Client := c, Reason := reason }).room.Name = w.room.Name := by
      unfold unregisterNotice
      split <;> rfl
    refine ⟨(remove (unregisterNotice w d { Client := c, Reason := reason }) c).1, ?_, ?_, ?_, ?_⟩
    · rw [RunCase_Unregister_member w { Client := c, Reason := reason } d hg]
      congr 2
      unfold shouldQuit remove
      cases hk : w.room.Rules.keepOpen <;> simp [hk, hcl, hru, mapDelete]
    · rw [remove_Clients, hcl]
      simp [mapDelete]
    · intro hk
      have : (remove (unregisterNotice w d { Client := c, Reason := reason }) c).1.Rooms =
          mapDelete w.Rooms w.room.Name := by
        unfold remove
        simp [hk, hcl, hru, hro, hna, mapDelete]
      rw [this]
      exact ⟨rfl, mapGet_mapDelete _ _⟩
    · intro hk
      rw [(Keeps_remove _ c (hru ▸ hk)).1.1, hro]
  · intro hk events w' quit h
    obtain ⟨h1, h2⟩ := Keeps_Run events w w' quit hk h
    exact ⟨h2, h1.1, h1.2.1.trans hk, fun err => shouldQuit_keepOpen w' err (h1.2.1.trans hk)⟩

theorem nick_unique_invariant_witness :
    Reachable twoMembers ∧
    twoMembers.room.Clients =
      [(1, { Nick := "alice", Color := "#aaaaaa", OPLevel := 2 }),
       (2, { Nick := "bob", Color := "#bbbbbb", OPLevel := 1 })] ∧
    "alice" ≠ "bob" :=
  ⟨twoMembers_reachable, by decide,
    nick_unique_invariant twoMembers twoMembers_reachable 1 2
      { Nick := "alice", Color := "#aaaaaa", OPLevel := 2 }
      { Nick := "bob", Color := "#bbbbbb", OPLevel := 1 }
      (by decide) (by decide) (by decide) (by decide) (by decide)⟩

theorem broadcast_drops_only_full_client_witness :
    (handleInternal crowdedRoom noticeToAll).1.room.Clients =
      [(2, { Nick := "bob", OPLevel := OPLevelUser }), (3, { OPLevel := OPLevelUser })] ∧
    (handleInternal crowdedRoom noticeToAll).1.Send 2 = [noticeToAll] ∧
    (handleInternal crowdedRoom noticeToAll).1.Send 3 = [noticeToAll] ∧
    (handleInternal crowdedRoom noticeToAll).1.Send 1 = crowdedRoom.Send 1 ∧
    (handleInternal crowdedRoom noticeToAll).2 = none := by
  have h1 : (crowdedRoom.room.Clients.map Prod.fst).Nodup := by decide
  have h2 : 2 ≤ crowdedRoom.room.Clients.length := by decide
  have h3 : ∀ e ∈ crowdedRoom.room.Clients, noticeToAll.Target.Should e.1 e.2 = true := by decide
  have h4 : 1 ∈ crowdedRoom.room.Clients.map Prod.fst := by decide
  have h5 : (crowdedRoom.Send 1).length = sendCap := by simp [crowdedRoom]
  have h6 : ∀ e ∈ crowdedRoom.room.Clients, e.1 ≠ 1 → (crowdedRoom.Send e.1).length < sendCap := by
    intro e he hne
    have hs : crowdedRoom.Send e.1 = [] := by simp [crowdedRoom, hne]
    rw [hs]
    decide
  have h := broadcast_drops_only_full_client crowdedRoom noticeToAll 1 h1 h2 h3 h4 h5 h6
  refine ⟨h.2.2.1, ?_, ?_, h.2.2.2.1, h.2.2.2.2⟩
  · rw [(h.2.1 (2, { Nick := "bob", OPLevel := OPLevelUser }) (by simp [crowdedRoom]) (by decide)).2]
    simp [crowdedRoom]
  · rw [(h.2.1 (3, { OPLevel := OPLevelUser }) (by simp [crowdedRoom]) (by decide)).2]
    simp [crowdedRoom]

theorem last_unregister_teardown_witness :
    (∃ w', RunCase (soloRoom false) (.Unregister { Client := 1, Reason := "quit" }) = .ok (w', true) ∧
      w'.room.Clients = [] ∧ mapGet w'.Rooms "den" = none) ∧
    (∃ w', RunCase (soloRoom true) (.Unregister { Client := 1, Reason := "quit" }) = .ok (w', false) ∧
      w'.room.Clients = [] ∧ w'.Rooms = [("main", 0), ("den", 1)]) ∧
    (remove (unregisterNotice (soloRoom true) { Nick := "ann", OPLevel := OPLevelAdmin }
      { Client := 1, Reason := "quit" }) 1).1.Rooms = [("main", 0), ("den", 1)] := by
  refine ⟨?_, ?_, ?_⟩
  · obtain ⟨w', h1, h2, h3, _⟩ := (last_unregister_teardown (soloRoom false)).1 1
      { Nick := "ann", OPLevel := OPLevelAdmin } "quit" rfl
    exact ⟨w', h1, h2, (h3 rfl).2⟩
  · obtain ⟨w', h1, h2, _, h4⟩ := (last_unregister_teardown (soloRoom true)).1 1
      { Nick := "ann", OPLevel := OPLevelAdmin } "quit" rfl
    exact ⟨w', h1, h2, h4 rfl⟩
  · exact ((last_unregister_teardown (soloRoom true)).2 rfl
      [.Unregister { Client := 1, Reason := "quit" }]
      (remove (unregisterNotice (soloRoom true) { Nick := "ann", OPLevel := OPLevelAdmin }
        { Client := 1, Reason := "quit" }) 1).1 false rfl).2.1

theorem messageID_ne_empty (now : Nat) : messageID now ≠ "" := by
  unfold messageID
  intro h
  have h1 : ("msg-" ++ toString now).length = 4 + (toString now).length := by
    rw [String.length_append]
    rfl
  rw [h] at h1
  have h2 : ("" : String).length = 0 := rfl
  omega

theorem Fill_privateError (client : ClientId) (body : String) (now : Nat) :
    RoomMessage.Fill
      { Typ := .MessageTypeError
        Body := body
        Target := { Typ := .TargetTypeOne, Client := some client } } now =
    privateError client body now := by
  simp [RoomMessage.Fill, privateError, messageColors]

theorem Fill_privateNotice (client : ClientId) (body : String) (now : Nat) :
    RoomMessage.Fill
      { Typ := .MessageTypeNotice
        Body := body
        Target := { Typ := .TargetTypeOne, Client := some client } } now =
    privateNotice client body now := by
  simp [RoomMessage.Fill, privateNotice, messageColors]

theorem sendInternal_privateError (w : World) (client : ClientId) (body : String) :
    sendInternal w
      { Typ := .MessageTypeError
        Body := body
        Target := { Typ := .TargetTypeOne, Client := some client } } =
    withInternal w [privateError client body w.now] := by
  unfold sendInternal withInternal
  rw [Fill_privateError]

theorem sendInternal_privateNotice (w : World) (client : ClientId) (body : String) :
    sendInternal w
      { Typ := .MessageTypeNotice
        Body := body
        Target := { Typ := .TargetTypeOne, Client := some client } } =
    withInternal w [privateNotice client body w.now] := by
  unfold sendInternal withInternal
  rw [Fill_privateNotice]

theorem privateError_Should (client c : ClientId) (body : String) (now : Nat)
    (d : ClientDataExternal) :
    (privateError client body now).Target.Should c d = true ↔ c = client := by
  simp [privateError, Target.Should]

theorem privateNotice_Should (client c : ClientId) (body : String) (now : Nat)
    (d : ClientDataExternal) :
    (privateNotice client body now).Target.Should c d = true ↔ c = client := by
  simp [privateNotice, Target.Should]

/-- C4: a chat message from a roster member whose nickname is empty delivers nothing to
any outbound queue, leaves roster, rules and registry as they are, and puts exactly one
message on the internal queue: an error whose target is the handle of the sender, so that
the sender is its only recipient. -/
theorem chat_without_nick_private_error (w : World) (message : ClientMessage)
    (d : ClientDataExternal)
    (hT : message.Typ = .MessageTypeMessage)
    (hmem : mapGet w.room.Clients message.Client = some d)
    (hnick : d.Nick = "") :
    ∃ e : RoomMessage,
      handleExternal w message = .ok (withInternal w [e], none) ∧
      (withInternal w [e]).Send = w.Send ∧
      (withInternal w [e]).room.Clients = w.room.Clients ∧
      (withInternal w [e]).room.Rules = w.room.Rules ∧
      (withInternal w [e]).Rooms = w.Rooms ∧
      (withInternal w [e]).room.Internal = w.room.Internal ++ [e] ∧
      e.Typ = .MessageTypeError ∧
      e.Body = "you must set a nickname with /nick before sending messages" ∧
      e.Target = { Typ := .TargetTypeOne, Nick := "", Client := some message.Client } ∧
      ∀ c data, e.Target.Should c data = true ↔ c = message.Client := by
  refine ⟨privateError message.Client
    "you must set a nickname with /nick before sending messages" w.now, ?_, rfl, rfl, rfl, rfl, rfl,
    rfl, rfl, rfl, fun c data => privateError_Should _ _ _ _ _⟩
  rw [handleExternal_chat w message hT]
  have : (clientData w message.Client).Nick = "" := by
    simp [clientData, hmem, hnick]
  rw [if_pos this, sendInternal_privateError]

/-- C5: when a member other than `c` holds the nickname that the requested string trims
to, `setNick` leaves the roster (and rules, queues, registry) unchanged and sends exactly
one message: an error for `c` alone whose body names that nickname as already in use. -/
theorem setNick_conflict_rejected (w : World) (c t : ClientId) (dt : ClientDataExternal)
    (s : String)
    (hmem : (t, dt) ∈ w.room.Clients) (hother : t ≠ c)
    (hheld : dt.Nick = TrimSpace s) (hname : TrimSpace s ≠ "") :
    ∃ e : RoomMessage,
      setNick w c s = withInternal w [e] ∧
      (setNick w c s).room.Clients = w.room.Clients ∧
      (setNick w c s).room.Internal = w.room.Internal ++ [e] ∧
      e.Typ = .MessageTypeError ∧
      e.Body = "nickname " ++ TrimSpace s ++ " is already in use" ∧
      e.Target = { Typ := .TargetTypeOne, Nick := "", Client := some c } ∧
      ∀ x data, e.Target.Should x data = true ↔ x = c := by
  have hset : setNick w c s =
      withInternal w [privateError c ("nickname " ++ TrimSpace s ++ " is already in use") w.now] := by
    unfold setNick
    simp only [if_neg hname]
    have hany : (w.room.Clients.any
        (fun e => decide (e.1 ≠ c) && decide (e.2.Nick = TrimSpace s))) = true := by
      rw [List.any_eq_true]
      exact ⟨(t, dt), hmem, by simp [hother, hheld]⟩
    rw [if_pos hany, sendInternal_privateError]
  refine ⟨_, hset, ?_, ?_, rfl, rfl, rfl, fun x data => privateError_Should _ _ _ _ _⟩
  · rw [hset]; rfl
  · rw [hset]; rfl

theorem findNick_some (l : List (ClientId × ClientDataExternal)) (nick : String) (x : ClientId)
    (h : findNick l nick = some x) : ∃ d, (x, d) ∈ l ∧ d.Nick = nick := by
  induction l with
  | nil => simp [findNick] at h
  | cons e rest ih =>
    obtain ⟨k, d⟩ := e
    unfold findNick at h
    split at h
    · rename_i hd
      simp only [Option.some.injEq] at h
      subst h
      exact ⟨d, List.mem_cons_self _ _, hd⟩
    · obtain ⟨d', hm, hd'⟩ := ih h
      exact ⟨d', List.mem_cons_of_mem _ hm, hd'⟩

theorem findNick_none (l : List (ClientId × ClientDataExternal)) (nick : String) :
    findNick l nick = none ↔ ∀ e ∈ l, e.2.Nick ≠ nick := by
  induction l with
  | nil => simp [findNick]
  | cons e rest ih =>
    obtain ⟨k, d⟩ := e
    unfold findNick
    by_cases hd : d.Nick = nick
    · simp [hd]
    · simp [hd, ih]

theorem findNick_unique (l : List (ClientId × ClientDataExternal)) (nick : String)
    (t : ClientId) (dt : ClientDataExternal) (hu : NickUnique l)
    (hm : (t, dt) ∈ l) (hn : dt.Nick = nick) (hne : nick ≠ "") : findNick l nick = some t := by
  cases h : findNick l nick with
  | none => exact absurd hn ((findNick_none l nick).mp h (t, dt) hm)
  | some x =>
    obtain ⟨d, hx, hd⟩ := findNick_some l nick x h
    by_cases hxt : x = t
    · rw [hxt]
    · exact absurd (hd.trans hn.symm) (hu (x, d) hx (t, dt) hm hxt (hd ▸ hne) (hn ▸ hne))

theorem ParseOPLevel_names (L : String) (h : L = "none" ∨ L = "user" ∨ L = "admin") :
    ∃ level, ParseOPLevel L = .ok level ∧ OPLevel.String level = L := by
  rcases h with rfl | rfl | rfl
  · exact ⟨OPLevelNone, by simp [ParseOPLevel], by decide⟩
  · exact ⟨OPLevelUser, by simp [ParseOPLevel], by decide⟩
  · exact ⟨OPLevelAdmin, by simp [ParseOPLevel], by decide⟩

theorem ParseOPLevel_unknown (L : String) (h : ¬(L = "none" ∨ L = "user" ∨ L = "admin")) :
    ParseOPLevel L = .error ("unknown OP level: " ++ L) := by
  simp only [not_or] at h
  unfold ParseOPLevel
  simp [h.1, h.2.1, h.2.2]

theorem mapGet_append_of_absent {K V : Type} [DecidableEq K] (m : List (K × V)) (k x : K) (v : V)
    (h : ∀ e ∈ m, e.1 ≠ k) :
    mapGet (m ++ [(k, v)]) x = if x = k then some v else mapGet m x := by
  induction m with
  | nil =>
    by_cases hx : x = k
    · simp [mapGet, hx]
    · simp [mapGet, hx, Ne.symm hx]
  | cons e rest ih =>
    have hek : e.1 ≠ k := h e (List.mem_cons_self _ _)
    have ih2 := ih (fun a ha => h a (List.mem_cons_of_mem _ ha))
    simp only [List.cons_append, mapGet]
    by_cases hx : e.1 = x
    · have : x ≠ k := fun hk => hek (hx.trans hk)
      simp [hx, this]
    · simp [hx, ih2]

theorem mapGet_map_replace {K V : Type} [DecidableEq K] (m : List (K × V)) (k x : K) (v : V) :
    mapGet (m.map (fun e => if e.1 = k then (k, v) else e)) x =
      if x = k then (mapGet m k).map (fun _ => v) else mapGet m x := by
  induction m with
  | nil => simp [mapGet]
  | cons e rest ih =>
    simp only [List.map_cons, mapGet]
    by_cases hek : e.1 = k
    · by_cases hx : x = k
      · simp [hek, hx]
      · simp [hek, hx, Ne.symm hx, ih]
    · by_cases hx : x = k
      · subst hx
        simp [hek, ih]
      · by_cases hex : e.1 = x
        · simp [hek, hx, hex]
        · simp [hek, hx, hex, ih]

theorem mapGet_mapSet_self {K V : Type} [DecidableEq K] (m : List (K × V)) (k : K) (v : V) :
    mapGet (mapSet m k v) k = some v := by
  unfold mapSet
  split
  · rename_i h
    simp only [List.any_eq_true, decide_eq_true_eq] at h
    obtain ⟨e, he, hk⟩ := h
    rw [mapGet_map_replace, if_pos rfl]
    cases hg : mapGet m k with
    | none => exact absurd hk (mapGet_none m k hg e he)
    | some d => rfl
  · rename_i h
    simp only [List.any_eq_true, decide_eq_true_eq, not_exists, not_and] at h
    rw [mapGet_append_of_absent m k k v h, if_pos rfl]

theorem mapGet_mapSet_other {K V : Type} [DecidableEq K] (m : List (K × V)) (k x : K) (v : V)
    (hx : x ≠ k) : mapGet (mapSet m k v) x = mapGet m x := by
  unfold mapSet
  split
  · rw [mapGet_map_replace, if_neg hx]
  · rename_i h
    simp only [List.any_eq_true, decide_eq_true_eq, not_exists, not_and] at h
    rw [mapGet_append_of_absent m k x v h, if_neg hx]

theorem op_found (w : World) (c t : ClientId) (n L : String) (level : OPLevel)
    (hL : ParseOPLevel L = .ok level) (hf : findNick w.room.Clients n = some t) :
    op w c n L = withInternal (setClientData w c { clientData w c with OPLevel := level })
      [privateNotice c (n ++ "\x27s permission level is now " ++ OPLevel.String level) w.now,
       privateNotice t ("your permission level is now " ++ OPLevel.String level) w.now] := by
  unfold op
  simp only [hL, hf]
  rw [sendInternal_privateNotice, sendInternal_privateNotice]
  simp [withInternal, setClientData]

/-- C6: on a roster (a map with distinct non-empty nicknames) holding the invoker `c`
and another member `t` with nickname `n`, `op c n L` for a level name `L` among none, user
and admin stores level `L` in the profile of `c` and changes no other field of `c` and no
profile of any other member, that of `t` included, and sends exactly two notices, to `c`
and to `t`, with the bodies of the design note; with an unknown level name, or a nickname
that no member has, it changes nothing and sends one error to `c`. -/
theorem op_changes_invoker_only (w : World) (c : ClientId) (n L : String) :
    (∀ (dc : ClientDataExternal) (t : ClientId) (dt : ClientDataExternal),
      RosterInv w.room.Clients → (c, dc) ∈ w.room.Clients → (t, dt) ∈ w.room.Clients →
      t ≠ c → dt.Nick = n → n ≠ "" → (L = "none" ∨ L = "user" ∨ L = "admin") →
      ∃ level, ParseOPLevel L = .ok level ∧ OPLevel.String level = L ∧
        (op w c n L).room.Clients = mapSet w.room.Clients c { dc with OPLevel := level } ∧
        mapGet (op w c n L).room.Clients c = some { dc with OPLevel := level } ∧
        mapGet (op w c n L).room.Clients t = some dt ∧
        (∀ x d, x ≠ c → (mapGet (op w c n L).room.Clients x = some d ↔
          mapGet w.room.Clients x = some d)) ∧
        (op w c n L).room.Rules = w.room.Rules ∧
        (op w c n L).Send = w.Send ∧
        (op w c n L).room.Internal = w.room.Internal ++
          [privateNotice c (n ++ "\x27s permission level is now " ++ L) w.now,
           privateNotice t ("your permission level is now " ++ L) w.now]) ∧
    (¬(L = "none" ∨ L = "user" ∨ L = "admin") →
      op w c n L = withInternal w [privateError c ("unknown OP level: " ++ L) w.now]) ∧
    ((L = "none" ∨ L = "user" ∨ L = "admin") → (∀ e ∈ w.room.Clients, e.2.Nick ≠ n) →
      op w c n L = withInternal w [privateError c ("user " ++ n ++ " is not online") w.now]) := by
  refine ⟨?_, ?_, ?_⟩
  · intro dc t dt hinv hc ht htc hn hne hL
    obtain ⟨level, hp, hs⟩ := ParseOPLevel_names L hL
    have hf := findNick_unique w.room.Clients n t dt hinv.2 ht hn hne
    have hcd : clientData w c = dc := clientData_of_mem w c dc hinv.1 hc
    have hop := op_found w c t n L level hp hf
    rw [hcd, hs] at hop
    refine ⟨level, hp, hs, ?_, ?_, ?_, ?_, ?_, ?_, ?_⟩
    · rw [hop]; rfl
    · rw [hop]; exact mapGet_mapSet_self _ _ _
    · rw [hop]
      exact (mapGet_mapSet_other _ c t _ htc).trans (mapGet_of_mem _ t dt hinv.1 ht)
    · intro x d hx
      rw [hop]
      exact Eq.congr_left (mapGet_mapSet_other _ c x _ hx)
    · rw [hop]; rfl
    · rw [hop]; rfl
    · rw [hop]; rfl
  · intro hL
    unfold op
    rw [ParseOPLevel_unknown L hL]
    exact sendInternal_privateError _ _ _
  · intro hL hnone
    obtain ⟨level, hp, _⟩ := ParseOPLevel_names L hL
    unfold op
    simp only [hp, (findNick_none _ _).mpr hnone]
    exact sendInternal_privateError _ _ _

theorem afterDisabledNotice_Rules (w : World) (c : ClientId) :
    (afterDisabledNotice w c).room.Rules = w.room.Rules := by
  unfold afterDisabledNotice
  split <;> rfl

theorem afterDisabledNotice_Send (w : World) (c : ClientId) :
    (afterDisabledNotice w c).Send = w.Send := by
  unfold afterDisabledNotice
  split <;> rfl

theorem afterDisabledNotice_Rooms (w : World) (c : ClientId) :
    (afterDisabledNotice w c).Rooms = w.Rooms := by
  unfold afterDisabledNotice
  split <;> rfl

theorem afterDisabledNotice_now (w : World) (c : ClientId) :
    (afterDisabledNotice w c).now = w.now := by
  unfold afterDisabledNotice
  split <;> rfl

theorem afterDisabledNotice_Internal (w : World) (c : ClientId) :
    (afterDisabledNotice w c).room.Internal = w.room.Internal ++
      (if w.room.Rules.noCommands then
        [privateError c "commands are disabled on this room" w.now] else []) := by
  unfold afterDisabledNotice
  split
  · rw [sendInternal_privateError]; rfl
  · simp

theorem handleExternal_allowed (w : World) (c : ClientId) (command : Command)
    (h : command.OPLevel ≤ (clientData w c).OPLevel) :
    handleExternal w (commandMessage c command) =
      match dispatch (afterDisabledNotice w c) c command with
      | .error f => .error f
      | .ok w2 => .ok (w2, none) := by
  rw [handleExternal_command w (commandMessage c command) command rfl rfl]
  exact if_neg (Nat.not_lt.mpr h)

theorem dispatch_welcome (w : World) (c : ClientId) (args : List String) :
    dispatch w c (welcomeCommand args) = welcome w c args.head? := by
  simp [dispatch, welcomeCommand]

theorem dispatch_password (w : World) (c : ClientId) (args : List String) :
    dispatch w c (passwordCommand args) = .ok (password w c args.head?) := by
  simp [dispatch, passwordCommand]

theorem clientData_of_mapGet (w : World) (c : ClientId) (d : ClientDataExternal)
    (h : mapGet w.room.Clients c = some d) : clientData w c = d := by
  simp [clientData, h]

theorem welcome_empty (w : World) (c : ClientId) :
    welcome w c (some "") = .ok (withInternal
      (withRules w { w.room.Rules with hasWelcomeMessage := false })
      [privateNotice c "welcome message disabled" w.now]) := by
  simp only [welcome, if_true]
  rw [sendInternal_privateNotice]
  rfl

theorem welcome_text (w : World) (c : ClientId) (text : String) (ht : text ≠ "") :
    welcome w c (some text) = .ok (withInternal
      (withRules w { w.room.Rules with hasWelcomeMessage := true, welcomeMessage := text })
      [privateNotice c ("welcome message set to: " ++ text) w.now]) := by
  simp only [welcome, if_neg ht]
  rw [sendInternal_privateNotice]
  rfl

theorem password_absent (w : World) (c : ClientId) :
    password w c none = withInternal
      (withRules w { w.room.Rules with hasPassword := false })
      [privateNotice c "password disabled" w.now] := by
  simp only [password]
  rw [sendInternal_privateNotice]
  rfl

theorem password_text (w : World) (c : ClientId) (text : String) :
    password w c (some text) = withInternal
      (withRules w { w.room.Rules with hasPassword := true, password := text })
      [privateNotice c ("password set to: " ++ text) w.now] := by
  simp only [password]
  rw [sendInternal_privateNotice]
  rfl

/-- C7: for an admin member `c`, `/welcome` without an argument makes `handleExternal`
panic on a nil dereference (no state results and no notice is sent), while `/welcome`
with the empty string clears `hasWelcomeMessage` and `/welcome` with a non-empty text
sets it and stores the text, each with one private notice to `c`. -/
theorem welcome_absent_text_panics (w : World) (c : ClientId) (d : ClientDataExternal)
    (hmem : mapGet w.room.Clients c = some d) (hadmin : d.OPLevel = OPLevelAdmin) :
    handleExternal w (commandMessage c (welcomeCommand [])) = .error .nilDereference ∧
    (∃ w', handleExternal w (commandMessage c (welcomeCommand [""])) = .ok (w', none) ∧
      w'.room.Rules = { w.room.Rules with hasWelcomeMessage := false } ∧
      w'.room.Internal = (afterDisabledNotice w c).room.Internal ++
        [privateNotice c "welcome message disabled" w.now]) ∧
    (∀ text, text ≠ "" →
      ∃ w', handleExternal w (commandMessage c (welcomeCommand [text])) = .ok (w', none) ∧
        w'.room.Rules = { w.room.Rules with hasWelcomeMessage := true, welcomeMessage := text } ∧
        w'.room.Internal = (afterDisabledNotice w c).room.Internal ++
          [privateNotice c ("welcome message set to: " ++ text) w.now]) := by
  have hlevel : ∀ args, (welcomeCommand args).OPLevel ≤ (clientData w c).OPLevel := by
    intro args
    rw [clientData_of_mapGet w c d hmem, hadmin]
    exact Nat.le_refl _
  refine ⟨?_, ?_, ?_⟩
  · rw [handleExternal_allowed w c _ (hlevel []), dispatch_welcome]
    rfl
  · refine ⟨withInternal (withRules (afterDisabledNotice w c)
        { (afterDisabledNotice w c).room.Rules with hasWelcomeMessage := false })
        [privateNotice c "welcome message disabled" (afterDisabledNotice w c).now], ?_, ?_, ?_⟩
    · rw [handleExternal_allowed w c _ (hlevel [""]), dispatch_welcome]
      simp only [List.head?_cons, welcome_empty]
    · simp only [withInternal, withRules, afterDisabledNotice_Rules]
    · rw [afterDisabledNotice_now]; rfl
  · intro text ht
    refine ⟨withInternal (withRules (afterDisabledNotice w c)
        { (afterDisabledNotice w c).room.Rules with
          hasWelcomeMessage := true, welcomeMessage := text })
        [privateNotice c ("welcome message set to: " ++ text) (afterDisabledNotice w c).now],
        ?_, ?_, ?_⟩
    · rw [handleExternal_allowed w c _ (hlevel [text]), dispatch_welcome]
      simp only [List.head?_cons, welcome_text _ _ _ ht]
    · simp only [withInternal, withRules, afterDisabledNotice_Rules]
    · rw [afterDisabledNotice_now]; rfl

/-- C8: for an admin member `c`, `/password` without an argument clears `hasPassword`,
and `/password p` for any `p`, the empty string included, sets `hasPassword` and stores
`p`; each time the other rules, the roster, the outbound queues and the registry are
unchanged, and among the messages sent exactly one is a notice, private to `c` (a room
with `noCommands` set sends its commands-disabled error before it). -/
theorem password_presence_sets_gate (w : World) (c : ClientId) (d : ClientDataExternal)
    (hmem : mapGet w.room.Clients c = some d) (hadmin : d.OPLevel = OPLevelAdmin) :
    (∃ w', handleExternal w (commandMessage c (passwordCommand [])) = .ok (w', none) ∧
      w'.room.Rules = { w.room.Rules with hasPassword := false } ∧
      w'.room.Clients = w.room.Clients ∧ w'.Send = w.Send ∧ w'.Rooms = w.Rooms ∧
      w'.room.Internal = w.room.Internal ++
        (if w.room.Rules.noCommands then
          [privateError c "commands are disabled on this room" w.now] else []) ++
        [privateNotice c "password disabled" w.now] ∧
      (w'.room.Internal.drop w.room.Internal.length).filter
          (fun m => decide (m.Typ = .MessageTypeNotice)) =
        [privateNotice c "password disabled" w.now]) ∧
    (∀ p : String,
      ∃ w', handleExternal w (commandMessage c (passwordCommand [p])) = .ok (w', none) ∧
        w'.room.Rules = { w.room.Rules with hasPassword := true, password := p } ∧
        w'.room.Clients = w.room.Clients ∧ w'.Send = w.Send ∧ w'.Rooms = w.Rooms ∧
        w'.room.Internal = w.room.Internal ++
          (if w.room.Rules.noCommands then
            [privateError c "commands are disabled on this room" w.now] else []) ++
          [privateNotice c ("password set to: " ++ p) w.now] ∧
        (w'.room.Internal.drop w.room.Internal.length).filter
            (fun m => decide (m.Typ = .MessageTypeNotice)) =
          [privateNotice c ("password set to: " ++ p) w.now]) := by
  have hlevel : ∀ args, (passwordCommand args).OPLevel ≤ (clientData w c).OPLevel := by
    intro args
    rw [clientData_of_mapGet w c d hmem, hadmin]
    exact Nat.le_refl _
  have hfilter : ∀ n : RoomMessage, n.Typ = .MessageTypeNotice →
      ((w.room.Internal ++
        (if w.room.Rules.noCommands then
          [privateError c "commands are disabled on this room" w.now] else []) ++ [n]).drop
        w.room.Internal.length).filter (fun m => decide (m.Typ = .MessageTypeNotice)) = [n] := by
    intro n hn
    rw [List.append_assoc, List.drop_left]
    split <;> simp [privateError, hn]
  constructor
  · refine ⟨withInternal (withRules (afterDisabledNotice w c)
        { (afterDisabledNotice w c).room.Rules with hasPassword := false })
        [privateNotice c "password disabled" (afterDisabledNotice w c).now], ?_, ?_, ?_, ?_, ?_, ?_⟩
    · rw [handleExternal_allowed w c _ (hlevel []), dispatch_password]
      simp only [List.head?_nil, password_absent]
    · simp only [withInternal, withRules, afterDisabledNotice_Rules]
    · simp only [withInternal, withRules, afterDisabledNotice_Clients]
    · simp only [withInternal, withRules, afterDisabledNotice_Send]
    · simp only [withInternal, withRules, afterDisabledNotice_Rooms]
    · have hi : (withInternal (withRules (afterDisabledNotice w c)
          { (afterDisabledNotice w c).room.Rules with hasPassword := false })
          [privateNotice c "password disabled" (afterDisabledNotice w c).now]).room.Internal =
          w.room.Internal ++
          (if w.room.Rules.noCommands then
            [privateError c "commands are disabled on this room" w.now] else []) ++
          [privateNotice c "password disabled" w.now] := by
        rw [afterDisabledNotice_now, ← afterDisabledNotice_Internal]
        rfl
      exact ⟨hi, by rw [hi]; exact hfilter _ rfl⟩
  · intro p
    refine ⟨withInternal (withRules (afterDisabledNotice w c)
        { (afterDisabledNotice w c).room.Rules with hasPassword := true, password := p })
        [privateNotice c ("password set to: " ++ p) (afterDisabledNotice w c).now],
        ?_, ?_, ?_, ?_, ?_, ?_⟩
    · rw [handleExternal_allowed w c _ (hlevel [p]), dispatch_password]
      simp only [List.head?_cons, password_text]
    · simp only [withInternal, withRules, afterDisabledNotice_Rules]
    · simp only [withInternal, withRules, afterDisabledNotice_Clients]
    · simp only [withInternal, withRules, afterDisabledNotice_Send]
    · simp only [withInternal, withRules, afterDisabledNotice_Rooms]
    · have hi : (withInternal (withRules (afterDisabledNotice w c)
          { (afterDisabledNotice w c).room.Rules with hasPassword := true, password := p })
          [privateNotice c ("password set to: " ++ p) (afterDisabledNotice w c).now]).room.Internal =
          w.room.Internal ++
          (if w.room.Rules.noCommands then
            [privateError c "commands are disabled on this room" w.now] else []) ++
          [privateNotice c ("password set to: " ++ p) w.now] := by
        rw [afterDisabledNotice_now, ← afterDisabledNotice_Internal]
        rfl
      exact ⟨hi, by rw [hi]; exact hfilter _ rfl⟩

/-- C9 (as the code has it): in a room whose `noMessages` rule is set the External case
answers every inbound message, of chat type and of command type alike, with the private
error saying that messages are disabled, changes nothing else and does not return; the
message goes through `handleExternal` only in a room where `noMessages` is unset. -/
theorem noMessages_rejects_every_inbound (w : World) (message : ClientMessage) :
    (w.room.Rules.noMessages = true →
      RunCase w (.External message) =
        .ok (withInternal w
          [privateError message.Client "messages are disabled on this room" w.now], false)) ∧
    (w.room.Rules.noMessages = false →
      RunCase w (.External message) =
        match handleExternal w message with
        | .error f => .error f
        | .ok res => .ok (res.1, shouldQuit res.1 res.2)) := by
  constructor
  · intro h
    simp only [RunCase, h, if_true]
    rw [sendInternal_privateError]
  · intro h
    simp only [RunCase, h]
    rfl

/-- C9 as stated fails: in a room with `noMessages` set, `/password pw` from an admin is
answered with the messages-disabled error and leaves `hasPassword` false, whereas
`handleExternal` on the same state, and the loop in the same room with `noMessages`
unset, set `hasPassword`. -/
theorem noMessages_blocks_admin_command :
    (RunCase quietRoom (.External (commandMessage 1 (passwordCommand ["pw"]))) =
      .ok (withInternal quietRoom
        [privateError 1 "messages are disabled on this room" 0], false)) ∧
    (withInternal quietRoom
      [privateError 1 "messages are disabled on this room" 0]).room.Rules.hasPassword = false ∧
    (∃ w', handleExternal quietRoom (commandMessage 1 (passwordCommand ["pw"])) = .ok (w', none) ∧
      w'.room.Rules.hasPassword = true ∧ w'.room.Rules.password = "pw") ∧
    (∃ w', RunCase (withRules quietRoom {}) (.External (commandMessage 1 (passwordCommand ["pw"]))) =
        .ok (w', false) ∧
      w'.room.Rules.hasPassword = true ∧ w'.room.Rules.password = "pw") := by
  refine ⟨rfl, rfl, ⟨_, rfl, rfl, rfl⟩, ⟨_, rfl, rfl, rfl⟩⟩

/-- C10: a command whose required level exceeds the stored level of the sender (level
none for a sender absent from the roster) leaves roster, rules, outbound queues and
registry unchanged, runs no handler, and sends a private error to the sender whose body
names the level of the sender, the command and the required level (after the
commands-disabled error in a room with `noCommands` set). -/
theorem insufficient_permission_rejected (w : World) (message : ClientMessage)
    (command : Command)
    (hT : message.Typ = .MessageTypeCommand) (hC : message.Command = some command)
    (hlevel : command.OPLevel > (clientData w message.Client).OPLevel) :
    ∃ w' e, handleExternal w message = .ok (w', none) ∧
      w'.room.Clients = w.room.Clients ∧ w'.room.Rules = w.room.Rules ∧
      w'.Send = w.Send ∧ w'.Rooms = w.Rooms ∧
      w'.room.Internal = w.room.Internal ++
        (if w.room.Rules.noCommands then
          [privateError message.Client "commands are disabled on this room" w.now] else []) ++ [e] ∧
      e.Typ = .MessageTypeError ∧
      e.Target = { Typ := .TargetTypeOne, Nick := "", Client := some message.Client } ∧
      (∀ x data, e.Target.Should x data = true ↔ x = message.Client) ∧
      e.Body = "insufficient permission (" ++ OPLevel.String (clientData w message.Client).OPLevel ++
        ") to use " ++ command.Name ++ " (" ++ OPLevel.String command.OPLevel ++ ")" ∧
      (mapGet w.room.Clients message.Client = none →
        e.Body = "insufficient permission (none) to use " ++ command.Name ++ " (" ++
          OPLevel.String command.OPLevel ++ ")") := by
  refine ⟨withInternal (afterDisabledNotice w message.Client)
    [privateError message.Client
      ("insufficient permission (" ++ OPLevel.String (clientData w message.Client).OPLevel ++
        ") to use " ++ command.Name ++ " (" ++ OPLevel.String command.OPLevel ++ ")") w.now],
    privateError message.Client
      ("insufficient permission (" ++ OPLevel.String (clientData w message.Client).OPLevel ++
        ") to use " ++ command.Name ++ " (" ++ OPLevel.String command.OPLevel ++ ")") w.now,
    ?_, ?_, ?_, ?_, ?_, ?_, rfl, rfl, fun x data => privateError_Should _ _ _ _ _, rfl, ?_⟩
  · rw [handleExternal_command w message command hT hC, if_pos hlevel,
      sendInternal_privateError, afterDisabledNotice_now]
  · simp only [withInternal, afterDisabledNotice_Clients]
  · simp only [withInternal, afterDisabledNotice_Rules]
  · simp only [withInternal, afterDisabledNotice_Send]
  · simp only [withInternal, afterDisabledNotice_Rooms]
  · simp only [withInternal, afterDisabledNotice_Internal]
  · intro hnone
    simp [privateError, clientData, hnone, OPLevel.String, OPLevelNone]

theorem crowdedRoom_RosterInv : RosterInv crowdedRoom.room.Clients := by
  unfold RosterInv NickUnique
  decide

theorem chat_without_nick_private_error_witness :
    ∃ e : RoomMessage,
      handleExternal crowdedRoom { Typ := .MessageTypeMessage, Client := 3, Body := "hi" } =
        .ok (withInternal crowdedRoom [e], none) ∧
      e.Typ = .MessageTypeError ∧
      e.Target = { Typ := .TargetTypeOne, Nick := "", Client := some 3 } := by
  obtain ⟨e, h1, _, _, _, _, _, h2, _, h3, _⟩ :=
    chat_without_nick_private_error crowdedRoom
      { Typ := .MessageTypeMessage, Client := 3, Body := "hi" } { OPLevel := OPLevelUser }
      rfl (by decide) rfl
  exact ⟨e, h1, h2, h3⟩

theorem setNick_conflict_rejected_witness :
    ∃ e : RoomMessage,
      setNick crowdedRoom 3 " ann " = withInternal crowdedRoom [e] ∧
      e.Body = "nickname ann is already in use" := by
  obtain ⟨e, h1, _, _, _, h2, _⟩ :=
    setNick_conflict_rejected crowdedRoom 3 1 { Nick := "ann", OPLevel := OPLevelAdmin } " ann "
      (by simp [crowdedRoom]) (by decide) (by decide) (by decide)
  refine ⟨e, h1, ?_⟩
  rw [h2]
  decide

theorem op_changes_invoker_only_witness :
    (mapGet (op crowdedRoom 1 "bob" "user").room.Clients 1 =
        some { Nick := "ann", OPLevel := OPLevelUser } ∧
      mapGet (op crowdedRoom 1 "bob" "user").room.Clients 2 =
        some { Nick := "bob", OPLevel := OPLevelUser } ∧
      (op crowdedRoom 1 "bob" "user").room.Internal =
        [privateNotice 1 "bob\x27s permission level is now user" 0,
         privateNotice 2 "your permission level is now user" 0]) ∧
    op crowdedRoom 1 "bob" "root" =
      withInternal crowdedRoom [privateError 1 "unknown OP level: root" 0] ∧
    op crowdedRoom 1 "zed" "admin" =
      withInternal crowdedRoom [privateError 1 "user zed is not online" 0] := by
  refine ⟨?_, ?_, ?_⟩
  · obtain ⟨level, hp, _, _, h1, h2, _, _, _, h3⟩ :=
      (op_changes_invoker_only crowdedRoom 1 "bob" "user").1
        { Nick := "ann", OPLevel := OPLevelAdmin } 2 { Nick := "bob", OPLevel := OPLevelUser }
        crowdedRoom_RosterInv (by simp [crowdedRoom]) (by simp [crowdedRoom]) (by decide) rfl
        (by decide) (Or.inr (Or.inl rfl))
    have hl : level = OPLevelUser := by
      have : ParseOPLevel "user" = .ok OPLevelUser := by simp [ParseOPLevel]
      rw [this] at hp
      exact (Except.ok.inj hp).symm
    subst hl
    exact ⟨h1, h2, h3⟩
  · exact (op_changes_invoker_only crowdedRoom 1 "bob" "root").2.1 (by decide)
  · exact (op_changes_invoker_only crowdedRoom 1 "zed" "admin").2.2 (Or.inr (Or.inr rfl))
      (by decide)

theorem welcome_absent_text_panics_witness :
    handleExternal crowdedRoom (commandMessage 1 (welcomeCommand [])) = .error .nilDereference :=
  (welcome_absent_text_panics crowdedRoom 1 { Nick := "ann", OPLevel := OPLevelAdmin }
    (by decide) rfl).1

theorem password_presence_sets_gate_witness :
    (∃ w', handleExternal crowdedRoom (commandMessage 1 (passwordCommand [])) = .ok (w', none) ∧
      w'.room.Rules.hasPassword = false) ∧
    (∃ w', handleExternal crowdedRoom (commandMessage 1 (passwordCommand [""])) = .ok (w', none) ∧
      w'.room.Rules.hasPassword = true ∧ w'.room.Rules.password = "") := by
  have h := password_presence_sets_gate crowdedRoom 1 { Nick := "ann", OPLevel := OPLevelAdmin }
    (by decide) rfl
  constructor
  · obtain ⟨w', h1, h2, _⟩ := h.1
    exact ⟨w', h1, by rw [h2]⟩
  · obtain ⟨w', h1, h2, _⟩ := h.2 ""
    exact ⟨w', h1, by rw [h2], by rw [h2]⟩

theorem noMessages_rejects_every_inbound_witness :
    RunCase quietRoom (.External { Typ := .MessageTypeMessage, Client := 1, Body := "hi" }) =
      .ok (withInternal quietRoom
        [privateError 1 "messages are disabled on this room" 0], false) ∧
    RunCase crowdedRoom (.External { Typ := .MessageTypeReset, Client := 1 }) =
      .ok (crowdedRoom, false) := by
  constructor
  · exact (noMessages_rejects_every_inbound quietRoom
      { Typ := .MessageTypeMessage, Client := 1, Body := "hi" }).1 rfl
  · rw [(noMessages_rejects_every_inbound crowdedRoom
      { Typ := .MessageTypeReset, Client := 1 }).2 rfl]
    rfl

theorem insufficient_permission_rejected_witness :
    ∃ (w' : World) (e : RoomMessage),
      handleExternal crowdedRoom (commandMessage 2 (passwordCommand ["pw"])) = .ok (w', none) ∧
      w'.room.Rules = crowdedRoom.room.Rules ∧
      e.Body = "insufficient permission (user) to use password (admin)" := by
  obtain ⟨w', e, h1, _, h2, _, _, _, _, _, _, h3, _⟩ :=
    insufficient_permission_rejected crowdedRoom (commandMessage 2 (passwordCommand ["pw"]))
      (passwordCommand ["pw"]) rfl rfl (by decide)
  refine ⟨w', e, h1, h2, ?_⟩
  rw [h3]
  decide

theorem welcomeCommand_parsed (args : List String) (h : args.length ≤ 1) :
    commandOf "welcome" args = some (welcomeCommand args) := by
  have hg : mapGet Commands "welcome" = some
      { Name := "welcome", Desc := "set or clear the welcome message", Help := "/welcome [message]",
        ArgsMin := 0, ArgsMax := 1, Target := .CommandTargetRoom, OPLevel := OPLevelAdmin } := by
    decide
  unfold commandOf
  rw [hg]
  simp only [Nat.not_lt_zero, if_false, Nat.not_lt.mpr h]
  rfl

theorem passwordCommand_parsed (args : List String) (h : args.length ≤ 1) :
    commandOf "password" args = some (passwordCommand args) := by
  have hg : mapGet Commands "password" = some
      { Name := "password", Desc := "set or clear the password for the room",
        Help := "/password [password]",
        ArgsMin := 0, ArgsMax := 1, Target := .CommandTargetRoom, OPLevel := OPLevelAdmin } := by
    decide
  unfold commandOf
  rw [hg]
  simp only [Nat.not_lt_zero, if_false, Nat.not_lt.mpr h]
  rfl

/-! ## The command grammar -/

theorem ParseCommand_tokens (input : String) (t0 : String) (args : List String)
    (hs : HasPrefix (TrimSpace input) '/' = true)
    (ht : shlexSplit (TrimSpace input) = .ok (t0 :: args)) :
    ParseCommand input =
      match mapGet Commands (TrimPrefix t0 '/') with
      | none => .ok (some (partialCommand (TrimPrefix t0 '/') args),
          some ("unknown command: " ++ TrimPrefix t0 '/'))
      | some spec =>
        if args.length < spec.ArgsMin then
          .ok (some (partialCommand (TrimPrefix t0 '/') args),
            some ("missing arguments for: " ++ TrimPrefix t0 '/' ++ "\nUsage:\n  " ++ spec.Help))
        else if args.length > spec.ArgsMax then
          .ok (some (partialCommand (TrimPrefix t0 '/') args),
            some ("too many arguments for: " ++ TrimPrefix t0 '/' ++ "\nUsage:\n  " ++ spec.Help))
        else
          .ok (some (fullCommand (TrimPrefix t0 '/') args spec), none) := by
  have hne : TrimSpace input ≠ "" := by
    intro h
    rw [h] at hs
    simp [HasPrefix] at hs
  unfold ParseCommand
  simp only [hne, hs, ht, decide_False, Bool.not_true, Bool.or_self, Bool.false_eq_true, if_false]
  rfl

theorem ParseCommand_plain (input : String)
    (hs : HasPrefix (TrimSpace input) '/' = false) :
    ParseCommand input = .ok (none, none) := by
  unfold ParseCommand
  simp [hs]

theorem ParseCommand_malformed (input : String) (err : String)
    (hs : HasPrefix (TrimSpace input) '/' = true)
    (ht : shlexSplit (TrimSpace input) = .error err) :
    ParseCommand input = .ok (none, some ("failed to parse command: " ++ err)) := by
  have hne : TrimSpace input ≠ "" := by
    intro h
    rw [h] at hs
    simp [HasPrefix] at hs
  unfold ParseCommand
  simp only [hne, hs, ht, decide_False, Bool.not_true, Bool.or_self, Bool.false_eq_true, if_false]

theorem Commands_entry (name : String) (spec : CommandSpec)
    (h : mapGet Commands name = some spec) :
    name ∈ commandNames ∧ spec.Name = name ∧ spec.OPLevel = specPermission name ∧
    (name ≠ "clear" → spec.Target = specTarget name) ∧
    (name = "clear" → spec.Target = .unset ∧ specTarget name = .CommandTargetClient) := by
  have hm := mapGet_mem Commands name spec h
  simp only [Commands, List.mem_cons, Prod.mk.injEq, List.not_mem_nil, or_false] at hm
  rcases hm with ⟨h1, h2⟩ | ⟨h1, h2⟩ | ⟨h1, h2⟩ | ⟨h1, h2⟩ | ⟨h1, h2⟩ | ⟨h1, h2⟩ | ⟨h1, h2⟩ |
    ⟨h1, h2⟩ | ⟨h1, h2⟩ | ⟨h1, h2⟩ | ⟨h1, h2⟩ <;> subst h1 <;> subst h2 <;> decide

/-- C11: for a slash-prefixed line that tokenizes to one of the eleven command names and
an argument list whose length is in the range of that name, `ParseCommand` succeeds with
the parsed name and arguments and the target and level of the entry of `Commands`; level
and target are those of the table of the spec, except the target of clear, which is the
zero value and not `CommandTargetClient`. -/
theorem ParseCommand_success_clear_untargeted (input : String) (t0 : String)
    (args : List String) (spec : CommandSpec)
    (hs : HasPrefix (TrimSpace input) '/' = true)
    (ht : shlexSplit (TrimSpace input) = .ok (t0 :: args))
    (hname : mapGet Commands (TrimPrefix t0 '/') = some spec)
    (hmin : spec.ArgsMin ≤ args.length) (hmax : args.length ≤ spec.ArgsMax) :
    TrimPrefix t0 '/' ∈ commandNames ∧
    ParseCommand input = .ok (some
      { Name := TrimPrefix t0 '/', Args := args, Target := spec.Target, OPLevel := spec.OPLevel },
      none) ∧
    spec.OPLevel = specPermission (TrimPrefix t0 '/') ∧
    (TrimPrefix t0 '/' ≠ "clear" → spec.Target = specTarget (TrimPrefix t0 '/')) ∧
    (TrimPrefix t0 '/' = "clear" →
      spec.Target = .unset ∧ specTarget (TrimPrefix t0 '/') = .CommandTargetClient) ∧
    (∀ name ∈ commandNames, (mapGet Commands name).isSome = true) := by
  obtain ⟨h1, _, h3, h4, h5⟩ := Commands_entry _ spec hname
  refine ⟨h1, ?_, h3, h4, h5, by decide⟩
  rw [ParseCommand_tokens input t0 args hs ht]
  simp only [hname, Nat.not_lt.mpr hmin, Nat.not_lt.mpr hmax, if_false]
  rfl

theorem ParseCommand_success_clear_untargeted_witness :
    ParseCommand "/clear" =
      .ok (some { Name := "clear", Args := [], Target := .unset, OPLevel := OPLevelNone }, none) ∧
    ParseCommand " /join den pw " =
      .ok (some (fullCommand "join" ["den", "pw"]
        { Name := "join"
          Desc := "join a room"
          Help := "/join <room> [password]"
          ArgsMin := 1
          ArgsMax := 2
          Target := .CommandTargetClient
          OPLevel := OPLevelNone }), none) := by
  constructor
  · exact (ParseCommand_success_clear_untargeted "/clear" "/clear" []
      { Name := "clear"
        Desc := "clear the chat window"
        Help := "/clear"
        ArgsMin := 0
        ArgsMax := 0
        OPLevel := OPLevelNone }
      (by decide) (by rfl) (by decide) (by decide) (by decide)).2.1
  · exact (ParseCommand_success_clear_untargeted " /join den pw " "/join" ["den", "pw"]
      { Name := "join"
        Desc := "join a room"
        Help := "/join <room> [password]"
        ArgsMin := 1
        ArgsMax := 2
        Target := .CommandTargetClient
        OPLevel := OPLevelNone }
      (by decide) (by rfl) (by decide) (by decide) (by decide)).2.1

/-- C12: for a slash-prefixed line that tokenizes to a name and an argument list,
`ParseCommand` returns an error exactly when the name is not in `Commands` or the number
of arguments is below `ArgsMin` or above `ArgsMax` of its entry; the command it returns
is then non-nil with the parsed name and arguments, and the text of an arity error ends
with the usage string `Help` of the entry. -/
theorem ParseCommand_error_iff (input : String) (t0 : String) (args : List String)
    (hs : HasPrefix (TrimSpace input) '/' = true)
    (ht : shlexSplit (TrimSpace input) = .ok (t0 :: args)) :
    ∃ (command : Command) (err : Option String),
      ParseCommand input = .ok (some command, err) ∧
      command.Name = TrimPrefix t0 '/' ∧ command.Args = args ∧
      (err.isSome = true ↔
        (mapGet Commands (TrimPrefix t0 '/') = none ∨
          ∃ spec, mapGet Commands (TrimPrefix t0 '/') = some spec ∧
            (args.length < spec.ArgsMin ∨ spec.ArgsMax < args.length))) ∧
      (∀ spec, mapGet Commands (TrimPrefix t0 '/') = some spec →
        (args.length < spec.ArgsMin ∨ spec.ArgsMax < args.length) →
        ∃ pre, err = some (pre ++ spec.Help)) := by
  rw [ParseCommand_tokens input t0 args hs ht]
  cases hg : mapGet Commands (TrimPrefix t0 '/') with
  | none =>
    refine ⟨partialCommand (TrimPrefix t0 '/') args,
      some ("unknown command: " ++ TrimPrefix t0 '/'), rfl, rfl, rfl, ?_, ?_⟩
    · simp
    · intro spec h
      simp at h
  | some spec =>
    by_cases hmin : args.length < spec.ArgsMin
    · refine ⟨partialCommand (TrimPrefix t0 '/') args,
        some ("missing arguments for: " ++ TrimPrefix t0 '/' ++ "\nUsage:\n  " ++ spec.Help),
        ?_, rfl, rfl, ?_, ?_⟩
      · simp only [if_pos hmin]
      · simp [hmin]
      · intro spec2 h2 _
        simp only [Option.some.injEq] at h2
        subst h2
        exact ⟨"missing arguments for: " ++ TrimPrefix t0 '/' ++ "\nUsage:\n  ", rfl⟩
    · by_cases hmax : args.length > spec.ArgsMax
      · refine ⟨partialCommand (TrimPrefix t0 '/') args,
          some ("too many arguments for: " ++ TrimPrefix t0 '/' ++ "\nUsage:\n  " ++ spec.Help),
          ?_, rfl, rfl, ?_, ?_⟩
        · simp only [if_neg hmin, if_pos hmax]
        · simp [hmax]
        · intro spec2 h2 _
          simp only [Option.some.injEq] at h2
          subst h2
          exact ⟨"too many arguments for: " ++ TrimPrefix t0 '/' ++ "\nUsage:\n  ", rfl⟩
      · refine ⟨fullCommand (TrimPrefix t0 '/') args spec, none, ?_, rfl, rfl, ?_, ?_⟩
        · simp only [if_neg hmin, if_neg hmax]
        · have : ¬ spec.ArgsMax < args.length := hmax
          simp [hmin, this]
        · intro spec2 h2 h3
          simp only [Option.some.injEq] at h2
          subst h2
          rcases h3 with h3 | h3
          · exact absurd h3 hmin
          · exact absurd h3 hmax

theorem ParseCommand_error_iff_witness :
    ∃ (command : Command) (err : Option String),
      ParseCommand "/op bob" = .ok (some command, err) ∧
      command.Name = "op" ∧ command.Args = ["bob"] ∧ err.isSome = true := by
  obtain ⟨command, err, h1, h2, h3, h4, _⟩ :=
    ParseCommand_error_iff "/op bob" "/op" ["bob"] (by decide) (by rfl)
  refine ⟨command, err, h1, h2.trans (by decide), h3, h4.mpr (Or.inr ?_)⟩
  exact ⟨_, mapGet_of_mem Commands "op" _ (by decide) (by decide : ("op",
    ({ Name := "op"
       Desc := "change permission levels"
       Help := "/op <user> <level>"
       ArgsMin := 2
       ArgsMax := 2
       Target := .CommandTargetRoom
       OPLevel := OPLevelAdmin } : CommandSpec)) ∈ Commands), Or.inl (by decide)⟩

/-! ## Help -/

theorem splitLinesAux_append (l rest cur : List Char) (h : '\n' ∉ l) :
    splitLinesAux (l ++ rest) cur = splitLinesAux rest (cur ++ l) := by
  induction l generalizing cur with
  | nil => simp
  | cons c l ih =>
    have hc : c ≠ '\n' := fun hc => h (hc ▸ List.mem_cons_self _ _)
    have hl : '\n' ∉ l := fun hl => h (List.mem_cons_of_mem _ hl)
    have := ih (cur ++ [c]) hl
    simp only [List.cons_append, splitLinesAux, if_neg hc]
    simpa using this

theorem splitLines_Join (ls : List String) (hne : ls ≠ [])
    (h : ∀ l ∈ ls, '\n' ∉ l.data) : splitLines (Join ls "\n") = ls := by
  induction ls with
  | nil => exact absurd rfl hne
  | cons a rest ih =>
    cases rest with
    | nil =>
      have ha := h a (List.mem_cons_self _ _)
      unfold splitLines
      simp only [Join]
      have := splitLinesAux_append a.data [] [] ha
      simp only [List.append_nil, List.nil_append] at this
      rw [this]
      simp [splitLinesAux]
    | cons b rest =>
      have ha := h a (List.mem_cons_self _ _)
      have ih2 := ih (by simp) (fun l hl => h l (List.mem_cons_of_mem _ hl))
      unfold splitLines at ih2 ⊢
      simp only [Join]
      have hd : (a ++ "\n" ++ Join (b :: rest) "\n").data =
          a.data ++ ('\n' :: (Join (b :: rest) "\n").data) := by
        simp [String.data_append]
      rw [hd, splitLinesAux_append a.data _ [] ha]
      simp only [List.nil_append, splitLinesAux, if_true]
      rw [ih2]

theorem Help_unknown (visited : List (String × CommandSpec)) (name : String)
    (rest : List String) (h : mapGet Commands name = none) :
    Help visited (name :: rest) = "unknown command" := by
  simp [Help, h]

theorem Commands_lines :
    (∀ e ∈ Commands, (Commands.map helpLine).count ("/" ++ e.1 ++ ": " ++ e.2.Desc) = 1) ∧
    (∀ l ∈ Commands.map helpLine, '\n' ∉ l.data) ∧
    (Commands.map helpLine).Nodup ∧ (Commands.map helpLine).length = 11 := by
  decide

/-- C14 (as the code has it): whatever the order in which `range` visits `Commands`, `Help`
without arguments returns a text whose lines are the lines `/<name>: <desc>` of the
entries, one line per entry and each of them exactly once; `Help(["op"])` returns two
lines, the line `/op: <desc>` of the op entry and then, after two spaces, the usage text
of op, not the usage text alone; `Help` of a name that is not in the table returns
"unknown command". -/
theorem Help_lists_every_command_once (visited : List (String × CommandSpec))
    (hv : visited.Perm Commands) :
    splitLines (Help visited []) = visited.map helpLine ∧
    (visited.map helpLine).Perm (Commands.map helpLine) ∧
    (splitLines (Help visited [])).length = Commands.length ∧
    (∀ e ∈ Commands,
      (splitLines (Help visited [])).count ("/" ++ e.1 ++ ": " ++ e.2.Desc) = 1) ∧
    Help visited ["op"] = "/op: change permission levels\n  /op <user> <level>" ∧
    (∃ spec, mapGet Commands "op" = some spec ∧ spec.Name = "op" ∧
      Help visited ["op"] = "/" ++ spec.Name ++ ": " ++ spec.Desc ++ "\n  " ++ spec.Help) ∧
    (∀ name rest, mapGet Commands name = none →
      Help visited (name :: rest) = "unknown command") := by
  have hp : (visited.map helpLine).Perm (Commands.map helpLine) := hv.map helpLine
  obtain ⟨hc, hn, _, hlen⟩ := Commands_lines
  have hsplit : splitLines (Help visited []) = visited.map helpLine := by
    have hH : Help visited [] = Join (visited.map helpLine) "\n" := rfl
    rw [hH]
    apply splitLines_Join
    · intro h0
      have := hp.length_eq
      rw [h0, hlen] at this
      simp at this
    · intro l hl
      exact hn l (hp.subset hl)
  refine ⟨hsplit, hp, ?_, ?_, by rfl, ⟨_, by rfl, by rfl, by rfl⟩,
    fun name rest h => Help_unknown visited name rest h⟩
  · rw [hsplit, hp.length_eq, hlen]
    rfl
  · intro e he
    rw [hsplit, hp.count_eq]
    exact hc e he

theorem Help_lists_every_command_once_witness :
    splitLines (Help Commands.reverse []) = Commands.reverse.map helpLine ∧
    (splitLines (Help Commands.reverse [])).count "/clear: clear the chat window" = 1 ∧
    Help Commands.reverse ["nope"] = "unknown command" := by
  obtain ⟨h1, _, _, h4, _, _, h6⟩ :=
    Help_lists_every_command_once Commands.reverse (List.reverse_perm Commands)
  refine ⟨h1, ?_, h6 "nope" [] (by decide)⟩
  exact h4 ("clear",
    { Name := "clear"
      Desc := "clear the chat window"
      Help := "/clear"
      ArgsMin := 0
      ArgsMax := 0
      OPLevel := OPLevelNone }) (by decide)

/-- C14 as stated fails: the usage text of the op command, the `Help` string of its table
entry that `ParseCommand` prints after "Usage:", is "/op <user> <level>", whereas
`Help(["op"])` returns a text of two lines, of which that usage text is the second,
indented by two spaces, after the line "/op: change permission levels". -/
theorem Help_op_is_not_the_usage_string :
    (mapGet Commands "op").map (fun spec => spec.Help) = some "/op <user> <level>" ∧
    ParseCommand "/op" =
      .ok (some (partialCommand "op" []),
        some "missing arguments for: op\nUsage:\n  /op <user> <level>") ∧
    Help Commands ["op"] = "/op: change permission levels\n  /op <user> <level>" ∧
    Help Commands ["op"] ≠ "/op <user> <level>" ∧
    splitLines (Help Commands ["op"]) =
      ["/op: change permission levels", "  /op <user> <level>"] := by
  refine ⟨by rfl, by rfl, by rfl, by decide, by rfl⟩

/-! ## The dispatch of the session -/

theorem sendRegister_procs (n : Net) (id : Nat) (req : RegisterRequest) (i : Nat) :
    (n.sendRegister id req).procs i =
      if i = id then { n.procs id with Register := (n.procs id).Register ++ [req] }
      else n.procs i := rfl

theorem sendUnregister_procs (n : Net) (id : Nat) (req : UnregisterRequest) (i : Nat) :
    (n.sendUnregister id req).procs i =
      if i = id then { n.procs id with Unregister := (n.procs id).Unregister ++ [req] }
      else n.procs i := rfl

theorem sendExternal_procs (n : Net) (id : Nat) (m : ClientMessage) (i : Nat) :
    (n.sendExternal id m).procs i =
      if i = id then { n.procs id with External := (n.procs id).External ++ [m] }
      else n.procs i := rfl

@[simp] theorem sendRegister_Rooms (n : Net) (id : Nat) (req : RegisterRequest) :
    (n.sendRegister id req).Rooms = n.Rooms := rfl

@[simp] theorem sendUnregister_Rooms (n : Net) (id : Nat) (req : UnregisterRequest) :
    (n.sendUnregister id req).Rooms = n.Rooms := rfl

@[simp] theorem sendExternal_Rooms (n : Net) (id : Nat) (m : ClientMessage) :
    (n.sendExternal id m).Rooms = n.Rooms := rfl

@[simp] theorem sendUnregister_fresh (n : Net) (id : Nat) (req : UnregisterRequest) :
    (n.sendUnregister id req).fresh = n.fresh := rfl

@[simp] theorem sendRegister_External (n : Net) (id : Nat) (req : RegisterRequest) (i : Nat) :
    ((n.sendRegister id req).procs i).External = (n.procs i).External := by
  rw [sendRegister_procs]
  by_cases hi : i = id
  · simp [hi]
  · simp [hi]

@[simp] theorem sendUnregister_External (n : Net) (id : Nat) (req : UnregisterRequest)
    (i : Nat) : ((n.sendUnregister id req).procs i).External = (n.procs i).External := by
  rw [sendUnregister_procs]
  by_cases hi : i = id
  · simp [hi]
  · simp [hi]

@[simp] theorem sendUnregister_Register (n : Net) (id : Nat) (req : UnregisterRequest)
    (i : Nat) : ((n.sendUnregister id req).procs i).Register = (n.procs i).Register := by
  rw [sendUnregister_procs]
  by_cases hi : i = id
  · simp [hi]
  · simp [hi]

@[simp] theorem sendUnregister_room (n : Net) (id : Nat) (req : UnregisterRequest)
    (i : Nat) : ((n.sendUnregister id req).procs i).room = (n.procs i).room := by
  rw [sendUnregister_procs]
  by_cases hi : i = id
  · simp [hi]
  · simp [hi]

@[simp] theorem sendRegister_Unregister (n : Net) (id : Nat) (req : RegisterRequest)
    (i : Nat) : ((n.sendRegister id req).procs i).Unregister = (n.procs i).Unregister := by
  rw [sendRegister_procs]
  by_cases hi : i = id
  · simp [hi]
  · simp [hi]

theorem sendRegister_Register_self (n : Net) (id : Nat) (req : RegisterRequest) :
    ((n.sendRegister id req).procs id).Register = (n.procs id).Register ++ [req] := by
  rw [sendRegister_procs]
  simp

theorem sendRegister_Register_other (n : Net) (id i : Nat) (req : RegisterRequest)
    (h : i ≠ id) : ((n.sendRegister id req).procs i).Register = (n.procs i).Register := by
  rw [sendRegister_procs]
  simp [h]

theorem leave_none (c : Client) (n : Net) (reason : String) (h : c.Room = none) :
    c.leave n reason = (c, n) := by
  simp [Client.leave, h]

theorem leave_some (c : Client) (n : Net) (reason : String) (old : Nat)
    (h : c.Room = some old) :
    c.leave n reason =
      ({ c with Send := [{ Typ := .MessageTypeReset }], Recv := [], Room := none },
        n.sendUnregister old { Client := c.id, Reason := reason }) := by
  simp [Client.leave, h, Client.put]

theorem leave_id (c : Client) (n : Net) (reason : String) :
    (c.leave n reason).1.id = c.id ∧ (c.leave n reason).1.Data = c.Data := by
  cases h : c.Room with
  | none => rw [leave_none c n reason h]; exact ⟨rfl, rfl⟩
  | some old => rw [leave_some c n reason old h]; exact ⟨rfl, rfl⟩

theorem leave_Net (c : Client) (n : Net) (reason : String) :
    (c.leave n reason).2.Rooms = n.Rooms ∧ (c.leave n reason).2.fresh = n.fresh ∧
    (∀ i, ((c.leave n reason).2.procs i).External = (n.procs i).External) ∧
    (∀ i, ((c.leave n reason).2.procs i).Register = (n.procs i).Register) ∧
    (∀ i, ((c.leave n reason).2.procs i).room = (n.procs i).room) := by
  cases h : c.Room with
  | none => rw [leave_none c n reason h]; exact ⟨rfl, rfl, fun _ => rfl, fun _ => rfl, fun _ => rfl⟩
  | some old =>
    rw [leave_some c n reason old h]
    exact ⟨rfl, rfl, fun i => sendUnregister_External _ _ _ i,
      fun i => sendUnregister_Register _ _ _ i, fun i => sendUnregister_room _ _ _ i⟩

theorem NoChatAdded_refl (n : Net) : NoChatAdded n n :=
  fun _ _ hm => Or.inl hm

theorem NoChatAdded_of_External_eq (n n' : Net)
    (h : ∀ i, (n'.procs i).External = (n.procs i).External) : NoChatAdded n n' := by
  intro i m hm
  rw [h i] at hm
  exact Or.inl hm

theorem enter_External (c : Client) (n : Net) (roomName : String) (id i : Nat) :
    (((c.enter n roomName id).2).procs i).External = (n.procs i).External := by
  unfold Client.enter
  simp only [sendRegister_External]
  exact (leave_Net c n _).2.2.1 i

theorem join_External (c : Client) (n : Net) (roomName : String) (password : Option String)
    (i : Nat) : (((c.join n roomName password).2).procs i).External = (n.procs i).External := by
  unfold Client.join
  split
  · rfl
  · simp only
    split
    · split
      · rfl
      · split
        · rfl
        · exact enter_External c n roomName _ i
    · exact enter_External c n roomName _ i

theorem start_NoChatAdded (c : Client) (n : Net) (roomName : String)
    (password : Option String) : NoChatAdded n (c.start n roomName password).2 := by
  unfold Client.start
  split
  · exact NoChatAdded_refl n
  · intro i m hm
    simp only [sendRegister_External] at hm
    unfold Net.create at hm
    by_cases hi : i = (c.leave n ("starting room " ++ roomName)).2.fresh
    · simp [hi] at hm
    · simp only [hi, if_false] at hm
      rw [(leave_Net c n _).2.2.1 i] at hm
      exact Or.inl hm

theorem forward_command_NoChatAdded (c : Client) (n n' : Net) (m : ClientMessage)
    (hm : m.Typ = .MessageTypeCommand) (h : c.forward n m = .ok n') : NoChatAdded n n' := by
  unfold Client.forward at h
  split at h
  · simp at h
  · rename_i id _
    simp only [Except.ok.injEq] at h
    subst h
    intro i x hx
    rw [sendExternal_procs] at hx
    by_cases hi : i = id
    · simp only [hi, if_true, List.mem_append, List.mem_singleton] at hx
      rcases hx with hx | hx
      · exact Or.inl (hi ▸ hx)
      · exact Or.inr (hx ▸ hm)
    · simp only [hi, if_false] at hx
      exact Or.inl hx

theorem command_NoChatAdded (c : Client) (n : Net) (visited : List (String × CommandSpec))
    (command : Command) (res : Client × Net)
    (h : c.command n visited command = .ok res) : NoChatAdded n res.2 := by
  unfold Client.command at h
  split at h
  · split at h
    · simp at h
    · simp only [Except.ok.injEq] at h; subst h
      exact NoChatAdded_of_External_eq _ _ (join_External c n _ _)
  · split at h
    · split at h
      · simp at h
      · simp only [Except.ok.injEq] at h; subst h
        exact start_NoChatAdded c n _ _
    · split at h
      · simp only [Except.ok.injEq] at h; subst h
        exact NoChatAdded_of_External_eq _ _ (join_External c n _ _)
      · split at h
        · simp only [Except.ok.injEq] at h; subst h
          exact NoChatAdded_refl n
        · split at h
          · split at h
            · simp at h
            · simp only at h
              split at h
              · simp at h
              · split at h
                · split at h
                  · simp at h
                  · rename_i n' hf
                    simp only [Except.ok.injEq] at h; subst h
                    exact forward_command_NoChatAdded _ n n' _ rfl hf
                · simp only [Except.ok.injEq] at h; subst h
                  exact NoChatAdded_refl n
          · split at h
            · simp only [Except.ok.injEq] at h; subst h
              exact NoChatAdded_refl n
            · simp only [Except.ok.injEq] at h; subst h
              exact NoChatAdded_refl n

theorem handleCase_of_parse (c : Client) (n : Net) (visited : List (String × CommandSpec))
    (msg : ClientMessage) (rest : List ClientMessage) (hr : c.Recv = msg :: rest) :
    c.handleCase n visited =
      match ParseCommand msg.Body with
      | .error f => .error f
      | .ok (none, _) =>
        match Client.forward { c with Recv := rest } n msg with
        | .error f => .error f
        | .ok n => .ok ({ c with Recv := rest }, n)
      | .ok (some _, some err) => .ok (Client.putError { c with Recv := rest } err n.now, n)
      | .ok (some command, none) =>
        if command.Target = .CommandTargetRoom then
          match Client.forward { c with Recv := rest } n
            { Typ := .MessageTypeCommand, Client := c.id, Command := some command } with
          | .error f => .error f
          | .ok n => .ok ({ c with Recv := rest }, n)
        else
          Client.command { c with Recv := rest } n visited command := by
  unfold Client.handleCase
  simp only [hr]

theorem handleCase_forwarded (c : Client) (n : Net) (visited : List (String × CommandSpec))
    (msg : ClientMessage) (rest : List ClientMessage) (id : Nat) (err : Option String)
    (hr : c.Recv = msg :: rest) (hroom : c.Room = some id)
    (hp : ParseCommand msg.Body = .ok (none, err)) :
    c.handleCase n visited = .ok ({ c with Recv := rest }, n.sendExternal id msg) := by
  rw [handleCase_of_parse c n visited msg rest hr, hp]
  simp [Client.forward, hroom]

/-- C13: a line that does not start with a slash is forwarded to the room as a chat
message; a slash-prefixed line that tokenizes adds no chat message to any `External`
queue (it is answered, handled or forwarded as a command); but a slash-prefixed line on
which tokenization fails is forwarded to the room as a chat message, unchanged, and the
session sends no error. -/
theorem malformed_command_forwarded_as_chat (c : Client) (n : Net)
    (visited : List (String × CommandSpec)) (line : String) (rest : List ClientMessage)
    (id : Nat) (hr : c.Recv = inboundLine c line :: rest) (hroom : c.Room = some id) :
    (HasPrefix (TrimSpace line) '/' = false →
      c.handleCase n visited =
        .ok ({ c with Recv := rest }, n.sendExternal id (inboundLine c line))) ∧
    (∀ err, HasPrefix (TrimSpace line) '/' = true → shlexSplit (TrimSpace line) = .error err →
      c.handleCase n visited =
        .ok ({ c with Recv := rest }, n.sendExternal id (inboundLine c line))) ∧
    (∀ tokens res, HasPrefix (TrimSpace line) '/' = true →
      shlexSplit (TrimSpace line) = .ok tokens → c.handleCase n visited = .ok res →
      NoChatAdded n res.2) := by
  refine ⟨?_, ?_, ?_⟩
  · intro hs
    exact handleCase_forwarded c n visited _ rest id none hr hroom (ParseCommand_plain line hs)
  · intro err hs ht
    exact handleCase_forwarded c n visited _ rest id _ hr hroom
      (ParseCommand_malformed line err hs ht)
  · intro tokens res hs ht h
    rw [handleCase_of_parse c n visited _ rest hr] at h
    cases tokens with
    | nil =>
      have hp : ParseCommand (inboundLine c line).Body = .error .indexOutOfRange := by
        have hne : TrimSpace line ≠ "" := by
          intro h0
          rw [h0] at hs
          simp [HasPrefix] at hs
        show ParseCommand line = _
        unfold ParseCommand
        simp only [hne, hs, ht, decide_False, Bool.not_true, Bool.or_self, Bool.false_eq_true,
          if_false]
      rw [hp] at h
      simp at h
    | cons t0 args =>
      have hp := ParseCommand_tokens line t0 args hs ht
      have hb : (inboundLine c line).Body = line := rfl
      rw [hb, hp] at h
      cases hg : mapGet Commands (TrimPrefix t0 '/') with
      | none =>
        simp only [hg, Except.ok.injEq] at h
        subst h
        exact NoChatAdded_refl n
      | some spec =>
        simp only [hg] at h
        by_cases hmin : args.length < spec.ArgsMin
        · simp only [if_pos hmin, Except.ok.injEq] at h
          subst h
          exact NoChatAdded_refl n
        · by_cases hmax : args.length > spec.ArgsMax
          · simp only [if_neg hmin, if_pos hmax, Except.ok.injEq] at h
            subst h
            exact NoChatAdded_refl n
          · simp only [if_neg hmin, if_neg hmax] at h
            split at h
            · split at h
              · simp at h
              · rename_i n' hf
                simp only [Except.ok.injEq] at h
                subst h
                exact forward_command_NoChatAdded _ n n' _ rfl hf
            · exact command_NoChatAdded _ n visited _ res h

/-! ## Joining and starting rooms -/

theorem putError_eq (c : Client) (body : String) (now : Nat) :
    c.putError body now = { c with Send := c.Send ++ [sessionError body now] } := by
  simp [Client.putError, Client.put, RoomMessage.Fill, sessionError, messageColors]

theorem enter_Room (c : Client) (n : Net) (roomName : String) (id : Nat) :
    (c.enter n roomName id).1.Room = some id ∧
    ((c.enter n roomName id).2.procs id).Register =
      (n.procs id).Register ++ [{ Client := c.id, WantsNick := c.Data.Nick, Creator := false }] ∧
    (∀ i, i ≠ id → ((c.enter n roomName id).2.procs i).Register = (n.procs i).Register) ∧
    (c.enter n roomName id).2.Rooms = n.Rooms := by
  obtain ⟨hid, hdata⟩ := leave_id c n ("joining room " ++ roomName)
  obtain ⟨hrooms, _, _, hreg, _⟩ := leave_Net c n ("joining room " ++ roomName)
  have he : c.enter n roomName id =
      ({ (c.leave n ("joining room " ++ roomName)).1 with Room := some id },
        (c.leave n ("joining room " ++ roomName)).2.sendRegister id
          { Client := (c.leave n ("joining room " ++ roomName)).1.id
            WantsNick := (c.leave n ("joining room " ++ roomName)).1.Data.Nick }) := rfl
  rw [he]
  refine ⟨rfl, ?_, ?_, ?_⟩
  · rw [sendRegister_Register_self, hreg, hid, hdata]
  · intro i hi
    rw [sendRegister_Register_other _ _ _ _ hi, hreg]
  · exact hrooms

/-- C16: for a room registered under `r` with `hasPassword` set and password `p`,
`join(r)` without a password and `join(r, q)` with `q ≠ p` each put exactly one error on
the outbound queue of the session ("room has a password", "incorrect password"), change
nothing else of the session, its current room included, and send no request to any room;
`join(r, p)` makes that room the current room of the session and sends it a Register
request with the remembered nickname of the session. -/
theorem join_password_gate (c : Client) (n : Net) (r : String) (id : Nat) (p : String)
    (hreg : mapGet n.Rooms r = some id)
    (hhas : (n.procs id).room.Rules.hasPassword = true)
    (hpw : (n.procs id).room.Rules.password = p) :
    c.join n r none =
      ({ c with Send := c.Send ++ [sessionError "room has a password" n.now] }, n) ∧
    (∀ q, q ≠ p → c.join n r (some q) =
      ({ c with Send := c.Send ++ [sessionError "incorrect password" n.now] }, n)) ∧
    (c.join n r (some p)).1.Room = some id ∧
    ((c.join n r (some p)).2.procs id).Register =
      (n.procs id).Register ++ [{ Client := c.id, WantsNick := c.Data.Nick, Creator := false }] ∧
    (c.join n r (some p)).2.Rooms = n.Rooms := by
  have hyes : c.join n r (some p) = c.enter n r id := by
    unfold Client.join
    simp [hreg, hhas, hpw]
  refine ⟨?_, ?_, ?_, ?_, ?_⟩
  · unfold Client.join
    simp only [hreg, hhas, if_true]
    rw [putError_eq]
  · intro q hq
    unfold Client.join
    simp only [hreg, hhas, if_true, hpw]
    rw [if_pos (Ne.symm hq), putError_eq]
  · rw [hyes]; exact (enter_Room c n r id).1
  · rw [hyes]; exact (enter_Room c n r id).2.1
  · rw [hyes]; exact (enter_Room c n r id).2.2.2

theorem create_facts (n : Net) (roomName : String) (password : Option String) :
    (n.create roomName password).Rooms = mapSet n.Rooms roomName n.fresh ∧
    ((n.create roomName password).procs n.fresh).room.Name = roomName ∧
    ((n.create roomName password).procs n.fresh).room.Clients = [] ∧
    ((n.create roomName password).procs n.fresh).room.Rules.hasPassword = password.isSome ∧
    (∀ p, password = some p →
      ((n.create roomName password).procs n.fresh).room.Rules.password = p) ∧
    ((n.create roomName password).procs n.fresh).Register = [] ∧
    ((n.create roomName password).procs n.fresh).running = true ∧
    (∀ i, i ≠ n.fresh → (n.create roomName password).procs i = n.procs i) := by
  unfold Net.create
  cases password with
  | none =>
    refine ⟨rfl, ?_, ?_, ?_, ?_, ?_, ?_, ?_⟩ <;> simp [NewRoom, NewRules]
    intro i hi
    simp [hi]
  | some p =>
    refine ⟨rfl, ?_, ?_, ?_, ?_, ?_, ?_, ?_⟩ <;> simp [NewRoom, NewRules, Rules.Password]
    intro i hi
    simp [hi]

/-- C17: when `r` is registered, `start(r)` puts exactly one error ("room r already
exists") on the outbound queue of the session and changes nothing else: no request is
sent, the current room of the session and the registry are as before; when `r` is not
registered, `start` registers under `r` a new room, with `hasPassword` set exactly when a
password was given, starts it and sends it one Register request, with `Creator` true and
the remembered nickname, and makes it the current room of the session. -/
theorem start_existing_room_rejected (c : Client) (n : Net) (r : String)
    (password : Option String) :
    (∀ id, mapGet n.Rooms r = some id →
      c.start n r password =
        ({ c with Send := c.Send ++ [sessionError ("room " ++ r ++ " already exists") n.now] }, n)) ∧
    (mapGet n.Rooms r = none →
      (c.start n r password).2.Rooms = mapSet n.Rooms r n.fresh ∧
      mapGet (c.start n r password).2.Rooms r = some n.fresh ∧
      (c.start n r password).1.Room = some n.fresh ∧
      ((c.start n r password).2.procs n.fresh).room.Name = r ∧
      ((c.start n r password).2.procs n.fresh).room.Clients = [] ∧
      ((c.start n r password).2.procs n.fresh).room.Rules.hasPassword = password.isSome ∧
      (∀ p, password = some p →
        ((c.start n r password).2.procs n.fresh).room.Rules.password = p) ∧
      ((c.start n r password).2.procs n.fresh).running = true ∧
      ((c.start n r password).2.procs n.fresh).Register =
        [{ Client := c.id, WantsNick := c.Data.Nick, Creator := true }]) := by
  constructor
  · intro id hreg
    unfold Client.start
    simp only [hreg]
    rw [putError_eq]
  · intro hnone
    obtain ⟨hid, hdata⟩ := leave_id c n ("starting room " ++ r)
    obtain ⟨hrooms, hfresh, _, _, _⟩ := leave_Net c n ("starting room " ++ r)
    obtain ⟨h1, h2, h3, h4, h5, h6, h7, _⟩ :=
      create_facts (c.leave n ("starting room " ++ r)).2 r password
    have hstart : c.start n r password =
        ({ (c.leave n ("starting room " ++ r)).1 with Room := some n.fresh },
          ((c.leave n ("starting room " ++ r)).2.create r password).sendRegister n.fresh
            { Client := c.id, WantsNick := c.Data.Nick, Creator := true }) := by
      unfold Client.start
      simp only [hnone, hfresh, hid, hdata]
    rw [hfresh] at h1 h2 h3 h4 h5 h6 h7
    rw [hrooms] at h1
    rw [hstart]
    refine ⟨h1, ?_, rfl, ?_, ?_, ?_, ?_, ?_, ?_⟩
    · show mapGet ((c.leave n ("starting room " ++ r)).2.create r password).Rooms r = _
      rw [h1]
      exact mapGet_mapSet_self _ _ _
    · simp only [sendRegister_procs, if_true]; exact h2
    · simp only [sendRegister_procs, if_true]; exact h3
    · simp only [sendRegister_procs, if_true]; exact h4
    · intro p hp
      simp only [sendRegister_procs, if_true]; exact h5 p hp
    · simp only [sendRegister_procs, if_true]; exact h7
    · rw [sendRegister_Register_self, h6]
      rfl

/-! ## Register and Unregister -/

theorem heldByOther_iff (clients : List (ClientId × ClientDataExternal)) (client : ClientId)
    (nick : String) :
    heldByOther clients client nick = true ↔ ∃ e ∈ clients, e.1 ≠ client ∧ e.2.Nick = nick := by
  simp [heldByOther]

theorem heldByOther_mapSet (clients : List (ClientId × ClientDataExternal)) (client : ClientId)
    (d : ClientDataExternal) (nick : String) :
    heldByOther (mapSet clients client d) client nick = heldByOther clients client nick := by
  rw [Bool.eq_iff_iff, heldByOther_iff, heldByOther_iff]
  constructor
  · rintro ⟨e, he, hne, hn⟩
    rcases (mem_mapSet clients client d e).mp he with rfl | ⟨_, he⟩
    · exact absurd rfl hne
    · exact ⟨e, he, hne, hn⟩
  · rintro ⟨e, he, hne, hn⟩
    exact ⟨e, (mem_mapSet clients client d e).mpr (Or.inr ⟨hne, he⟩), hne, hn⟩

theorem setNick_accepted (w : World) (c : ClientId) (s : String)
    (h1 : TrimSpace s ≠ "") (h2 : heldByOther w.room.Clients c (TrimSpace s) = false) :
    (setNick w c s).room.Clients =
      mapSet w.room.Clients c { clientData w c with Nick := TrimSpace s } ∧
    (setNick w c s).Send = w.Send ∧ (setNick w c s).room.Rules = w.room.Rules ∧
    (setNick w c s).now = w.now := by
  unfold heldByOther at h2
  unfold setNick
  simp only [h1, h2, if_false, Bool.false_eq_true]
  split <;> exact ⟨rfl, rfl, rfl, rfl⟩

theorem setNick_rejected (w : World) (c : ClientId) (s : String)
    (h : TrimSpace s = "" ∨ heldByOther w.room.Clients c (TrimSpace s) = true) :
    (setNick w c s).room.Clients = w.room.Clients ∧
    (setNick w c s).Send = w.Send ∧ (setNick w c s).room.Rules = w.room.Rules ∧
    (setNick w c s).now = w.now := by
  unfold heldByOther at h
  unfold setNick
  by_cases h1 : TrimSpace s = ""
  · simp only [h1, if_true]
    exact ⟨rfl, rfl, rfl, rfl⟩
  · rcases h with h | h
    · exact absurd h h1
    · simp only [h1, if_false, h, if_true]
      exact ⟨rfl, rfl, rfl, rfl⟩

theorem clientData_setClientData (w : World) (c : ClientId) (d : ClientDataExternal) :
    clientData (setClientData w c d) c = d := by
  simp [clientData, mapGet_mapSet_self]

theorem TrimSpace_empty : TrimSpace "" = "" := by decide

theorem registerNick_facts (w : World) (req : RegisterRequest) (color : String) :
    mapGet (registerNick (setClientData w req.Client (NewClientDataExternal req.Creator color))
        req).room.Clients req.Client =
      some { NewClientDataExternal req.Creator color with Nick := registeredNick w req } ∧
    (∀ x d, x ≠ req.Client →
      (mapGet (registerNick (setClientData w req.Client (NewClientDataExternal req.Creator color))
        req).room.Clients x = some d ↔ mapGet w.room.Clients x = some d)) ∧
    (registerNick (setClientData w req.Client (NewClientDataExternal req.Creator color)) req).Send =
      w.Send ∧
    (registerNick (setClientData w req.Client (NewClientDataExternal req.Creator color))
      req).room.Rules = w.room.Rules ∧
    (registerNick (setClientData w req.Client (NewClientDataExternal req.Creator color)) req).now =
      w.now := by
  have hzero : ({ NewClientDataExternal req.Creator color with Nick := "" } : ClientDataExternal) =
      NewClientDataExternal req.Creator color := rfl
  have hstay : mapGet (setClientData w req.Client
      (NewClientDataExternal req.Creator color)).room.Clients req.Client =
      some (NewClientDataExternal req.Creator color) := mapGet_mapSet_self _ _ _
  have hothers : ∀ x, x ≠ req.Client →
      mapGet (setClientData w req.Client
        (NewClientDataExternal req.Creator color)).room.Clients x = mapGet w.room.Clients x :=
    fun x hx => mapGet_mapSet_other _ _ _ _ hx
  by_cases hc : w.room.Rules.noCommands = false ∧ TrimSpace req.WantsNick ≠ "" ∧
      heldByOther w.room.Clients req.Client (TrimSpace req.WantsNick) = false
  · have hw : req.WantsNick ≠ "" := by
      intro h0
      rw [h0] at hc
      exact hc.2.1 TrimSpace_empty
    have hreg : registerNick (setClientData w req.Client (NewClientDataExternal req.Creator color))
        req = setNick (setClientData w req.Client (NewClientDataExternal req.Creator color))
          req.Client req.WantsNick := by
      simp [registerNick, hc.1, hw]
    obtain ⟨h1, h2, h3, h4⟩ := setNick_accepted
      (setClientData w req.Client (NewClientDataExternal req.Creator color)) req.Client
      req.WantsNick hc.2.1 (by
        rw [setClientData_Clients, heldByOther_mapSet]
        exact hc.2.2)
    rw [hreg, h1, clientData_setClientData]
    refine ⟨?_, ?_, h2, h3, h4⟩
    · rw [mapGet_mapSet_self]
      simp [registeredNick, hc]
    · intro x d hx
      rw [mapGet_mapSet_other _ _ _ _ hx, hothers x hx]
  · have hn : registeredNick w req = "" := by
      simp only [registeredNick, if_neg hc]
    rw [hn, hzero]
    by_cases hcall : (!w.room.Rules.noCommands && decide (req.WantsNick ≠ "")) = true
    · have hreg : registerNick (setClientData w req.Client
          (NewClientDataExternal req.Creator color)) req =
          setNick (setClientData w req.Client (NewClientDataExternal req.Creator color))
            req.Client req.WantsNick := by
        unfold registerNick
        rw [setClientData_Rules, if_pos hcall]
      have hrej : TrimSpace req.WantsNick = "" ∨
          heldByOther (setClientData w req.Client
            (NewClientDataExternal req.Creator color)).room.Clients req.Client
            (TrimSpace req.WantsNick) = true := by
        rw [setClientData_Clients, heldByOther_mapSet]
        simp only [Bool.and_eq_true, Bool.not_eq_true', decide_eq_true_eq] at hcall
        by_cases ht : TrimSpace req.WantsNick = ""
        · exact Or.inl ht
        · right
          by_contra hh
          exact hc ⟨hcall.1, ht, by simpa using hh⟩
      obtain ⟨h1, h2, h3, h4⟩ := setNick_rejected _ req.Client req.WantsNick hrej
      rw [hreg, h1]
      exact ⟨hstay, fun x d hx => by rw [hothers x hx], h2, h3, h4⟩
    · have hreg : registerNick (setClientData w req.Client
          (NewClientDataExternal req.Creator color)) req =
          setClientData w req.Client (NewClientDataExternal req.Creator color) := by
        unfold registerNick
        rw [setClientData_Rules, if_neg hcall]
      rw [hreg]
      exact ⟨hstay, fun x d hx => by rw [hothers x hx], rfl, rfl, rfl⟩

theorem Fill_welcomeNotice (body : String) (now : Nat) :
    RoomMessage.Fill { Typ := .MessageTypeNotice, Body := body } now = welcomeNotice body now := by
  simp [RoomMessage.Fill, welcomeNotice, messageColors]

theorem registerCase_eq (w : World) (req : RegisterRequest) (color : String) :
    registerCase w req color =
      if (registerNick (setClientData w req.Client (NewClientDataExternal req.Creator color))
          req).room.Rules.hasWelcomeMessage = true then
        if ((registerNick (setClientData w req.Client (NewClientDataExternal req.Creator color))
            req).Send req.Client).length < sendCap then
          (registerWelcome (registerNick
            (setClientData w req.Client (NewClientDataExternal req.Creator color)) req) req, true)
        else
          (registerNick (setClientData w req.Client (NewClientDataExternal req.Creator color))
            req, false)
      else
        (registerNick (setClientData w req.Client (NewClientDataExternal req.Creator color))
          req, true) := by
  have h : registerCase w req color =
      if (registerNick (setClientData w req.Client (NewClientDataExternal req.Creator color))
          req).room.Rules.hasWelcomeMessage = true then
        if ((registerNick (setClientData w req.Client (NewClientDataExternal req.Creator color))
            req).Send req.Client).length < sendCap then
          (sendClient (registerNick (setClientData w req.Client
              (NewClientDataExternal req.Creator color)) req) req.Client
            (RoomMessage.Fill { Typ := .MessageTypeNotice, Body := (registerNick (setClientData w
              req.Client (NewClientDataExternal req.Creator color)) req).room.Rules.welcomeMessage }
              (registerNick (setClientData w req.Client
                (NewClientDataExternal req.Creator color)) req).now), true)
        else
          (registerNick (setClientData w req.Client (NewClientDataExternal req.Creator color))
            req, false)
      else
        (registerNick (setClientData w req.Client (NewClientDataExternal req.Creator color))
          req, true) := rfl
  rw [h]
  by_cases hw : (registerNick (setClientData w req.Client
      (NewClientDataExternal req.Creator color)) req).room.Rules.hasWelcomeMessage = true
  · rw [if_pos hw, if_pos hw]
    unfold registerWelcome
    rw [if_pos hw]
  · rw [if_neg hw, if_neg hw]

theorem registerCase_completed (w : World) (req : RegisterRequest) (color : String)
    (h : (registerCase w req color).2 = true) :
    RunCase w (.Register req color) = .ok ((registerCase w req color).1, false) := by
  rw [RunCase_Register]
  rw [registerCase_eq] at h ⊢
  split at h
  · rename_i hw
    split at h
    · rename_i hl
      rw [if_pos hw, if_pos hl]
    · simp at h
  · rename_i hw
    rw [if_neg hw]
    unfold registerWelcome
    rw [if_neg hw]

theorem registerCase_waits (w : World) (req : RegisterRequest) (color : String)
    (hw : w.room.Rules.hasWelcomeMessage = true) (hfull : sendCap ≤ (w.Send req.Client).length) :
    (registerCase w req color).2 = false ∧
    (registerCase w req color).1.Send = w.Send ∧
    mapGet (registerCase w req color).1.room.Clients req.Client =
      some { NewClientDataExternal req.Creator color with Nick := registeredNick w req } := by
  obtain ⟨h1, _, h3, h4, _⟩ := registerNick_facts w req color
  rw [registerCase_eq, h4, h3, if_pos hw, if_neg (Nat.not_lt.mpr hfull)]
  exact ⟨rfl, h3, h1⟩

/-- C18 (as the code has it): when the outbound queue of the client has room for the
welcome notice (it holds fewer than `sendCap` messages, or the room has no welcome
message), the `Register` case completes without waiting and leaves the client in the
roster with level admin if `creator` and user otherwise; its nickname is the trimmed
`wantsNick` when `noCommands` is unset, `wantsNick` is not blank and no other member has
that nickname, and is empty otherwise; the profile of every other member is as before;
with `hasWelcomeMessage` set exactly one notice with body `welcomeMessage` is appended to
the outbound queue of the client, which stays within its capacity, and no other outbound
queue changes. -/
theorem Register_adds_member (w : World) (req : RegisterRequest) (color : String)
    (hroom : w.room.Rules.hasWelcomeMessage = true → (w.Send req.Client).length < sendCap) :
    ∃ (w' : World) (d : ClientDataExternal),
      registerCase w req color = (w', true) ∧
      RunCase w (.Register req color) = .ok (w', false) ∧
      mapGet w'.room.Clients req.Client = some d ∧
      d.OPLevel = (if req.Creator then OPLevelAdmin else OPLevelUser) ∧
      d.Color = color ∧
      ((w.room.Rules.noCommands = false ∧ TrimSpace req.WantsNick ≠ "" ∧
          (∀ e ∈ w.room.Clients, e.1 ≠ req.Client → e.2.Nick ≠ TrimSpace req.WantsNick)) →
        d.Nick = TrimSpace req.WantsNick) ∧
      (¬(w.room.Rules.noCommands = false ∧ TrimSpace req.WantsNick ≠ "" ∧
          (∀ e ∈ w.room.Clients, e.1 ≠ req.Client → e.2.Nick ≠ TrimSpace req.WantsNick)) →
        d.Nick = "") ∧
      (∀ x p, x ≠ req.Client →
        (mapGet w'.room.Clients x = some p ↔ mapGet w.room.Clients x = some p)) ∧
      (w.room.Rules.hasWelcomeMessage = true →
        w'.Send req.Client =
          w.Send req.Client ++ [welcomeNotice w.room.Rules.welcomeMessage w.now] ∧
        (w'.Send req.Client).length ≤ sendCap) ∧
      (w.room.Rules.hasWelcomeMessage = false → w'.Send req.Client = w.Send req.Client) ∧
      (∀ x, x ≠ req.Client → w'.Send x = w.Send x) := by
  obtain ⟨h1, h2, h3, h4, h5⟩ := registerNick_facts w req color
  have hcond : (w.room.Rules.noCommands = false ∧ TrimSpace req.WantsNick ≠ "" ∧
      heldByOther w.room.Clients req.Client (TrimSpace req.WantsNick) = false) ↔
      (w.room.Rules.noCommands = false ∧ TrimSpace req.WantsNick ≠ "" ∧
        (∀ e ∈ w.room.Clients, e.1 ≠ req.Client → e.2.Nick ≠ TrimSpace req.WantsNick)) := by
    have : heldByOther w.room.Clients req.Client (TrimSpace req.WantsNick) = false ↔
        (∀ e ∈ w.room.Clients, e.1 ≠ req.Client → e.2.Nick ≠ TrimSpace req.WantsNick) := by
      rw [← Bool.not_eq_true, heldByOther_iff]
      simp
    rw [this]
  have hclients : (registerWelcome (registerNick
      (setClientData w req.Client (NewClientDataExternal req.Creator color)) req) req).room =
      (registerNick (setClientData w req.Client (NewClientDataExternal req.Creator color))
        req).room := by
    unfold registerWelcome
    split <;> rfl
  have hcase : registerCase w req color = (registerWelcome (registerNick
      (setClientData w req.Client (NewClientDataExternal req.Creator color)) req) req, true) := by
    rw [registerCase_eq, h4, h3]
    by_cases hw : w.room.Rules.hasWelcomeMessage = true
    · rw [if_pos hw, if_pos (hroom hw)]
    · rw [if_neg hw]
      unfold registerWelcome
      rw [h4, if_neg hw]
  refine ⟨registerWelcome (registerNick
      (setClientData w req.Client (NewClientDataExternal req.Creator color)) req) req,
    { NewClientDataExternal req.Creator color with Nick := registeredNick w req },
    hcase, RunCase_Register w req color, ?_, ?_, rfl, ?_, ?_, ?_, ?_, ?_, ?_⟩
  · rw [hclients]; exact h1
  · simp only [NewClientDataExternal]
  · intro hc
    simp only [registeredNick, if_pos (hcond.mpr hc)]
  · intro hc
    have : ¬(w.room.Rules.noCommands = false ∧ TrimSpace req.WantsNick ≠ "" ∧
        heldByOther w.room.Clients req.Client (TrimSpace req.WantsNick) = false) :=
      fun h => hc (hcond.mp h)
    simp only [registeredNick, if_neg this]
  · intro x p hx
    rw [hclients]
    exact h2 x p hx
  · intro hw
    have hs : (registerWelcome (registerNick
        (setClientData w req.Client (NewClientDataExternal req.Creator color)) req) req).Send
          req.Client =
        w.Send req.Client ++ [welcomeNotice w.room.Rules.welcomeMessage w.now] := by
      unfold registerWelcome
      rw [h4, if_pos hw, Fill_welcomeNotice, sendClient_Send_self, h3, h5]
    refine ⟨hs, ?_⟩
    rw [hs, List.length_append, List.length_singleton]
    exact hroom hw
  · intro hw
    unfold registerWelcome
    rw [h4, if_neg (by simp [hw]), h3]
  · intro x hx
    unfold registerWelcome
    rw [h4]
    split
    · rw [sendClient_Send_other _ _ _ _ hx, h3]
    · rw [h3]

theorem unregisterNotice_eq (w : World) (d : ClientDataExternal) (req : UnregisterRequest) :
    unregisterNotice w d req =
      withInternal w (if d.Nick ≠ "" then [leaveNotice d.Nick req.Reason w.now] else []) := by
  unfold unregisterNotice
  split
  · simp [sendInternal, withInternal, RoomMessage.Fill, leaveNotice, messageColors]
  · simp [withInternal]

/-- C19: processing `Unregister(client, reason)` for a client that is not in the roster
changes nothing, and the loop goes on; for a member, the roster afterwards is the old
roster without the entry of that client, the rules are as before, and the internal queue
gets exactly one message, of leave type, for everyone, with body "nick left the room:
reason", when the nickname of the client was not empty, and no message otherwise. -/
theorem Unregister_removes_member (w : World) (req : UnregisterRequest) :
    (mapGet w.room.Clients req.Client = none →
      RunCase w (.Unregister req) = .ok (w, false)) ∧
    (∀ d, mapGet w.room.Clients req.Client = some d →
      ∃ (w' : World) (quit : Bool),
        RunCase w (.Unregister req) = .ok (w', quit) ∧
        w'.room.Clients = mapDelete w.room.Clients req.Client ∧
        (∀ e, e ∈ w'.room.Clients ↔ e ∈ w.room.Clients ∧ e.1 ≠ req.Client) ∧
        w'.room.Rules = w.room.Rules ∧
        (d.Nick ≠ "" →
          w'.room.Internal = w.room.Internal ++ [leaveNotice d.Nick req.Reason w.now]) ∧
        (d.Nick = "" → w'.room.Internal = w.room.Internal) ∧
        (∀ x data, (leaveNotice d.Nick req.Reason w.now).Target.Should x data = true)) := by
  constructor
  · exact RunCase_Unregister_absent w req
  · intro d hd
    have hrun := RunCase_Unregister_member w req d hd
    have hcl : (remove (unregisterNotice w d req) req.Client).1.room.Clients =
        mapDelete w.room.Clients req.Client := by
      rw [remove_Clients, unregisterNotice_eq]
      rfl
    refine ⟨_, _, hrun, hcl, ?_, ?_, ?_, ?_, ?_⟩
    · intro e
      rw [hcl]
      exact mem_mapDelete _ _ _
    · rw [remove_Rules, unregisterNotice_eq]
      rfl
    · intro hn
      rw [remove_Internal, unregisterNotice_eq, if_pos hn]
      rfl
    · intro hn
      rw [remove_Internal, unregisterNotice_eq, if_neg (by simp [hn])]
      simp [withInternal]
    · intro x data
      rfl

/-! ## Whispers -/

theorem send_Send_other (w : World) (c x : ClientId) (m : RoomMessage) (h : x ≠ c) :
    (send w c m).1.Send x = w.Send x := by
  unfold send
  split
  · exact sendClient_Send_other w c x m h
  · rw [remove_Send]

theorem handleInternalLoop_Send_nonrecipient (todo : List (ClientId × ClientDataExternal))
    (w : World) (m : RoomMessage) (x : ClientId)
    (h : ∀ d, (x, d) ∈ todo → m.Target.Should x d = false) :
    (handleInternalLoop todo w m).1.Send x = w.Send x := by
  induction todo generalizing w with
  | nil => rfl
  | cons e rest ih =>
    obtain ⟨client, data⟩ := e
    have hrest : ∀ d, (x, d) ∈ rest → m.Target.Should x d = false :=
      fun d hd => h d (List.mem_cons_of_mem _ hd)
    unfold handleInternalLoop
    split
    · exact ih w hrest
    · rename_i hs
      have hx : x ≠ client := by
        intro hxc
        subst hxc
        rw [h data (List.mem_cons_self _ _)] at hs
        simp at hs
      simp only
      split
      · exact send_Send_other w client x m hx
      · rw [ih _ hrest, send_Send_other w client x m hx]

theorem handleInternal_recipient (w : World) (m : RoomMessage) (x : ClientId)
    (h : (handleInternal w m).1.Send x ≠ w.Send x) :
    ∃ d, (x, d) ∈ w.room.Clients ∧ m.Target.Should x d = true := by
  by_contra hno
  apply h
  apply handleInternalLoop_Send_nonrecipient
  intro d hd
  cases hs : m.Target.Should x d with
  | false => rfl
  | true => exact absurd ⟨d, hd, hs⟩ hno

theorem whisper_sent (w : World) (c : ClientId) (d : ClientDataExternal) (nick text : String)
    (hmem : mapGet w.room.Clients c = some d) (hnick : d.Nick ≠ "") :
    whisper w c nick text = withInternal w
      [whisperTo d text { Typ := .TargetTypeNickOne, Nick := nick, Client := none } w.now,
       whisperTo d text { Typ := .TargetTypeOne, Nick := "", Client := some c } w.now] := by
  unfold whisper
  simp only [hmem, if_neg hnick]
  by_cases hcol : d.Color = ""
  · simp [sendInternal, withInternal, RoomMessage.Fill, whisperTo, hnick, hcol, messageColors]
  · simp [sendInternal, withInternal, RoomMessage.Fill, whisperTo, hnick, hcol]

/-- C20 (as the code has it): on a roster with distinct non-empty nicknames, a sender with
a non-empty nickname and a target nickname that is not empty: `whisper` sends exactly two
messages of whisper type with body "whispers: text", the nickname of the sender and its
color, the first for the target nickname and the second for the sender; when
`handleInternal` delivers them to a roster with distinct non-empty nicknames, the first
reaches only a member with the target nickname, of which there is at most one, and the
second only the sender.  A sender with an empty nickname gets one private error and no
whisper is sent. -/
theorem whisper_reaches_holder_and_sender (w : World) (c : ClientId)
    (d : ClientDataExternal) (nick text : String)
    (hmem : mapGet w.room.Clients c = some d) :
    (d.Nick ≠ "" →
      ∃ m1 m2 : RoomMessage,
        whisper w c nick text = withInternal w [m1, m2] ∧
        m1.Typ = .MessageTypeWhisper ∧ m2.Typ = .MessageTypeWhisper ∧
        m1.Body = "whispers: " ++ text ∧ m2.Body = "whispers: " ++ text ∧
        m1.Nick = d.Nick ∧ m2.Nick = d.Nick ∧
        (d.Color ≠ "" → m1.Color = d.Color ∧ m2.Color = d.Color) ∧
        m1.Target = { Typ := .TargetTypeNickOne, Nick := nick, Client := none } ∧
        m2.Target = { Typ := .TargetTypeOne, Nick := "", Client := some c } ∧
        (∀ w2 : World, NickUnique w2.room.Clients → nick ≠ "" →
          (∀ x, (handleInternal w2 m1).1.Send x ≠ w2.Send x →
            ∃ dx, (x, dx) ∈ w2.room.Clients ∧ dx.Nick = nick) ∧
          (∀ x y, (handleInternal w2 m1).1.Send x ≠ w2.Send x →
            (handleInternal w2 m1).1.Send y ≠ w2.Send y → x = y) ∧
          (∀ x, (handleInternal w2 m2).1.Send x ≠ w2.Send x → x = c))) ∧
    (d.Nick = "" →
      whisper w c nick text = withInternal w
        [privateError c "you must set a nickname before sending messages" w.now]) := by
  constructor
  · intro hnick
    refine ⟨_, _, whisper_sent w c d nick text hmem hnick, rfl, rfl, rfl, rfl, rfl, rfl, ?_,
      rfl, rfl, ?_⟩
    · intro hcol
      simp [whisperTo, hcol]
    · intro w2 hu hne
      have hrec : ∀ x, (handleInternal w2 (whisperTo d text
          { Typ := .TargetTypeNickOne, Nick := nick, Client := none } w.now)).1.Send x ≠
          w2.Send x → ∃ dx, (x, dx) ∈ w2.room.Clients ∧ dx.Nick = nick := by
        intro x hx
        obtain ⟨dx, hdx, hs⟩ := handleInternal_recipient w2 _ x hx
        refine ⟨dx, hdx, ?_⟩
        simp only [whisperTo, Target.Should, decide_eq_true_eq] at hs
        exact hs.symm
      refine ⟨hrec, ?_, ?_⟩
      · intro x y hx hy
        obtain ⟨dx, hdx, hnx⟩ := hrec x hx
        obtain ⟨dy, hdy, hny⟩ := hrec y hy
        by_contra hxy
        exact hu (x, dx) hdx (y, dy) hdy hxy (hnx ▸ hne) (hny ▸ hne) (hnx.trans hny.symm)
      · intro x hx
        obtain ⟨dx, _, hs⟩ := handleInternal_recipient w2 _ x hx
        simp only [whisperTo, Target.Should, decide_eq_true_eq, Option.some.injEq] at hs
        exact hs
  · intro hnick
    unfold whisper
    simp only [hmem, hnick, if_true]
    exact sendInternal_privateError _ _ _

/-- C20 as stated fails: `/w "" hi` is accepted by the parser, and in a roster with
distinct non-empty nicknames where two members other than the sender have no nickname,
the first of the two whispers is delivered to both of them. -/
theorem whisper_to_empty_nickname_reaches_many :
    ParseCommand "/w \x22\x22 hi" =
      .ok (some
        { Name := "w"
          Args := ["", "hi"]
          Target := .CommandTargetRoom
          OPLevel := OPLevelUser }, none) ∧
    NickUnique nicklessRoom.room.Clients ∧
    whisper nicklessRoom 1 "" "hi" = withInternal nicklessRoom
      [whisperTo { Nick := "ann", Color := "#aaaaaa" } "hi"
        { Typ := .TargetTypeNickOne, Nick := "", Client := none } 0,
       whisperTo { Nick := "ann", Color := "#aaaaaa" } "hi"
        { Typ := .TargetTypeOne, Nick := "", Client := some 1 } 0] ∧
    (handleInternal nicklessRoom (whisperTo { Nick := "ann", Color := "#aaaaaa" } "hi"
      { Typ := .TargetTypeNickOne, Nick := "", Client := none } 0)).1.Send 2 =
      [whisperTo { Nick := "ann", Color := "#aaaaaa" } "hi"
        { Typ := .TargetTypeNickOne, Nick := "", Client := none } 0] ∧
    (handleInternal nicklessRoom (whisperTo { Nick := "ann", Color := "#aaaaaa" } "hi"
      { Typ := .TargetTypeNickOne, Nick := "", Client := none } 0)).1.Send 3 =
      [whisperTo { Nick := "ann", Color := "#aaaaaa" } "hi"
        { Typ := .TargetTypeNickOne, Nick := "", Client := none } 0] := by
  refine ⟨by rfl, ?_, by rfl, by rfl, by rfl⟩
  unfold NickUnique
  decide

/-! ## Resolved messages -/

theorem Fill_fields (m : RoomMessage) (now : Nat) :
    (RoomMessage.Fill m now).Typ = m.Typ ∧ (RoomMessage.Fill m now).Body = m.Body ∧
    (RoomMessage.Fill m now).ID ≠ "" ∧ (RoomMessage.Fill m now).Time ≠ none ∧
    (RoomMessage.Fill m now).Nick ≠ "" ∧
    (m.Nick = "" → (RoomMessage.Fill m now).Nick = "*") ∧
    (m.Color = "" → (RoomMessage.Fill m now).Color = messageColors m.Typ) ∧
    (m.Color ≠ "" → (RoomMessage.Fill m now).Color = m.Color) ∧
    (m.Typ ≠ .MessageTypeReset → (RoomMessage.Fill m now).Color ≠ "") := by
  have hid := messageID_ne_empty now
  unfold RoomMessage.Fill
  by_cases h1 : m.ID = "" <;> by_cases h2 : m.Time = none <;> by_cases h3 : m.Nick = "" <;>
    by_cases h4 : m.Color = "" <;> by_cases h5 : m.Target.Typ = .unset <;>
    simp [h1, h2, h3, h4, h5, hid] <;>
    (cases hT : m.Typ <;> simp [messageColors])

theorem Good_Fill (m : RoomMessage) (now : Nat) (h : m.Typ ≠ .MessageTypeReset) :
    Good (RoomMessage.Fill m now) := by
  obtain ⟨_, _, h1, h2, h3, _, _, _, h4⟩ := Fill_fields m now
  exact ⟨h1, h2, h3, h4 h⟩

theorem QueueGood_sendInternal (w : World) (m : RoomMessage) (h : QueueGood w)
    (hm : m.Typ ≠ .MessageTypeReset) : QueueGood (sendInternal w m) := by
  intro x hx
  rw [sendInternal_Internal, List.mem_append, List.mem_singleton] at hx
  rcases hx with hx | hx
  · exact h x hx
  · rw [hx]; exact Good_Fill m w.now hm

theorem Delivered_refl (w : World) : Delivered w w :=
  fun _ _ hm => Or.inl hm

theorem Delivered_of_Send_eq (w w' : World) (h : w'.Send = w.Send) : Delivered w w' := by
  intro c m hm
  rw [h] at hm
  exact Or.inl hm

theorem Delivered_trans (a b c : World) (h1 : Delivered a b) (h2 : Delivered b c) :
    Delivered a c := by
  intro x m hm
  rcases h2 x m hm with h | h
  · exact h1 x m h
  · exact Or.inr h

theorem Delivered_sendClient (w : World) (c : ClientId) (m : RoomMessage) (h : Good m) :
    Delivered w (sendClient w c m) := by
  intro x y hy
  by_cases hx : x = c
  · subst hx
    rw [sendClient_Send_self, List.mem_append, List.mem_singleton] at hy
    rcases hy with hy | hy
    · exact Or.inl hy
    · exact Or.inr (hy ▸ h)
  · rw [sendClient_Send_other w c x m hx] at hy
    exact Or.inl hy

theorem Colored_of_sublist (w w' : World) (h : w'.room.Clients.Sublist w.room.Clients)
    (hc : Colored w) : Colored w' :=
  fun e he => hc e (h.subset he)

theorem Sound_send (w : World) (c : ClientId) (m : RoomMessage) (h : Sound w) (hm : Good m) :
    Sound (send w c m).1 ∧ Delivered w (send w c m).1 := by
  refine ⟨⟨Colored_of_sublist _ _ (send_Clients_sublist w c m) h.1, ?_⟩, ?_⟩
  · intro x hx
    rw [send_Internal] at hx
    exact h.2 x hx
  · unfold send
    split
    · exact Delivered_sendClient w c m hm
    · exact Delivered_of_Send_eq _ _ (remove_Send w c)

theorem Sound_handleInternalLoop (todo : List (ClientId × ClientDataExternal)) (w : World)
    (m : RoomMessage) (h : Sound w) (hm : Good m) :
    Sound (handleInternalLoop todo w m).1 ∧ Delivered w (handleInternalLoop todo w m).1 := by
  induction todo generalizing w with
  | nil => exact ⟨h, Delivered_refl w⟩
  | cons e rest ih =>
    obtain ⟨client, data⟩ := e
    unfold handleInternalLoop
    split
    · exact ih w h
    · simp only
      obtain ⟨h1, h2⟩ := Sound_send w client m h hm
      split
      · exact ⟨h1, h2⟩
      · obtain ⟨h3, h4⟩ := ih _ h1
        exact ⟨h3, Delivered_trans _ _ _ h2 h4⟩

theorem Sound_sendInternal (w : World) (m : RoomMessage) (h : Sound w)
    (hm : m.Typ ≠ .MessageTypeReset) : Sound (sendInternal w m) :=
  ⟨h.1, QueueGood_sendInternal w m h.2 hm⟩

theorem Colored_mapSet (w : World) (c : ClientId) (d : ClientDataExternal) (h : Colored w)
    (hd : d.Color ≠ "") : Colored (setClientData w c d) := by
  intro e he
  rw [setClientData_Clients] at he
  rcases (mem_mapSet _ _ _ _).mp he with rfl | ⟨_, he⟩
  · exact hd
  · exact h e he

theorem Sound_setNick (w : World) (c : ClientId) (nick : String) (h : Sound w)
    (hc : (clientData w c).Color ≠ "") :
    Sound (setNick w c nick) ∧ (setNick w c nick).Send = w.Send := by
  unfold setNick
  simp only
  split
  · exact ⟨Sound_sendInternal w _ h (by simp), rfl⟩
  · split
    · exact ⟨Sound_sendInternal w _ h (by simp), rfl⟩
    · have hs : Sound (setClientData w c { clientData w c with Nick := TrimSpace nick }) :=
        ⟨Colored_mapSet w c _ h.1 hc, h.2⟩
      split
      · exact ⟨Sound_sendInternal _ _ hs (by simp), rfl⟩
      · exact ⟨Sound_sendInternal _ _ hs (by simp), rfl⟩

theorem Sound_op (w : World) (c : ClientId) (nick levelName : String) (h : Sound w)
    (hc : (clientData w c).Color ≠ "") :
    Sound (op w c nick levelName) ∧ (op w c nick levelName).Send = w.Send := by
  unfold op
  split
  · exact ⟨Sound_sendInternal w _ h (by simp), rfl⟩
  · split
    · exact ⟨Sound_sendInternal w _ h (by simp), rfl⟩
    · have hs : ∀ lv, Sound (setClientData w c { clientData w c with OPLevel := lv }) :=
        fun lv => ⟨Colored_mapSet w c _ h.1 hc, h.2⟩
      exact ⟨Sound_sendInternal _ _ (Sound_sendInternal _ _ (hs _) (by simp)) (by simp), rfl⟩

theorem Sound_whisper (w : World) (c : ClientId) (nick message : String) (h : Sound w) :
    Sound (whisper w c nick message) ∧ (whisper w c nick message).Send = w.Send := by
  unfold whisper
  split
  · exact ⟨h, rfl⟩
  · split
    · exact ⟨Sound_sendInternal w _ h (by simp), rfl⟩
    · exact ⟨Sound_sendInternal _ _ (Sound_sendInternal _ _ h (by simp)) (by simp), rfl⟩

theorem Sound_getWho (w : World) (c : ClientId) (h : Sound w) :
    Sound (getWho w c) ∧ (getWho w c).Send = w.Send :=
  ⟨Sound_sendInternal w _ h (by simp), rfl⟩

theorem Sound_welcome (w w' : World) (c : ClientId) (message : Option String) (h : Sound w)
    (hw : welcome w c message = .ok w') : Sound w' ∧ w'.Send = w.Send := by
  unfold welcome at hw
  split at hw
  · simp at hw
  · split at hw <;>
      (simp only [Except.ok.injEq] at hw; subst hw
       exact ⟨Sound_sendInternal _ _ ⟨h.1, h.2⟩ (by simp), rfl⟩)

theorem Sound_password (w : World) (c : ClientId) (p : Option String) (h : Sound w) :
    Sound (password w c p) ∧ (password w c p).Send = w.Send := by
  unfold password
  split <;> exact ⟨Sound_sendInternal _ _ ⟨h.1, h.2⟩ (by simp), rfl⟩

theorem clientData_Colored (w : World) (c : ClientId) (h : Colored w)
    (hl : OPLevelUser ≤ (clientData w c).OPLevel) : (clientData w c).Color ≠ "" := by
  rcases clientData_cases w c with ⟨h0, _⟩ | hm
  · rw [h0] at hl
    exact absurd hl (by decide)
  · exact h _ hm

theorem Sound_dispatch (w w' : World) (c : ClientId) (command : Command) (h : Sound w)
    (hl : (command.Name = "nick" ∨ command.Name = "op") →
      OPLevelUser ≤ (clientData w c).OPLevel)
    (hd : dispatch w c command = .ok w') : Sound w' ∧ w'.Send = w.Send := by
  unfold dispatch at hd
  split at hd
  · rename_i hn
    split at hd
    · simp only [Except.ok.injEq] at hd; subst hd
      exact Sound_setNick w c _ h (clientData_Colored w c h.1 (hl (Or.inl hn)))
    · simp at hd
  · split at hd
    · simp only [Except.ok.injEq] at hd; subst hd
      exact Sound_getWho w c h
    · split at hd
      · split at hd
        · simp only [Except.ok.injEq] at hd; subst hd
          exact Sound_whisper w c _ _ h
        · simp at hd
      · split at hd
        · rename_i hn
          split at hd
          · simp only [Except.ok.injEq] at hd; subst hd
            exact Sound_op w c _ _ h (clientData_Colored w c h.1 (hl (Or.inr hn)))
          · simp at hd
        · split at hd
          · exact Sound_welcome w w' c _ h hd
          · split at hd
            · simp only [Except.ok.injEq] at hd; subst hd
              exact Sound_password w c _ h
            · simp only [Except.ok.injEq] at hd; subst hd
              exact ⟨h, rfl⟩

theorem Sound_afterDisabledNotice (w : World) (c : ClientId) (h : Sound w) :
    Sound (afterDisabledNotice w c) ∧ (afterDisabledNotice w c).Send = w.Send := by
  unfold afterDisabledNotice
  split
  · exact ⟨Sound_sendInternal w _ h (by simp), rfl⟩
  · exact ⟨h, rfl⟩

theorem clientData_afterDisabledNotice (w : World) (c x : ClientId) :
    clientData (afterDisabledNotice w c) x = clientData w x := by
  unfold clientData
  rw [afterDisabledNotice_Clients]

theorem Good_Promote (w : World) (message : ClientMessage) (h : Colored w)
    (hn : (clientData w message.Client).Nick ≠ "") :
    Good (message.Promote (clientData w message.Client) w.now) := by
  refine ⟨messageID_ne_empty _, by simp [ClientMessage.Promote], hn, ?_⟩
  rcases clientData_cases w message.Client with ⟨h0, _⟩ | hm
  · rw [h0] at hn
    exact absurd rfl hn
  · exact h _ hm

theorem Sound_handleExternal (w : World) (message : ClientMessage)
    (res : World × Option GoError) (h : Sound w)
    (hwf : Event.WellFormed (.External message))
    (hr : handleExternal w message = .ok res) : Sound res.1 ∧ Delivered w res.1 := by
  by_cases hT : message.Typ = .MessageTypeMessage
  · rw [handleExternal_chat w message hT] at hr
    split at hr
    · simp only [Except.ok.injEq] at hr; subst hr
      exact ⟨Sound_sendInternal w _ h (by simp), Delivered_refl w⟩
    · rename_i hn
      simp only [Except.ok.injEq] at hr; subst hr
      exact Sound_handleInternalLoop _ w _ h (Good_Promote w message h.1 hn)
  · by_cases hC : message.Typ = .MessageTypeCommand
    · cases hcmd : message.Command with
      | none =>
        rw [handleExternal_other w message hT (Or.inr hcmd)] at hr
        simp only [Except.ok.injEq] at hr; subst hr
        exact ⟨h, Delivered_refl w⟩
      | some command =>
        rw [handleExternal_command w message command hC hcmd] at hr
        obtain ⟨h1, h2⟩ := Sound_afterDisabledNotice w message.Client h
        split at hr
        · simp only [Except.ok.injEq] at hr; subst hr
          exact ⟨Sound_sendInternal _ _ h1 (by simp), Delivered_of_Send_eq _ _ h2⟩
        · rename_i hlevel
          split at hr
          · simp at hr
          · rename_i w2 hd
            simp only [Except.ok.injEq] at hr; subst hr
            have hl : (command.Name = "nick" ∨ command.Name = "op") →
                OPLevelUser ≤ (clientData (afterDisabledNotice w message.Client)
                  message.Client).OPLevel := by
              intro hname
              rw [clientData_afterDisabledNotice]
              exact Nat.le_trans (hwf command hcmd hname) (Nat.not_lt.mp hlevel)
            obtain ⟨h3, h4⟩ := Sound_dispatch _ w2 message.Client command h1 hl hd
            exact ⟨h3, Delivered_of_Send_eq _ _ (h4.trans h2)⟩
    · rw [handleExternal_other w message hT (Or.inl hC)] at hr
      simp only [Except.ok.injEq] at hr; subst hr
      exact ⟨h, Delivered_refl w⟩

theorem Sound_remove (w : World) (c : ClientId) (h : Sound w) :
    Sound (remove w c).1 ∧ (remove w c).1.Send = w.Send := by
  refine ⟨⟨?_, ?_⟩, remove_Send w c⟩
  · refine Colored_of_sublist w _ ?_ h.1
    rw [remove_Clients]
    exact List.filter_sublist _
  · intro x hx
    rw [remove_Internal] at hx
    exact h.2 x hx

theorem Sound_RunCase (w w' : World) (ev : Event) (quit : Bool) (h : Sound w)
    (hwf : ev.WellFormed) (hr : RunCase w ev = .ok (w', quit)) :
    Sound w' ∧ Delivered w w' := by
  cases ev with
  | Register req color =>
    rw [RunCase_Register] at hr
    simp only [Except.ok.injEq, Prod.mk.injEq] at hr
    rw [← hr.1]
    have hcol : (NewClientDataExternal req.Creator color).Color ≠ "" := hwf
    have h1 : Sound (setClientData w req.Client (NewClientDataExternal req.Creator color)) :=
      ⟨Colored_mapSet w _ _ h.1 hcol, h.2⟩
    have h2 : Sound (registerNick
        (setClientData w req.Client (NewClientDataExternal req.Creator color)) req) ∧
        (registerNick (setClientData w req.Client (NewClientDataExternal req.Creator color))
          req).Send = w.Send := by
      unfold registerNick
      split
      · exact Sound_setNick _ _ _ h1 (by rw [clientData_setClientData]; exact hcol)
      · exact ⟨h1, rfl⟩
    unfold registerWelcome
    split
    · refine ⟨⟨h2.1.1, h2.1.2⟩, ?_⟩
      exact Delivered_trans _ _ _ (Delivered_of_Send_eq _ _ h2.2)
        (Delivered_sendClient _ _ _ (Good_Fill _ _ (by simp)))
    · exact ⟨h2.1, Delivered_of_Send_eq _ _ h2.2⟩
  | Unregister req =>
    cases hg : mapGet w.room.Clients req.Client with
    | none =>
      rw [RunCase_Unregister_absent w req hg] at hr
      simp only [Except.ok.injEq, Prod.mk.injEq] at hr
      rw [← hr.1]; exact ⟨h, Delivered_refl w⟩
    | some data =>
      rw [RunCase_Unregister_member w req data hg] at hr
      simp only [Except.ok.injEq, Prod.mk.injEq] at hr
      rw [← hr.1]
      have hn : Sound (unregisterNotice w data req) ∧ (unregisterNotice w data req).Send = w.Send := by
        unfold unregisterNotice
        split
        · exact ⟨Sound_sendInternal w _ h (by simp), rfl⟩
        · exact ⟨h, rfl⟩
      obtain ⟨h1, h2⟩ := Sound_remove _ req.Client hn.1
      exact ⟨h1, Delivered_of_Send_eq _ _ (h2.trans hn.2)⟩
  | Internal =>
    unfold RunCase at hr
    simp only at hr
    split at hr
    · simp only [Except.ok.injEq, Prod.mk.injEq] at hr
      rw [← hr.1]; exact ⟨h, Delivered_refl w⟩
    · rename_i message rest hq
      simp only [Except.ok.injEq, Prod.mk.injEq] at hr
      rw [← hr.1]
      have hgood : Good message := h.2 message (by rw [hq]; exact List.mem_cons_self _ _)
      have hs : Sound { w with room := { w.room with Internal := rest } } :=
        ⟨h.1, fun x hx => h.2 x (by rw [hq]; exact List.mem_cons_of_mem _ hx)⟩
      exact Sound_handleInternalLoop _ _ _ hs hgood
  | External message =>
    unfold RunCase at hr
    simp only at hr
    split at hr
    · simp only [Except.ok.injEq, Prod.mk.injEq] at hr
      rw [← hr.1]
      exact ⟨Sound_sendInternal w _ h (by simp), Delivered_refl w⟩
    · split at hr
      · simp at hr
      · rename_i res hres
        simp only [Except.ok.injEq, Prod.mk.injEq] at hr
        rw [← hr.1]
        exact Sound_handleExternal w message res h hwf hres

theorem SessionPlaced_refl (c : Client) : SessionPlaced c c :=
  fun _ hm => Or.inl hm

theorem SessionPlaced_put (c : Client) (m : RoomMessage) (h : Good m ∨ m = bareReset) :
    SessionPlaced c (c.put m) := by
  intro x hx
  simp only [Client.put, List.mem_append, List.mem_singleton] at hx
  rcases hx with hx | hx
  · exact Or.inl hx
  · exact Or.inr (hx ▸ h)

theorem SessionPlaced_putError (c : Client) (body : String) (now : Nat) :
    SessionPlaced c (c.putError body now) :=
  SessionPlaced_put c _ (Or.inl (Good_Fill _ _ (by simp)))

theorem SessionPlaced_leave (c : Client) (n : Net) (reason : String) :
    SessionPlaced c (c.leave n reason).1 := by
  cases h : c.Room with
  | none => rw [leave_none c n reason h]; exact SessionPlaced_refl c
  | some old =>
    rw [leave_some c n reason old h]
    intro m hm
    simp only [List.mem_singleton] at hm
    exact Or.inr (Or.inr hm)

theorem SessionPlaced_enter (c : Client) (n : Net) (roomName : String) (id : Nat) :
    SessionPlaced c (c.enter n roomName id).1 :=
  SessionPlaced_leave c n _

theorem SessionPlaced_join (c : Client) (n : Net) (roomName : String)
    (password : Option String) : SessionPlaced c (c.join n roomName password).1 := by
  unfold Client.join
  split
  · exact SessionPlaced_putError c _ _
  · simp only
    split
    · split
      · exact SessionPlaced_putError c _ _
      · split
        · exact SessionPlaced_putError c _ _
        · exact SessionPlaced_enter c n roomName _
    · exact SessionPlaced_enter c n roomName _

theorem SessionPlaced_start (c : Client) (n : Net) (roomName : String)
    (password : Option String) : SessionPlaced c (c.start n roomName password).1 := by
  unfold Client.start
  split
  · exact SessionPlaced_putError c _ _
  · exact SessionPlaced_leave c n _

theorem SessionPlaced_command (c : Client) (n : Net) (visited : List (String × CommandSpec))
    (command : Command) (res : Client × Net)
    (h : c.command n visited command = .ok res) : SessionPlaced c res.1 := by
  unfold Client.command at h
  split at h
  · split at h
    · simp at h
    · simp only [Except.ok.injEq] at h; subst h
      exact SessionPlaced_join c n _ _
  · split at h
    · split at h
      · simp at h
      · simp only [Except.ok.injEq] at h; subst h
        exact SessionPlaced_start c n _ _
    · split at h
      · simp only [Except.ok.injEq] at h; subst h
        exact SessionPlaced_join c n _ _
      · split at h
        · simp only [Except.ok.injEq] at h; subst h
          exact SessionPlaced_put c _ (Or.inr rfl)
        · split at h
          · split at h
            · simp at h
            · simp only at h
              split at h
              · simp at h
              · split at h
                · split at h
                  · simp at h
                  · simp only [Except.ok.injEq] at h; subst h
                    exact SessionPlaced_refl c
                · simp only [Except.ok.injEq] at h; subst h
                  exact SessionPlaced_refl c
          · split at h
            · simp only [Except.ok.injEq] at h; subst h
              exact SessionPlaced_put c _ (Or.inl (Good_Fill _ _ (by simp)))
            · simp only [Except.ok.injEq] at h; subst h
              exact SessionPlaced_refl c

theorem SessionPlaced_handleCase (c : Client) (n : Net)
    (visited : List (String × CommandSpec)) (res : Client × Net)
    (h : c.handleCase n visited = .ok res) : SessionPlaced c res.1 := by
  unfold Client.handleCase at h
  split at h
  · simp only [Except.ok.injEq] at h; subst h
    exact SessionPlaced_refl c
  · simp only at h
    split at h
    · simp at h
    · split at h
      · simp at h
      · simp only [Except.ok.injEq] at h; subst h
        exact SessionPlaced_refl c
    · simp only [Except.ok.injEq] at h; subst h
      exact SessionPlaced_putError _ _ _
    · split at h
      · split at h
        · simp at h
        · simp only [Except.ok.injEq] at h; subst h
          exact SessionPlaced_refl c
      · intro m hm
        exact SessionPlaced_command _ n visited _ res h m hm

/-- C15 (as the code has it): `Fill` keeps type and body and returns, for every message
type, a non-empty identifier, a non-zero time and a non-empty nickname ("*" when none was
set), and a non-empty color (the default of `messageColors` when none was set) for every
type other than reset; a step of the room loop on a well-formed event, from a state with
colored profiles and a resolved internal queue, leads to such a state again and adds only
resolved messages to the outbound queues; a step of the session adds to its outbound queue
only resolved messages and bare reset signals, which it sends without `Fill`. -/
theorem delivered_messages_resolved_except_reset :
    (∀ (m : RoomMessage) (now : Nat),
      (RoomMessage.Fill m now).Typ = m.Typ ∧ (RoomMessage.Fill m now).Body = m.Body ∧
      (RoomMessage.Fill m now).ID ≠ "" ∧ (RoomMessage.Fill m now).Time ≠ none ∧
      (RoomMessage.Fill m now).Nick ≠ "" ∧
      (m.Nick = "" → (RoomMessage.Fill m now).Nick = "*") ∧
      (m.Color = "" → (RoomMessage.Fill m now).Color = messageColors m.Typ) ∧
      (m.Color ≠ "" → (RoomMessage.Fill m now).Color = m.Color) ∧
      (m.Typ ≠ .MessageTypeReset → (RoomMessage.Fill m now).Color ≠ "")) ∧
    (∀ name, Sound { room := NewRoom name }) ∧
    (∀ (w w' : World) (ev : Event) (quit : Bool),
      Sound w → ev.WellFormed → RunCase w ev = .ok (w', quit) →
      Sound w' ∧ ∀ c, ∀ m ∈ w'.Send c, m ∈ w.Send c ∨ Good m) ∧
    (∀ (c : Client) (n : Net) (visited : List (String × CommandSpec)) (res : Client × Net),
      c.handleCase n visited = .ok res →
      ∀ m ∈ res.1.Send, m ∈ c.Send ∨ Good m ∨ m = bareReset) ∧
    (∀ c : Client, c.handleStart.Send = c.Send ++ [bareReset]) := by
  refine ⟨Fill_fields, ?_, ?_, ?_, fun _ => rfl⟩
  · intro name
    constructor
    · intro e he
      simp [NewRoom] at he
    · intro m hm
      simp [NewRoom] at hm
  · intro w w' ev quit hs hwf hr
    exact Sound_RunCase w w' ev quit hs hwf hr
  · intro c n visited res h
    exact SessionPlaced_handleCase c n visited res h

/-- C15 as stated fails: `Fill` leaves the color of a reset message empty, and the reset
signal that `/clear` makes the session put on its outbound queue is not filled: its
identifier, nickname and color are empty and its time is zero. -/
theorem reset_messages_are_not_resolved :
    (RoomMessage.Fill { Typ := .MessageTypeReset } 5).Color = "" ∧
    ParseCommand "/clear" = .ok (some { Name := "clear" }, none) ∧
    Client.handleCase { guest with Recv := [inboundLine guest "/clear"] } lobbyNet Commands =
      .ok ({ guest with Send := [bareReset] }, lobbyNet) ∧
    bareReset.ID = "" ∧ bareReset.Time = none ∧ bareReset.Nick = "" ∧ bareReset.Color = "" := by
  refine ⟨by rfl, by rfl, by rfl, rfl, rfl, rfl, rfl⟩

theorem delivered_messages_resolved_except_reset_witness :
    (∀ c, ∀ m ∈ (handleInternal nicklessRoom (welcomeNotice "hello" 3)).1.Send c,
      m ∈ nicklessRoom.Send c ∨ Good m) ∧
    (∀ m ∈ (guest.join denNet "den" none).1.Send, m ∈ guest.Send ∨ Good m ∨ m = bareReset) := by
  constructor
  · have hs : Sound { nicklessRoom with
        room := { nicklessRoom.room with Internal := [welcomeNotice "hello" 3] } } := by
      constructor
      · intro e he
        have : e ∈ nicklessRoom.room.Clients := he
        revert e
        decide
      · intro m hm
        have : m = welcomeNotice "hello" 3 := by simpa using hm
        rw [this]
        exact ⟨messageID_ne_empty 3, by simp [welcomeNotice], by decide, by decide⟩
    exact (delivered_messages_resolved_except_reset.2.2.1 _ _ .Internal false hs trivial rfl).2
  · exact delivered_messages_resolved_except_reset.2.2.2.1
      { guest with Recv := [inboundLine guest "/join den"] } denNet Commands
      (guest.join denNet "den" none) (by rfl)

theorem malformed_command_forwarded_as_chat_witness :
    Client.handleCase { guest with Recv := [inboundLine guest "/w bob \x22hi"] } lobbyNet Commands =
      .ok (guest, lobbyNet.sendExternal 0 (inboundLine guest "/w bob \x22hi")) ∧
    (inboundLine guest "/w bob \x22hi").Typ = .MessageTypeMessage :=
  ⟨(malformed_command_forwarded_as_chat
      { guest with Recv := [inboundLine guest "/w bob \x22hi"] } lobbyNet Commands
      "/w bob \x22hi" [] 0 rfl rfl).2.1 "EOF found when expecting closing quote"
      (by decide) (by rfl), rfl⟩

theorem join_password_gate_witness :
    guest.join denNet "den" none =
      ({ guest with Send := [sessionError "room has a password" 0] }, denNet) ∧
    guest.join denNet "den" (some "no") =
      ({ guest with Send := [sessionError "incorrect password" 0] }, denNet) ∧
    (guest.join denNet "den" (some "pw")).1.Room = some 1 ∧
    ((guest.join denNet "den" (some "pw")).2.procs 1).Register =
      [{ Client := 7, WantsNick := "ann", Creator := false }] := by
  obtain ⟨h1, h2, h3, h4, _⟩ := join_password_gate guest denNet "den" 1 "pw" (by decide) rfl rfl
  exact ⟨h1, h2 "no" (by decide), h3, h4⟩

theorem start_existing_room_rejected_witness :
    guest.start denNet "den" (some "x") =
      ({ guest with Send := [sessionError "room den already exists" 0] }, denNet) ∧
    mapGet (guest.start denNet "lab" (some "x")).2.Rooms "lab" = some 2 ∧
    ((guest.start denNet "lab" (some "x")).2.procs 2).room.Rules.hasPassword = true ∧
    ((guest.start denNet "lab" (some "x")).2.procs 2).Register =
      [{ Client := 7, WantsNick := "ann", Creator := true }] := by
  have h := start_existing_room_rejected guest denNet "den" (some "x")
  obtain ⟨_, h2, _, _, _, h6, _, _, h9⟩ :=
    (start_existing_room_rejected guest denNet "lab" (some "x")).2 (by decide)
  exact ⟨h.1 1 (by decide), h2, h6, h9⟩

theorem Register_adds_member_witness :
    (welcomingRoom.Send 5).length < sendCap ∧
    ∃ (w' : World) (d : ClientDataExternal),
      registerCase welcomingRoom { Client := 5, WantsNick := " cat ", Creator := true }
        "#dddddd" = (w', true) ∧
      RunCase welcomingRoom (.Register { Client := 5, WantsNick := " cat ", Creator := true }
        "#dddddd") = .ok (w', false) ∧
      mapGet w'.room.Clients 5 = some d ∧ d.OPLevel = OPLevelAdmin ∧ d.Nick = "cat" ∧
      w'.Send 5 = [welcomeNotice "hello" 0] ∧ w'.Send 4 = welcomingRoom.Send 4 := by
  have hlen : (welcomingRoom.Send 5).length < sendCap := by decide
  obtain ⟨w', d, h0, h1, h2, h3, _, h5, _, _, h8, _, h10⟩ := Register_adds_member welcomingRoom
    { Client := 5, WantsNick := " cat ", Creator := true } "#dddddd" (fun _ => hlen)
  exact ⟨hlen, w', d, h0, h1, h2, h3, (h5 ⟨rfl, by decide, by decide⟩).trans (by decide),
    (h8 rfl).1, h10 4 (by decide)⟩

/-- C18 as stated fails: in a room with a welcome message, the `Register` case for a
session whose outbound queue already holds `sendCap` messages writes the roster entry and
the nickname and then waits at its send: the case has not completed, the queue is as it
was, and the welcome notice is not in it. -/
theorem Register_waits_on_full_queue :
    welcomingRoom.room.Rules.hasWelcomeMessage = true ∧
    (welcomingRoom.Send 4).length = sendCap ∧
    (registerCase welcomingRoom { Client := 4, WantsNick := "bob" } "#dddddd").2 = false ∧
    (registerCase welcomingRoom { Client := 4, WantsNick := "bob" } "#dddddd").1.Send 4 =
      welcomingRoom.Send 4 ∧
    welcomeNotice "hello" 0 ∉
      (registerCase welcomingRoom { Client := 4, WantsNick := "bob" } "#dddddd").1.Send 4 ∧
    mapGet (registerCase welcomingRoom { Client := 4, WantsNick := "bob" }
        "#dddddd").1.room.Clients 4 =
      some { Nick := "bob", Color := "#dddddd", OPLevel := OPLevelUser } := by
  have hlen : (welcomingRoom.Send 4).length = sendCap := by
    simp [welcomingRoom]
  obtain ⟨h1, h2, h3⟩ := registerCase_waits welcomingRoom { Client := 4, WantsNick := "bob" }
    "#dddddd" rfl (le_of_eq hlen.symm)
  refine ⟨rfl, hlen, h1, by rw [h2], ?_, ?_⟩
  · rw [h2]
    simp [welcomingRoom, welcomeNotice]
  · rw [h3]
    decide

theorem Unregister_removes_member_witness :
    RunCase nicklessRoom (.Unregister { Client := 9, Reason := "quit" }) =
      .ok (nicklessRoom, false) ∧
    ∃ (w' : World) (quit : Bool),
      RunCase nicklessRoom (.Unregister { Client := 1, Reason := "quit" }) = .ok (w', quit) ∧
      w'.room.Clients = mapDelete nicklessRoom.room.Clients 1 ∧
      w'.room.Internal = [leaveNotice "ann" "quit" 0] := by
  have h := Unregister_removes_member nicklessRoom { Client := 9, Reason := "quit" }
  obtain ⟨w', quit, h1, h2, _, _, h5, _⟩ :=
    (Unregister_removes_member nicklessRoom { Client := 1, Reason := "quit" }).2
      { Nick := "ann", Color := "#aaaaaa", OPLevel := OPLevelUser } (by decide)
  exact ⟨h.1 (by decide), w', quit, h1, h2, h5 (by decide)⟩

theorem whisper_reaches_holder_and_sender_witness :
    (∃ m1 m2 : RoomMessage,
      whisper nicklessRoom 1 "bob" "hi" = withInternal nicklessRoom [m1, m2] ∧
      m1.Body = "whispers: hi" ∧ m1.Nick = "ann" ∧
      ∀ x, (handleInternal nicklessRoom m2).1.Send x ≠ nicklessRoom.Send x → x = 1) ∧
    whisper nicklessRoom 2 "ann" "hi" = withInternal nicklessRoom
      [privateError 2 "you must set a nickname before sending messages" 0] := by
  constructor
  · obtain ⟨m1, m2, h1, _, _, h4, _, h6, _, _, _, _, h11⟩ :=
      (whisper_reaches_holder_and_sender nicklessRoom 1
        { Nick := "ann", Color := "#aaaaaa", OPLevel := OPLevelUser } "bob" "hi"
        (by decide)).1 (by decide)
    refine ⟨m1, m2, h1, h4, h6, ?_⟩
    exact (h11 nicklessRoom (by unfold NickUnique; decide) (by decide)).2.2
  · exact (whisper_reaches_holder_and_sender nicklessRoom 2
      { Color := "#bbbbbb", OPLevel := OPLevelUser } "ann" "hi" (by decide)).2 rfl

/-! ## Changing the nickname -/

theorem keys_mapSet_present {K V : Type} [DecidableEq K] (m : List (K × V)) (k : K) (v : V)
    (h : (mapGet m k).isSome = true) : (mapSet m k v).map Prod.fst = m.map Prod.fst := by
  have hany : m.any (fun e => decide (e.1 = k)) = true := by
    cases hg : mapGet m k with
    | none => rw [hg] at h; exact absurd h (by simp)
    | some x =>
      rw [List.any_eq_true]
      exact ⟨(k, x), mapGet_mem m k x hg, by simp⟩
  unfold mapSet
  rw [if_pos hany, List.map_map]
  apply List.map_congr_left
  intro e _
  by_cases he : e.1 = k
  · simp [he]
  · simp [he]

theorem setNick_empty (w : World) (c : ClientId) (s : String) (h : TrimSpace s = "") :
    setNick w c s = withInternal w [privateError c "nickname cannot be empty" w.now] := by
  unfold setNick
  simp only [h, if_true]
  exact sendInternal_privateError _ _ _

theorem setNick_free (w : World) (c : ClientId) (s : String)
    (h1 : TrimSpace s ≠ "") (h2 : heldByOther w.room.Clients c (TrimSpace s) = false) :
    setNick w c s =
      withInternal (setClientData w c { clientData w c with Nick := TrimSpace s })
        [if (clientData w c).Nick = "" then joinNotice (TrimSpace s) w.now
          else renameNotice (clientData w c).Nick (TrimSpace s) w.now] := by
  unfold heldByOther at h2
  unfold setNick
  simp only [h1, h2, if_false, Bool.false_eq_true]
  by_cases hn : (clientData w c).Nick = ""
  · simp only [hn, ne_eq, not_true_eq_false, if_false, if_true]
    simp [sendInternal, withInternal, RoomMessage.Fill, joinNotice, messageColors, setClientData]
  · simp only [hn, ne_eq, not_false_eq_true, if_true, if_false]
    simp [sendInternal, withInternal, RoomMessage.Fill, renameNotice, messageColors, setClientData]

/-- C21: for a member `c` with profile `d`: when the requested string trims to the empty
string, `setNick` leaves roster, rules, outbound queues and registry as they are and puts
exactly one message on the internal queue, an error for `c` alone; when it trims to a
non-empty nickname that no other member has, `setNick` stores exactly the trimmed string
as the nickname of `c`, keeps color and level of `c`, the profile of every other member
and the members themselves, and puts exactly one message for everyone on the internal
queue: of join type with body "new joined the room" when the old nickname was empty, and
of notice type with body "old changed their nickname to new" otherwise. -/
theorem setNick_blank_rejected_free_stored (w : World) (c : ClientId) (d : ClientDataExternal)
    (s : String) (hmem : mapGet w.room.Clients c = some d) :
    (TrimSpace s = "" →
      setNick w c s = withInternal w [privateError c "nickname cannot be empty" w.now] ∧
      (setNick w c s).room.Clients = w.room.Clients ∧
      (setNick w c s).room.Rules = w.room.Rules ∧
      (setNick w c s).Send = w.Send ∧ (setNick w c s).Rooms = w.Rooms ∧
      (setNick w c s).room.Internal =
        w.room.Internal ++ [privateError c "nickname cannot be empty" w.now] ∧
      (privateError c "nickname cannot be empty" w.now).Typ = .MessageTypeError ∧
      ∀ x data, (privateError c "nickname cannot be empty" w.now).Target.Should x data = true ↔
        x = c) ∧
    (TrimSpace s ≠ "" → (∀ e ∈ w.room.Clients, e.1 ≠ c → e.2.Nick ≠ TrimSpace s) →
      ∃ m : RoomMessage,
        mapGet (setNick w c s).room.Clients c =
          some { Nick := TrimSpace s, Color := d.Color, OPLevel := d.OPLevel } ∧
        (∀ x, x ≠ c → mapGet (setNick w c s).room.Clients x = mapGet w.room.Clients x) ∧
        (setNick w c s).room.Clients.map Prod.fst = w.room.Clients.map Prod.fst ∧
        (setNick w c s).room.Rules = w.room.Rules ∧
        (setNick w c s).Send = w.Send ∧ (setNick w c s).Rooms = w.Rooms ∧
        (setNick w c s).room.Internal = w.room.Internal ++ [m] ∧
        (∀ x data, m.Target.Should x data = true) ∧
        (d.Nick = "" → m = joinNotice (TrimSpace s) w.now) ∧
        (d.Nick ≠ "" → m = renameNotice d.Nick (TrimSpace s) w.now) ∧
        (joinNotice (TrimSpace s) w.now).Typ = .MessageTypeJoin ∧
        (joinNotice (TrimSpace s) w.now).Body = TrimSpace s ++ " joined the room" ∧
        (renameNotice d.Nick (TrimSpace s) w.now).Typ = .MessageTypeNotice ∧
        (renameNotice d.Nick (TrimSpace s) w.now).Body =
          d.Nick ++ " changed their nickname to " ++ TrimSpace s) := by
  have hd : clientData w c = d := clientData_of_mapGet w c d hmem
  constructor
  · intro h
    have hs := setNick_empty w c s h
    refine ⟨hs, ?_, ?_, ?_, ?_, ?_, rfl, fun x data => privateError_Should _ _ _ _ _⟩ <;>
      rw [hs] <;> rfl
  · intro h1 h2
    have hfree : heldByOther w.room.Clients c (TrimSpace s) = false := by
      rw [← Bool.not_eq_true, heldByOther_iff]
      rintro ⟨e, he, hne, hn⟩
      exact h2 e he hne hn
    have hs := setNick_free w c s h1 hfree
    rw [hd] at hs
    refine ⟨if d.Nick = "" then joinNotice (TrimSpace s) w.now
      else renameNotice d.Nick (TrimSpace s) w.now, ?_, ?_, ?_, ?_, ?_, ?_, ?_, ?_, ?_, ?_,
      rfl, rfl, rfl, rfl⟩
    · rw [hs]
      exact mapGet_mapSet_self _ _ _
    · intro x hx
      rw [hs]
      exact mapGet_mapSet_other _ _ _ _ hx
    · rw [hs]
      exact keys_mapSet_present _ _ _ (by rw [hmem]; rfl)
    · rw [hs]; rfl
    · rw [hs]; rfl
    · rw [hs]; rfl
    · rw [hs]; rfl
    · intro x data
      split <;> rfl
    · intro hn
      rw [if_pos hn]
    · intro hn
      rw [if_neg hn]

theorem setNick_blank_rejected_free_stored_witness :
    setNick nicklessRoom 2 "  " = withInternal nicklessRoom
      [privateError 2 "nickname cannot be empty" 0] ∧
    (∃ m : RoomMessage,
      mapGet (setNick nicklessRoom 2 " bob ").room.Clients 2 =
        some { Nick := "bob", Color := "#bbbbbb", OPLevel := OPLevelUser } ∧
      (setNick nicklessRoom 2 " bob ").room.Internal = [m] ∧
      m.Typ = .MessageTypeJoin ∧ m.Body = "bob joined the room") ∧
    (∃ m : RoomMessage,
      (setNick nicklessRoom 1 "amy").room.Internal = [m] ∧
      m.Typ = .MessageTypeNotice ∧ m.Body = "ann changed their nickname to amy") := by
  refine ⟨?_, ?_, ?_⟩
  · exact ((setNick_blank_rejected_free_stored nicklessRoom 2
      { Color := "#bbbbbb", OPLevel := OPLevelUser } "  " (by decide)).1 (by decide)).1
  · obtain ⟨m, h1, _, _, _, _, _, h7, _, h9, _⟩ :=
      (setNick_blank_rejected_free_stored nicklessRoom 2
        { Color := "#bbbbbb", OPLevel := OPLevelUser } " bob " (by decide)).2
        (by decide) (by decide)
    refine ⟨m, h1, h7, ?_, ?_⟩
    · rw [h9 rfl]; rfl
    · rw [h9 rfl]; decide
  · obtain ⟨m, _, _, _, _, _, _, h7, _, _, h10, _⟩ :=
      (setNick_blank_rejected_free_stored nicklessRoom 1
        { Nick := "ann", Color := "#aaaaaa", OPLevel := OPLevelUser } "amy" (by decide)).2
        (by decide) (by decide)
    refine ⟨m, h7, ?_, ?_⟩
    · rw [h10 (by decide)]; rfl
    · rw [h10 (by decide)]; decide

/-! ## Commands in a room with noCommands -/

theorem SameButInternal_sendInternal (a b : World) (m : RoomMessage) (h : SameButInternal a b) :
    SameButInternal (sendInternal a m) (sendInternal b m) := by
  obtain ⟨h1, h2, h3, h4, h5, h6, h7⟩ := h
  exact ⟨h1, h2, h3, h4, h5, h6, h7⟩

theorem SameButInternal_setClientData (a b : World) (c : ClientId) (d : ClientDataExternal)
    (h : SameButInternal a b) :
    SameButInternal (setClientData a c d) (setClientData b c d) := by
  obtain ⟨h1, h2, h3, h4, h5, h6, h7⟩ := h
  refine ⟨h1, ?_, h3, h4, h5, h6, h7⟩
  simp only [setClientData, h2]

theorem SameButInternal_setNick (a b : World) (c : ClientId) (s : String)
    (h : SameButInternal a b) : SameButInternal (setNick a c s) (setNick b c s) := by
  have hcd : clientData a c = clientData b c := by
    unfold clientData
    rw [h.2.1]
  unfold setNick
  simp only [h.2.1, hcd]
  split
  · exact SameButInternal_sendInternal _ _ _ h
  · split
    · exact SameButInternal_sendInternal _ _ _ h
    · split <;>
        exact SameButInternal_sendInternal _ _ _ (SameButInternal_setClientData _ _ _ _ h)

theorem SameButInternal_getWho (a b : World) (c : ClientId) (h : SameButInternal a b) :
    SameButInternal (getWho a c) (getWho b c) := by
  unfold getWho
  simp only [h.2.1, h.2.2.2.2.2.1]
  exact SameButInternal_sendInternal _ _ _ h

theorem SameButInternal_whisper (a b : World) (c : ClientId) (nick message : String)
    (h : SameButInternal a b) :
    SameButInternal (whisper a c nick message) (whisper b c nick message) := by
  unfold whisper
  simp only [h.2.1]
  split
  · exact h
  · split
    · exact SameButInternal_sendInternal _ _ _ h
    · exact SameButInternal_sendInternal _ _ _ (SameButInternal_sendInternal _ _ _ h)

theorem SameButInternal_op (a b : World) (c : ClientId) (nick levelName : String)
    (h : SameButInternal a b) :
    SameButInternal (op a c nick levelName) (op b c nick levelName) := by
  have hcd : clientData a c = clientData b c := by
    unfold clientData
    rw [h.2.1]
  unfold op
  simp only [h.2.1, hcd]
  split
  · exact SameButInternal_sendInternal _ _ _ h
  · split
    · exact SameButInternal_sendInternal _ _ _ h
    · exact SameButInternal_sendInternal _ _ _ (SameButInternal_sendInternal _ _ _
        (SameButInternal_setClientData _ _ _ _ h))

theorem SameButInternal_password (a b : World) (c : ClientId) (p : Option String)
    (h : SameButInternal a b) :
    SameButInternal (password a c p) (password b c p) := by
  obtain ⟨h1, h2, h3, h4, h5, h6, h7⟩ := h
  unfold password
  cases p with
  | none => exact ⟨h1, h2, by simp only [sendInternal, h3], h4, h5, h6, h7⟩
  | some text => exact ⟨h1, h2, by simp only [sendInternal, h3], h4, h5, h6, h7⟩

theorem SameButInternal_welcome (a b : World) (c : ClientId) (p : Option String)
    (h : SameButInternal a b) :
    AlikeOutcome (welcome a c p) (welcome b c p) := by
  obtain ⟨h1, h2, h3, h4, h5, h6, h7⟩ := h
  unfold welcome
  cases p with
  | none => exact rfl
  | some text =>
    by_cases ht : text = ""
    · simp only [ht, if_true]
      exact ⟨h1, h2, by simp only [sendInternal, h3], h4, h5, h6, h7⟩
    · simp only [ht, if_false]
      exact ⟨h1, h2, by simp only [sendInternal, h3], h4, h5, h6, h7⟩

theorem SameButInternal_dispatch (a b : World) (c : ClientId) (command : Command)
    (h : SameButInternal a b) :
    AlikeOutcome (dispatch a c command) (dispatch b c command) := by
  unfold dispatch
  split
  · split
    · exact SameButInternal_setNick _ _ _ _ h
    · exact rfl
  · split
    · exact SameButInternal_getWho _ _ _ h
    · split
      · split
        · exact SameButInternal_whisper _ _ _ _ _ h
        · exact rfl
      · split
        · split
          · exact SameButInternal_op _ _ _ _ _ h
          · exact rfl
        · split
          · exact SameButInternal_welcome _ _ _ _ h
          · split
            · exact SameButInternal_password _ _ _ _ h
            · exact h

theorem setNick_Internal_grows (w : World) (c : ClientId) (s : String) :
    ∃ rest, (setNick w c s).room.Internal = w.room.Internal ++ rest := by
  unfold setNick
  dsimp only
  split
  · exact ⟨_, sendInternal_Internal _ _⟩
  · split
    · exact ⟨_, sendInternal_Internal _ _⟩
    · split <;> exact ⟨_, sendInternal_Internal _ _⟩

theorem whisper_Internal_grows (w : World) (c : ClientId) (nick message : String) :
    ∃ rest, (whisper w c nick message).room.Internal = w.room.Internal ++ rest := by
  unfold whisper
  split
  · exact ⟨[], by simp⟩
  · split
    · exact ⟨_, sendInternal_Internal _ _⟩
    · rw [sendInternal_Internal, sendInternal_Internal]
      exact ⟨_, List.append_assoc _ _ _⟩

theorem op_Internal_grows (w : World) (c : ClientId) (nick levelName : String) :
    ∃ rest, (op w c nick levelName).room.Internal = w.room.Internal ++ rest := by
  unfold op
  split
  · exact ⟨_, sendInternal_Internal _ _⟩
  · split
    · exact ⟨_, sendInternal_Internal _ _⟩
    · rw [sendInternal_Internal, sendInternal_Internal]
      exact ⟨_, List.append_assoc _ _ _⟩

theorem dispatch_Internal_grows (w w2 : World) (c : ClientId) (command : Command)
    (h : dispatch w c command = .ok w2) :
    ∃ rest, w2.room.Internal = w.room.Internal ++ rest := by
  unfold dispatch at h
  split at h
  · split at h
    · simp only [Except.ok.injEq] at h; subst h
      exact setNick_Internal_grows _ _ _
    · simp at h
  · split at h
    · simp only [Except.ok.injEq] at h; subst h
      exact ⟨_, sendInternal_Internal _ _⟩
    · split at h
      · split at h
        · simp only [Except.ok.injEq] at h; subst h
          exact whisper_Internal_grows _ _ _ _
        · simp at h
      · split at h
        · split at h
          · simp only [Except.ok.injEq] at h; subst h
            exact op_Internal_grows _ _ _ _
          · simp at h
        · split at h
          · unfold welcome at h
            split at h
            · simp at h
            · split at h <;>
              · simp only [Except.ok.injEq] at h; subst h
                exact ⟨_, sendInternal_Internal _ _⟩
          · split at h
            · simp only [Except.ok.injEq] at h; subst h
              unfold password
              split <;> exact ⟨_, sendInternal_Internal _ _⟩
            · simp only [Except.ok.injEq] at h; subst h
              exact ⟨[], by simp⟩

theorem afterDisabledNotice_noCommands (w : World) (c : ClientId)
    (h : w.room.Rules.noCommands = true) :
    afterDisabledNotice w c = withInternal w [disabledError c w.now] := by
  unfold afterDisabledNotice
  rw [if_pos h]
  exact sendInternal_privateError _ _ _

theorem shouldQuit_none (w : World) : shouldQuit w none = false := by
  unfold shouldQuit
  split <;> simp

theorem RunCase_External_open (w : World) (message : ClientMessage)
    (h : w.room.Rules.noMessages = false) :
    RunCase w (.External message) =
      (handleExternal w message).map (fun res => (res.1, shouldQuit res.1 res.2)) := by
  simp only [RunCase, h, Bool.false_eq_true, if_false]
  cases handleExternal w message <;> rfl

/-- C22: in a room with `noCommands` set and `noMessages` unset, for an inbound message of
command type carrying a command: `handleExternal` first puts the private "commands are
disabled on this room" error for the sender on the internal queue; when the level of the
sender suffices it then runs the handler of the command on that state, so that the
outcome (a fault, or roster, rules, registry and outbound queues) is the outcome of the
handler on the state without the error, whose internal queue holds the error before
whatever the handler adds; when the level does not suffice, the internal queue gets the
commands-disabled error and then the insufficient-permission error, and nothing else
changes.  The loop of `Room.Run` passes this result on and goes on. -/
theorem noCommands_error_precedes_permission_check (w : World) (message : ClientMessage)
    (command : Command)
    (hT : message.Typ = .MessageTypeCommand) (hC : message.Command = some command)
    (hnc : w.room.Rules.noCommands = true) (hnm : w.room.Rules.noMessages = false) :
    (command.OPLevel ≤ (clientData w message.Client).OPLevel →
      handleExternal w message =
        (dispatch (withInternal w [disabledError message.Client w.now])
          message.Client command).map (fun w2 => (w2, none)) ∧
      RunCase w (.External message) =
        (dispatch (withInternal w [disabledError message.Client w.now])
          message.Client command).map (fun w2 => (w2, false)) ∧
      AlikeOutcome (dispatch w message.Client command)
        (dispatch (withInternal w [disabledError message.Client w.now]) message.Client command) ∧
      (∀ w2, dispatch (withInternal w [disabledError message.Client w.now])
          message.Client command = .ok w2 →
        ∃ rest, w2.room.Internal =
          w.room.Internal ++ disabledError message.Client w.now :: rest)) ∧
    (command.OPLevel > (clientData w message.Client).OPLevel →
      handleExternal w message =
        .ok (withInternal w [disabledError message.Client w.now,
          permissionError message.Client (clientData w message.Client).OPLevel command.OPLevel
            command.Name w.now], none) ∧
      RunCase w (.External message) =
        .ok (withInternal w [disabledError message.Client w.now,
          permissionError message.Client (clientData w message.Client).OPLevel command.OPLevel
            command.Name w.now], false)) ∧
    (disabledError message.Client w.now).Typ = .MessageTypeError ∧
    (disabledError message.Client w.now).Body = "commands are disabled on this room" ∧
    (∀ x data, (disabledError message.Client w.now).Target.Should x data = true ↔
      x = message.Client) ∧
    (permissionError message.Client (clientData w message.Client).OPLevel command.OPLevel
      command.Name w.now).Body =
      "insufficient permission (" ++ OPLevel.String (clientData w message.Client).OPLevel ++
        ") to use " ++ command.Name ++ " (" ++ OPLevel.String command.OPLevel ++ ")" := by
  have hcmd := handleExternal_command w message command hT hC
  rw [afterDisabledNotice_noCommands w message.Client hnc] at hcmd
  have hrun := RunCase_External_open w message hnm
  refine ⟨?_, ?_, rfl, rfl, fun x data => privateError_Should _ _ _ _ _, rfl⟩
  · intro hle
    have hex : handleExternal w message =
        (dispatch (withInternal w [disabledError message.Client w.now])
          message.Client command).map (fun w2 => (w2, none)) := by
      rw [hcmd, if_neg (Nat.not_lt.mpr hle)]
      cases dispatch (withInternal w [disabledError message.Client w.now])
          message.Client command <;> rfl
    refine ⟨hex, ?_, ?_, ?_⟩
    · rw [hrun, hex]
      cases dispatch (withInternal w [disabledError message.Client w.now])
          message.Client command with
      | error f => rfl
      | ok w2 =>
        simp only [Except.map]
        rw [shouldQuit_none]
    · exact SameButInternal_dispatch _ _ _ _ ⟨rfl, rfl, rfl, rfl, rfl, rfl, rfl⟩
    · intro w2 h2
      obtain ⟨rest, hr⟩ := dispatch_Internal_grows _ w2 _ _ h2
      refine ⟨rest, ?_⟩
      rw [hr]
      simp [withInternal]
  · intro hgt
    have hex : handleExternal w message =
        .ok (withInternal w [disabledError message.Client w.now,
          permissionError message.Client (clientData w message.Client).OPLevel command.OPLevel
            command.Name w.now], none) := by
      rw [hcmd, if_pos hgt, sendInternal_privateError]
      simp [withInternal, permissionError]
    refine ⟨hex, ?_⟩
    rw [hrun, hex]
    simp only [Except.map]
    rw [shouldQuit_none]

theorem noCommands_error_precedes_permission_check_witness :
    (∃ w2, handleExternal mutedRoom (commandMessage 1 (passwordCommand ["pw"])) = .ok (w2, none) ∧
      w2.room.Rules.hasPassword = true ∧ w2.room.Rules.password = "pw" ∧
      w2.room.Internal = [disabledError 1 0, privateNotice 1 "password set to: pw" 0]) ∧
    handleExternal mutedRoom (commandMessage 2 (passwordCommand ["pw"])) =
      .ok (withInternal mutedRoom [disabledError 2 0,
        permissionError 2 OPLevelUser OPLevelAdmin "password" 0], none) ∧
    (permissionError 2 OPLevelUser OPLevelAdmin "password" 0).Body =
      "insufficient permission (user) to use password (admin)" := by
  have h1 := (noCommands_error_precedes_permission_check mutedRoom
    (commandMessage 1 (passwordCommand ["pw"])) (passwordCommand ["pw"]) rfl rfl rfl rfl).1
    (by decide)
  have h2 := (noCommands_error_precedes_permission_check mutedRoom
    (commandMessage 2 (passwordCommand ["pw"])) (passwordCommand ["pw"]) rfl rfl rfl rfl).2.1
    (by decide)
  refine ⟨⟨_, h1.1, rfl, rfl, ?_⟩, h2.1, by decide⟩
  simp [dispatch, passwordCommand, password, sendInternal, withInternal, mutedRoom, commandMessage,
    disabledError, privateError, privateNotice, RoomMessage.Fill, messageColors]

/-! ## Who may change rules and levels -/

theorem SameAuthority_refl (w : World) : SameAuthority w w := ⟨rfl, fun _ => rfl⟩

theorem SameAuthority_trans (a b c : World) (h1 : SameAuthority a b) (h2 : SameAuthority b c) :
    SameAuthority a c :=
  ⟨h2.1.trans h1.1, fun x => (h2.2 x).trans (h1.2 x)⟩

theorem SameAuthority_sendInternal (w : World) (m : RoomMessage) :
    SameAuthority w (sendInternal w m) := ⟨rfl, fun _ => rfl⟩

theorem SameAuthority_afterDisabledNotice (w : World) (c : ClientId) :
    SameAuthority w (afterDisabledNotice w c) := by
  unfold afterDisabledNotice
  split
  · exact SameAuthority_sendInternal _ _
  · exact SameAuthority_refl _

theorem SameAuthority_of_eq (w w' : World) (h1 : w'.room.Rules = w.room.Rules)
    (h2 : w'.room.Clients = w.room.Clients) : SameAuthority w w' :=
  ⟨h1, fun x => by rw [h2]⟩

theorem SameAuthority_getWho (w : World) (c : ClientId) : SameAuthority w (getWho w c) :=
  SameAuthority_sendInternal _ _

theorem SameAuthority_whisper (w : World) (c : ClientId) (nick message : String) :
    SameAuthority w (whisper w c nick message) := by
  unfold whisper
  split
  · exact SameAuthority_refl _
  · split
    · exact SameAuthority_sendInternal _ _
    · exact SameAuthority_trans _ _ _ (SameAuthority_sendInternal _ _)
        (SameAuthority_sendInternal _ _)

theorem SameAuthority_setNick (w : World) (c : ClientId) (d : ClientDataExternal) (s : String)
    (hmem : mapGet w.room.Clients c = some d) : SameAuthority w (setNick w c s) := by
  by_cases h : TrimSpace s = "" ∨ heldByOther w.room.Clients c (TrimSpace s) = true
  · obtain ⟨h1, _, h3, _⟩ := setNick_rejected w c s h
    exact SameAuthority_of_eq _ _ h3 h1
  · have h' : TrimSpace s ≠ "" ∧ heldByOther w.room.Clients c (TrimSpace s) = false := by
      constructor
      · exact fun h0 => h (Or.inl h0)
      · cases hb : heldByOther w.room.Clients c (TrimSpace s) with
        | false => rfl
        | true => exact absurd (Or.inr hb) h
    obtain ⟨h1, _, h3, _⟩ := setNick_accepted w c s h'.1 h'.2
    refine ⟨h3, fun x => ?_⟩
    rw [h1]
    by_cases hx : x = c
    · subst hx
      rw [mapGet_mapSet_self, hmem, clientData_of_mapGet w x d hmem]
      rfl
    · rw [mapGet_mapSet_other _ _ _ _ hx]

theorem ParseCommand_success (line : String) (command : Command)
    (h : ParseCommand line = .ok (some command, none)) :
    ∃ (name : String) (args : List String) (spec : CommandSpec),
      mapGet Commands name = some spec ∧ spec.ArgsMin ≤ args.length ∧
      args.length ≤ spec.ArgsMax ∧ command = fullCommand name args spec := by
  unfold ParseCommand at h
  dsimp only at h
  split at h
  · simp at h
  · split at h
    · simp at h
    · split at h
      · simp at h
      · split at h
        · simp at h
        · rename_i spec hspec
          split at h
          · simp at h
          · split at h
            · simp at h
            · rename_i hmin hmax
              simp only [Except.ok.injEq, Prod.mk.injEq, Option.some.injEq, and_true] at h
              exact ⟨_, _, spec, hspec, Nat.not_lt.mp hmin, Nat.not_lt.mp hmax, h.symm⟩

theorem Commands_admin (name : String) (spec : CommandSpec)
    (h : mapGet Commands name = some spec) :
    spec.Name = name ∧
    (name ∈ adminNames → spec.OPLevel = OPLevelAdmin) ∧
    (name = "nick" → spec.OPLevel = OPLevelUser ∧ 1 ≤ spec.ArgsMin) ∧
    (name = "w" → 2 ≤ spec.ArgsMin) := by
  have hm := mapGet_mem Commands name spec h
  simp only [Commands, List.mem_cons, Prod.mk.injEq, List.not_mem_nil, or_false] at hm
  rcases hm with ⟨h1, h2⟩ | ⟨h1, h2⟩ | ⟨h1, h2⟩ | ⟨h1, h2⟩ | ⟨h1, h2⟩ | ⟨h1, h2⟩ | ⟨h1, h2⟩ |
    ⟨h1, h2⟩ | ⟨h1, h2⟩ | ⟨h1, h2⟩ | ⟨h1, h2⟩ <;> subst h1 <;> subst h2 <;> decide

theorem member_of_level (w : World) (c : ClientId) (h : 0 < (clientData w c).OPLevel) :
    mapGet w.room.Clients c = some (clientData w c) := by
  unfold clientData at h ⊢
  cases hg : mapGet w.room.Clients c with
  | none => rw [hg] at h; exact absurd h (by decide)
  | some d => rfl

theorem dispatch_below_admin (w : World) (c : ClientId) (name : String) (args : List String)
    (spec : CommandSpec) (hspec : mapGet Commands name = some spec)
    (hmin : spec.ArgsMin ≤ args.length)
    (hnot : name ∉ adminNames)
    (hnick : name = "nick" → 0 < (clientData w c).OPLevel) :
    ∃ w', dispatch w c (fullCommand name args spec) = .ok w' ∧ SameAuthority w w' := by
  obtain ⟨_, _, h3, h4⟩ := Commands_admin name spec hspec
  simp only [adminNames, List.mem_cons, List.not_mem_nil, or_false, not_or] at hnot
  unfold dispatch
  simp only [fullCommand]
  by_cases h1 : name = "nick"
  · rw [if_pos h1]
    have hlen : 1 ≤ args.length := le_trans (h3 h1).2 hmin
    match args, hlen with
    | a0 :: _, _ =>
      exact ⟨_, rfl, SameAuthority_setNick w c _ a0 (member_of_level w c (hnick h1))⟩
  · rw [if_neg h1]
    by_cases h2 : name = "who"
    · rw [if_pos h2]
      exact ⟨_, rfl, SameAuthority_getWho w c⟩
    · rw [if_neg h2]
      by_cases h5 : name = "w"
      · rw [if_pos h5]
        have hlen : 2 ≤ args.length := le_trans (h4 h5) hmin
        match args, hlen with
        | a0 :: a1 :: _, _ => exact ⟨_, rfl, SameAuthority_whisper w c a0 a1⟩
      · rw [if_neg h5, if_neg hnot.1, if_neg hnot.2.1, if_neg hnot.2.2]
        exact ⟨_, rfl, SameAuthority_refl w⟩

theorem handleExternal_below_admin (w : World) (c : ClientId) (name : String)
    (args : List String) (spec : CommandSpec) (hspec : mapGet Commands name = some spec)
    (hmin : spec.ArgsMin ≤ args.length)
    (hlevel : (clientData w c).OPLevel < OPLevelAdmin) :
    ∃ w', handleExternal w (commandMessage c (fullCommand name args spec)) = .ok (w', none) ∧
      SameAuthority w w' := by
  obtain ⟨_, h2, h3, _⟩ := Commands_admin name spec hspec
  rw [handleExternal_command w (commandMessage c (fullCommand name args spec))
    (fullCommand name args spec) rfl rfl]
  by_cases hgt : (fullCommand name args spec).OPLevel >
      (clientData w (commandMessage c (fullCommand name args spec)).Client).OPLevel
  · rw [if_pos hgt]
    exact ⟨_, rfl, SameAuthority_trans _ _ _ (SameAuthority_afterDisabledNotice w _)
      (SameAuthority_sendInternal _ _)⟩
  · rw [if_neg hgt]
    have hle : spec.OPLevel ≤ (clientData w c).OPLevel := Nat.not_lt.mp hgt
    have hnot : name ∉ adminNames := by
      intro hin
      rw [h2 hin] at hle
      exact absurd (lt_of_lt_of_le hlevel hle) (lt_irrefl _)
    have hcd : clientData (afterDisabledNotice w c) c = clientData w c := by
      unfold clientData
      rw [afterDisabledNotice_Clients]
    obtain ⟨w', hd, hs⟩ := dispatch_below_admin (afterDisabledNotice w c) c name args spec hspec
      hmin hnot (by
        intro hn
        rw [hcd]
        have := (h3 hn).1
        rw [this] at hle
        exact hle)
    refine ⟨w', ?_, SameAuthority_trans _ _ _ (SameAuthority_afterDisabledNotice w c) hs⟩
    simp only [commandMessage, hd]

/-- C24 (as the code has it): for every room state, every sender (in the roster or not)
whose stored level is below admin, and every input line: when `ParseCommand` parses the
line to a command without error, `handleExternal` on that command returns without a fault and leaves every
field of the rules, the permission level of every roster member and the set of handles in
the roster as they were, so that a sender that was absent is still absent, and so does
the iteration of `Room.Run` that receives it; and when `ParseCommand` returns a command
together with an error, the session answers with that error and passes nothing on to any
room. -/
theorem below_admin_changes_no_rule_nor_level (w : World) (c : ClientId) (line : String)
    (hlevel : (clientData w c).OPLevel < OPLevelAdmin) :
    (∀ command, ParseCommand line = .ok (some command, none) →
      (∃ w', handleExternal w (commandMessage c command) = .ok (w', none) ∧
        w'.room.Rules = w.room.Rules ∧
        (∀ x, (mapGet w'.room.Clients x).map (fun d => d.OPLevel) =
          (mapGet w.room.Clients x).map (fun d => d.OPLevel)) ∧
        (∀ x, mapGet w.room.Clients x = none → mapGet w'.room.Clients x = none) ∧
        (mapGet w.room.Clients c = none → mapGet w'.room.Clients c = none)) ∧
      (∃ w', RunCase w (.External (commandMessage c command)) = .ok (w', false) ∧
        w'.room.Rules = w.room.Rules ∧
        (∀ x, (mapGet w'.room.Clients x).map (fun d => d.OPLevel) =
          (mapGet w.room.Clients x).map (fun d => d.OPLevel)) ∧
        (mapGet w.room.Clients c = none → mapGet w'.room.Clients c = none))) ∧
    (∀ (command : Command) (err : String) (s : Client) (n : Net)
        (visited : List (String × CommandSpec)) (rest : List ClientMessage),
      ParseCommand line = .ok (some command, some err) →
      s.Recv = inboundLine s line :: rest →
      s.handleCase n visited = .ok (Client.putError { s with Recv := rest } err n.now, n)) := by
  constructor
  · intro command hparse
    obtain ⟨name, args, spec, hspec, hmin, _, hc⟩ := ParseCommand_success line command hparse
    subst hc
    obtain ⟨w', he, hs⟩ := handleExternal_below_admin w c name args spec hspec hmin hlevel
    have habs : ∀ (v : World), SameAuthority w v →
        ∀ x, mapGet w.room.Clients x = none → mapGet v.room.Clients x = none := by
      intro v hv x hx
      have := hv.2 x
      rw [hx] at this
      simpa using this
    constructor
    · exact ⟨w', he, hs.1, hs.2, habs w' hs, habs w' hs c⟩
    · by_cases hnm : w.room.Rules.noMessages = true
      · refine ⟨sendInternal w
          { Typ := .MessageTypeError
            Body := "messages are disabled on this room"
            Target := { Typ := .TargetTypeOne, Client := some c } }, ?_, rfl, fun _ => rfl,
          fun h => h⟩
        simp only [RunCase, hnm, if_true]
        rfl
      · refine ⟨w', ?_, hs.1, hs.2, habs w' hs c⟩
        simp only [RunCase, hnm, Bool.false_eq_true, if_false, he]
        simp [shouldQuit]
  · intro command err s n visited rest hparse hr
    have hb : (inboundLine s line).Body = line := rfl
    rw [handleCase_of_parse s n visited _ rest hr, hb, hparse]

theorem below_admin_changes_no_rule_nor_level_witness :
    (∃ w', handleExternal crowdedRoom
        (commandMessage 2 (passwordCommand ["pw"])) = .ok (w', none) ∧
      w'.room.Rules = crowdedRoom.room.Rules) ∧
    (∃ w', handleExternal crowdedRoom
        (commandMessage 9 (fullCommand "op" ["ann", "admin"]
          { Name := "op"
            Desc := "change permission levels"
            Help := "/op <user> <level>"
            ArgsMin := 2
            ArgsMax := 2
            Target := .CommandTargetRoom
            OPLevel := OPLevelAdmin })) = .ok (w', none) ∧
      mapGet w'.room.Clients 9 = none) ∧
    Client.handleCase { guest with Recv := [inboundLine guest "/op ann admin now"] } lobbyNet
        Commands =
      .ok (Client.putError guest
        "too many arguments for: op\nUsage:\n  /op <user> <level>" 0, lobbyNet) := by
  refine ⟨?_, ?_, ?_⟩
  · obtain ⟨w', h1, h2, _⟩ := ((below_admin_changes_no_rule_nor_level crowdedRoom 2
      "/password pw" (by decide)).1 (passwordCommand ["pw"]) (by rfl)).1
    exact ⟨w', h1, h2⟩
  · obtain ⟨w', h1, _, _, _, h5⟩ := ((below_admin_changes_no_rule_nor_level crowdedRoom 9
      "/op ann admin" (by decide)).1 _ (by rfl)).1
    exact ⟨w', h1, h5 (by decide)⟩
  · exact (below_admin_changes_no_rule_nor_level crowdedRoom 2 "/op ann admin now"
      (by decide)).2 (partialCommand "op" ["ann", "admin", "now"])
      "too many arguments for: op\nUsage:\n  /op <user> <level>"
      { guest with Recv := [inboundLine guest "/op ann admin now"] } lobbyNet Commands []
      (by rfl) rfl

/-- C24 as stated fails: the command that `ParseCommand` returns together with an error
carries the level none, whatever its name, and passes the level check of `handleExternal`
for every sender.  In a room without password, of which bob (session 2) is a member of
level user and session 9 is no member: the command of `/password a b` from bob sets the
password "a"; the command of `/op ann admin now` from bob raises the level of bob to
admin; the command of `/nick zed now` from session 9 adds session 9 to the roster. -/
theorem errored_command_passes_level_check :
    (ParseCommand "/password a b" =
        .ok (some (partialCommand "password" ["a", "b"]),
          some "too many arguments for: password\nUsage:\n  /password [password]") ∧
      (clientData crowdedRoom 2).OPLevel = OPLevelUser ∧
      ∃ w', handleExternal crowdedRoom
          (commandMessage 2 (partialCommand "password" ["a", "b"])) = .ok (w', none) ∧
        crowdedRoom.room.Rules.hasPassword = false ∧
        w'.room.Rules.hasPassword = true ∧ w'.room.Rules.password = "a") ∧
    (ParseCommand "/op ann admin now" =
        .ok (some (partialCommand "op" ["ann", "admin", "now"]),
          some "too many arguments for: op\nUsage:\n  /op <user> <level>") ∧
      ∃ w', handleExternal crowdedRoom
          (commandMessage 2 (partialCommand "op" ["ann", "admin", "now"])) = .ok (w', none) ∧
        (mapGet crowdedRoom.room.Clients 2).map (fun d => d.OPLevel) = some OPLevelUser ∧
        (mapGet w'.room.Clients 2).map (fun d => d.OPLevel) = some OPLevelAdmin) ∧
    (ParseCommand "/nick zed now" =
        .ok (some (partialCommand "nick" ["zed", "now"]),
          some "too many arguments for: nick\nUsage:\n  /nick [nick]") ∧
      (clientData crowdedRoom 9).OPLevel = OPLevelNone ∧
      ∃ w', handleExternal crowdedRoom
          (commandMessage 9 (partialCommand "nick" ["zed", "now"])) = .ok (w', none) ∧
        mapGet crowdedRoom.room.Clients 9 = none ∧
        mapGet w'.room.Clients 9 = some { Nick := "zed" }) := by
  refine ⟨⟨by rfl, by rfl, _, rfl, rfl, rfl, rfl⟩, ⟨by rfl, _, rfl, rfl, rfl⟩,
    ⟨by rfl, by rfl, _, rfl, rfl, rfl⟩⟩

/-! ## The rooms and the sessions together -/

theorem mapGet_mapDelete_other {K V : Type} [DecidableEq K] (m : List (K × V)) (k x : K)
    (h : x ≠ k) : mapGet (mapDelete m k) x = mapGet m x := by
  induction m with
  | nil => rfl
  | cons e rest ih =>
    unfold mapDelete at ih ⊢
    by_cases he : e.1 = k
    · have hx : ¬ e.1 = x := fun h2 => h (h2.symm.trans he)
      rw [List.filter_cons_of_neg (by simp [he]), ih]
      simp only [mapGet, if_neg hx]
    · rw [List.filter_cons_of_pos (by simp [he])]
      simp only [mapGet]
      rw [ih]

theorem Unregister_member_outcome (w : World) (req : UnregisterRequest)
    (d : ClientDataExternal) (h : mapGet w.room.Clients req.Client = some d) :
    ∃ w', RunCase w (.Unregister req) =
        .ok (w', !w.room.Rules.keepOpen && (mapDelete w.room.Clients req.Client).length == 0) ∧
      w'.room.Clients = mapDelete w.room.Clients req.Client ∧
      w'.room.Name = w.room.Name ∧ w'.room.Rules = w.room.Rules ∧
      w'.Rooms = (if (!w.room.Rules.keepOpen &&
          (mapDelete w.room.Clients req.Client).length == 0) = true
        then mapDelete w.Rooms w.room.Name else w.Rooms) ∧
      w'.now = w.now := by
  rw [RunCase_Unregister_member w req d h, unregisterNotice_eq]
  cases hk : w.room.Rules.keepOpen <;>
    cases hl : ((mapDelete w.room.Clients req.Client).length == 0) <;>
    simp [remove, shouldQuit, withInternal, hk, hl]

theorem Register_outcome (w : World) (req : RegisterRequest) (color : String) :
    ∃ w', RunCase w (.Register req color) = .ok (w', false) ∧
      (mapGet w'.room.Clients req.Client).isSome = true ∧
      (∀ x, x ≠ req.Client →
        (mapGet w'.room.Clients x).isSome = (mapGet w.room.Clients x).isSome) ∧
      w'.Rooms = w.Rooms ∧ w'.room.Name = w.room.Name ∧ w'.room.Rules = w.room.Rules ∧
      w'.now = w.now := by
  obtain ⟨h1, h2, _, h4, h5⟩ := registerNick_facts w req color
  have hroom : (registerWelcome (registerNick
      (setClientData w req.Client (NewClientDataExternal req.Creator color)) req) req).room =
      (registerNick (setClientData w req.Client (NewClientDataExternal req.Creator color))
        req).room := by
    unfold registerWelcome
    split <;> rfl
  have hkeep : Keeps w (registerWelcome (registerNick
      (setClientData w req.Client (NewClientDataExternal req.Creator color)) req) req) := by
    have ha := Keeps_setClientData w req.Client (NewClientDataExternal req.Creator color)
    have hb : Keeps (setClientData w req.Client (NewClientDataExternal req.Creator color))
        (registerNick (setClientData w req.Client (NewClientDataExternal req.Creator color))
          req) := by
      unfold registerNick
      split
      · exact Keeps_setNick _ _ _
      · exact Keeps_refl _
    have hc : Keeps (registerNick (setClientData w req.Client
        (NewClientDataExternal req.Creator color)) req)
        (registerWelcome (registerNick
          (setClientData w req.Client (NewClientDataExternal req.Creator color)) req) req) := by
      unfold registerWelcome
      split
      · exact Keeps_sendClient _ _ _
      · exact Keeps_refl _
    exact Keeps_trans _ _ _ (Keeps_trans _ _ _ ha hb) hc
  have hnow : (registerWelcome (registerNick
      (setClientData w req.Client (NewClientDataExternal req.Creator color)) req) req).now =
      w.now := by
    unfold registerWelcome
    split
    · exact h5
    · exact h5
  refine ⟨_, RunCase_Register w req color, ?_, ?_, hkeep.1, hkeep.2.2, ?_, hnow⟩
  · rw [hroom, h1]
    rfl
  · intro x hx
    rw [hroom]
    cases hg : mapGet w.room.Clients x with
    | none =>
      cases hg2 : mapGet (registerNick (setClientData w req.Client
          (NewClientDataExternal req.Creator color)) req).room.Clients x with
      | none => rfl
      | some p => rw [(h2 x p hx).mp hg2] at hg; exact absurd hg (by simp)
    | some p => rw [(h2 x p hx).mpr hg]
  · rw [hroom, h4]

theorem store_procs_self (s : Server) (id : Nat) (p : RoomProc) (w : World) (quit : Bool) :
    (s.store id p w quit).net.procs id = { p with room := w.room, running := !quit } := by
  simp [Server.store]

theorem store_procs_other (s : Server) (id j : Nat) (p : RoomProc) (w : World) (quit : Bool)
    (h : j ≠ id) : (s.store id p w quit).net.procs j = s.net.procs j := by
  simp [Server.store, h]

theorem recvUnregister_member (s : Server) (id : Nat) (req : UnregisterRequest)
    (rest : List UnregisterRequest) (d : ClientDataExternal)
    (hrun : (s.net.procs id).running = true)
    (hq : (s.net.procs id).Unregister = req :: rest)
    (hmem : mapGet (s.net.procs id).room.Clients req.Client = some d) :
    ∃ s1, s.recvUnregister id = .ok s1 ∧
      (s1.net.procs id).room.Clients = mapDelete (s.net.procs id).room.Clients req.Client ∧
      (s1.net.procs id).room.Name = (s.net.procs id).room.Name ∧
      (s1.net.procs id).room.Rules = (s.net.procs id).room.Rules ∧
      (s1.net.procs id).running = !(!(s.net.procs id).room.Rules.keepOpen &&
        (mapDelete (s.net.procs id).room.Clients req.Client).length == 0) ∧
      (s1.net.procs id).Register = (s.net.procs id).Register ∧
      (s1.net.procs id).Unregister = rest ∧
      (∀ j, j ≠ id → s1.net.procs j = s.net.procs j) ∧
      s1.net.Rooms = (if (!(s.net.procs id).room.Rules.keepOpen &&
          (mapDelete (s.net.procs id).room.Clients req.Client).length == 0) = true
        then mapDelete s.net.Rooms (s.net.procs id).room.Name else s.net.Rooms) := by
  obtain ⟨w', h1, h2, h3, h4, h5, _⟩ := Unregister_member_outcome (s.world id) req d hmem
  refine ⟨s.store id { s.net.procs id with Unregister := rest } w'
    (!(s.net.procs id).room.Rules.keepOpen &&
      (mapDelete (s.net.procs id).room.Clients req.Client).length == 0), ?_, ?_, ?_, ?_, ?_, ?_,
    ?_, ?_, ?_⟩
  · unfold Server.recvUnregister
    simp only [hrun, if_true, hq, h1]
    rfl
  · rw [store_procs_self]; exact h2
  · rw [store_procs_self]; exact h3
  · rw [store_procs_self]; exact h4
  · rw [store_procs_self]
  · rw [store_procs_self]
  · rw [store_procs_self]
  · intro j hj
    exact store_procs_other _ _ _ _ _ _ hj
  · exact h5

theorem recvRegister_running (s : Server) (id : Nat) (req : RegisterRequest)
    (rest : List RegisterRequest) (color : String)
    (hrun : (s.net.procs id).running = true)
    (hq : (s.net.procs id).Register = req :: rest) :
    ∃ s2, s.recvRegister id color = .ok s2 ∧
      s2.net.member id req.Client = true ∧
      (∀ x, x ≠ req.Client → s2.net.member id x = s.net.member id x) ∧
      (s2.net.procs id).room.Name = (s.net.procs id).room.Name ∧
      (s2.net.procs id).room.Rules = (s.net.procs id).room.Rules ∧
      (s2.net.procs id).running = true ∧
      (s2.net.procs id).Register = rest ∧
      (s2.net.procs id).Unregister = (s.net.procs id).Unregister ∧
      (∀ j, j ≠ id → s2.net.procs j = s.net.procs j) ∧
      s2.net.Rooms = s.net.Rooms := by
  obtain ⟨w', h1, h2, h3, h4, h5, h6, _⟩ := Register_outcome (s.world id) req color
  refine ⟨s.store id { s.net.procs id with Register := rest } w' false, ?_, ?_, ?_, ?_, ?_, ?_,
    ?_, ?_, ?_, ?_⟩
  · unfold Server.recvRegister
    simp only [hrun, if_true, hq, h1]
  · unfold Net.member
    rw [store_procs_self]; exact h2
  · intro x hx
    unfold Net.member
    rw [store_procs_self]; exact h3 x hx
  · rw [store_procs_self]; exact h5
  · rw [store_procs_self]; exact h6
  · rw [store_procs_self]; rfl
  · rw [store_procs_self]
  · rw [store_procs_self]
  · intro j hj
    exact store_procs_other _ _ _ _ _ _ hj
  · exact h4

theorem recvRegister_stopped (s : Server) (id : Nat) (color : String)
    (h : (s.net.procs id).running = false) : s.recvRegister id color = .ok s := by
  unfold Server.recvRegister
  simp [h]

theorem join_of_passes (c : Client) (n : Net) (roomName : String) (password : Option String)
    (id : Nat) (h : joinPasses n roomName password id) :
    c.join n roomName password = c.enter n roomName id := by
  obtain ⟨h1, h2⟩ := h
  unfold Client.join
  simp only [h1]
  cases hp : (n.procs id).room.Rules.hasPassword with
  | false => simp
  | true =>
    rw [h2 hp]
    simp

theorem enter_some (c : Client) (n : Net) (roomName : String) (id old : Nat)
    (h : c.Room = some old) :
    c.enter n roomName id =
      ({ c with Send := [{ Typ := .MessageTypeReset }], Recv := [], Room := some id },
        (n.sendUnregister old { Client := c.id, Reason := "joining room " ++ roomName }).sendRegister
          id { Client := c.id, WantsNick := c.Data.Nick }) := by
  unfold Client.enter
  simp only [leave_some c n _ old h]

theorem enter_none (c : Client) (n : Net) (roomName : String) (id : Nat)
    (h : c.Room = none) :
    c.enter n roomName id =
      ({ c with Room := some id },
        n.sendRegister id { Client := c.id, WantsNick := c.Data.Nick }) := by
  unfold Client.enter
  simp only [leave_none c n _ h]

theorem sendRegister_room (n : Net) (id : Nat) (req : RegisterRequest) (i : Nat) :
    ((n.sendRegister id req).procs i).room = (n.procs i).room := by
  rw [sendRegister_procs]
  by_cases hi : i = id
  · simp [hi]
  · simp [hi]

theorem sendRegister_running (n : Net) (id : Nat) (req : RegisterRequest) (i : Nat) :
    ((n.sendRegister id req).procs i).running = (n.procs i).running := by
  rw [sendRegister_procs]
  by_cases hi : i = id
  · simp [hi]
  · simp [hi]

theorem sendUnregister_running (n : Net) (id : Nat) (req : UnregisterRequest) (i : Nat) :
    ((n.sendUnregister id req).procs i).running = (n.procs i).running := by
  rw [sendUnregister_procs]
  by_cases hi : i = id
  · simp [hi]
  · simp [hi]

theorem sendUnregister_Unregister_self (n : Net) (id : Nat) (req : UnregisterRequest) :
    ((n.sendUnregister id req).procs id).Unregister = (n.procs id).Unregister ++ [req] := by
  rw [sendUnregister_procs]
  simp

theorem quit_iff {α : Type} (k : Bool) (l : List α) :
    (!k && l.length == 0) = true ↔ k = false ∧ l = [] := by
  cases k <;> cases l <;> simp

theorem join_switch (s : Server) (c : Client) (r : String) (password : Option String)
    (id old : Nat) (hpass : joinPasses s.net r password id) (hroom : c.Room = some old) :
    s.join c r password =
      ({ c with Send := [{ Typ := .MessageTypeReset }], Recv := [], Room := some id },
        { s with
          net := (s.net.sendUnregister old
            { Client := c.id, Reason := "joining room " ++ r }).sendRegister id
              { Client := c.id, WantsNick := c.Data.Nick }
          Send := fun i => if i = c.id then [{ Typ := .MessageTypeReset }] else s.Send i }) := by
  unfold Server.join
  simp only [join_of_passes c s.net r password id hpass, enter_some c s.net r id old hroom]

theorem join_first (s : Server) (c : Client) (r : String) (password : Option String)
    (id : Nat) (hpass : joinPasses s.net r password id) (hroom : c.Room = none) :
    s.join c r password =
      ({ c with Room := some id },
        { s with
          net := s.net.sendRegister id { Client := c.id, WantsNick := c.Data.Nick }
          Send := fun i => if i = c.id then c.Send else s.Send i }) := by
  unfold Server.join
  simp only [join_of_passes c s.net r password id hpass, enter_none c s.net r id hroom]

theorem switch_net (n : Net) (old id : Nat) (ureq : UnregisterRequest) (rreq : RegisterRequest) :
    (∀ j, (((n.sendUnregister old ureq).sendRegister id rreq).procs j).room = (n.procs j).room) ∧
    (∀ j, (((n.sendUnregister old ureq).sendRegister id rreq).procs j).running =
      (n.procs j).running) ∧
    (((n.sendUnregister old ureq).sendRegister id rreq).procs old).Unregister =
      (n.procs old).Unregister ++ [ureq] ∧
    (((n.sendUnregister old ureq).sendRegister id rreq).procs id).Register =
      (n.procs id).Register ++ [rreq] ∧
    ((n.sendUnregister old ureq).sendRegister id rreq).Rooms = n.Rooms := by
  refine ⟨?_, ?_, ?_, ?_, rfl⟩
  · intro j
    rw [sendRegister_room, sendUnregister_room]
  · intro j
    rw [sendRegister_running, sendUnregister_running]
  · rw [sendRegister_Unregister, sendUnregister_Unregister_self]
  · rw [sendRegister_Register_self, sendUnregister_Register]

theorem member_of_room (n n' : Net) (j j' : Nat) (c : ClientId)
    (h : (n'.procs j').room = (n.procs j).room) : n'.member j' c = n.member j c := by
  unfold Net.member
  rw [h]

/-- C23 (as the code has it): let `join(r, password)` pass its checks for the room object
`id`, registered under its own name `r`, with a running loop and no older request waiting.
For a session whose current room `old` is running, registered under its name, has the
session in its roster and no older request waiting, and which is in no other roster: once
the loop of `old` has received the Unregister request and the loop of `id` then the
Register request, the current room of the session is `id`; unless `old` is `id` itself
with `keepOpen` unset and the session as its only member, the name `r` is still
registered to `id`, the loop of `id` runs, and the session is in the roster of `id` and of
no other room; but in that one case the Unregister request empties the roster, deletes `r`
from the registry and ends the loop, so that the Register request stays on its channel
for ever and the session is in no roster, its current room being a room that is not
registered.  A session without a current room is, after the Register request, in the
roster of `id` alone. -/
theorem join_switches_room_unless_own_solo_room (s : Server) (c : Client) (r : String)
    (password : Option String) (id : Nat) (color : String)
    (hpass : joinPasses s.net r password id)
    (hname : (s.net.procs id).room.Name = r)
    (hrun : (s.net.procs id).running = true)
    (hq : (s.net.procs id).Register = []) :
    (∀ old, c.Room = some old →
      mapGet s.net.Rooms (s.net.procs old).room.Name = some old →
      (s.net.procs old).running = true → (s.net.procs old).Unregister = [] →
      s.net.member old c.id = true → (∀ j, j ≠ old → s.net.member j c.id = false) →
      ∃ s1 s2 : Server,
        (s.join c r password).2.recvUnregister old = .ok s1 ∧
        s1.recvRegister id color = .ok s2 ∧
        (s.join c r password).1.Room = some id ∧
        ((old = id ∧ (s.net.procs id).room.Rules.keepOpen = false ∧
            mapDelete (s.net.procs id).room.Clients c.id = []) →
          mapGet s2.net.Rooms r = none ∧ (s2.net.procs id).running = false ∧
          (s2.net.procs id).Register = [{ Client := c.id, WantsNick := c.Data.Nick }] ∧
          (∀ color2, s2.recvRegister id color2 = .ok s2) ∧
          ∀ j, s2.net.member j c.id = false) ∧
        (¬(old = id ∧ (s.net.procs id).room.Rules.keepOpen = false ∧
            mapDelete (s.net.procs id).room.Clients c.id = []) →
          mapGet s2.net.Rooms r = some id ∧ (s2.net.procs id).running = true ∧
          (s2.net.procs id).Register = [] ∧
          s2.net.member id c.id = true ∧ ∀ j, j ≠ id → s2.net.member j c.id = false)) ∧
    (c.Room = none → (∀ j, s.net.member j c.id = false) →
      ∃ s2 : Server,
        (s.join c r password).2.recvRegister id color = .ok s2 ∧
        (s.join c r password).1.Room = some id ∧
        mapGet s2.net.Rooms r = some id ∧ s2.net.member id c.id = true ∧
        ∀ j, j ≠ id → s2.net.member j c.id = false) := by
  constructor
  · intro old hroom hreg hrunold hqold hin hout
    rw [join_switch s c r password id old hpass hroom]
    obtain ⟨f1, f2, f3, f4, f5⟩ := switch_net s.net old id
      { Client := c.id, Reason := "joining room " ++ r }
      { Client := c.id, WantsNick := c.Data.Nick }
    rw [hqold] at f3
    rw [hq] at f4
    obtain ⟨d, hd⟩ := Option.isSome_iff_exists.mp hin
    obtain ⟨s1, u0, u1, u2, u3, u4, u5, u6, u7, u8⟩ := recvUnregister_member
      { s with
        net := (s.net.sendUnregister old
          { Client := c.id, Reason := "joining room " ++ r }).sendRegister id
            { Client := c.id, WantsNick := c.Data.Nick }
        Send := fun i => if i = c.id then [{ Typ := .MessageTypeReset }] else s.Send i }
      old { Client := c.id, Reason := "joining room " ++ r } [] d
      ((f2 old).trans hrunold) f3 (by rw [f1 old]; exact hd)
    simp only [f1 old, f5] at u1 u2 u3 u4 u8
    have hgone : s1.net.member old c.id = false := by
      unfold Net.member
      rw [u1, mapGet_mapDelete]
      rfl
    have hothers : ∀ j, j ≠ old → s1.net.member j c.id = false := by
      intro j hj
      rw [member_of_room s.net s1.net j j c.id (by rw [u7 j hj]; exact f1 j)]
      exact hout j hj
    by_cases hcond : old = id ∧ (s.net.procs id).room.Rules.keepOpen = false ∧
        mapDelete (s.net.procs id).room.Clients c.id = []
    · obtain ⟨hoi, hk, hl⟩ := hcond
      subst hoi
      have hquit : (!(s.net.procs old).room.Rules.keepOpen &&
          (mapDelete (s.net.procs old).room.Clients c.id).length == 0) = true :=
        (quit_iff _ _).mpr ⟨hk, hl⟩
      rw [hquit] at u4
      rw [if_pos hquit, hname] at u8
      have hstop : ∀ color2, s1.recvRegister old color2 = .ok s1 :=
        fun color2 => recvRegister_stopped s1 old color2 (by simpa using u4)
      refine ⟨s1, s1, u0, hstop color, rfl, ?_, ?_⟩
      · intro _
        refine ⟨?_, by simpa using u4, ?_, hstop, ?_⟩
        · rw [u8, mapGet_mapDelete]
        · rw [u5]; exact f4
        · intro j
          by_cases hj : j = old
          · rw [hj]; exact hgone
          · exact hothers j hj
      · intro hn
        exact absurd ⟨rfl, hk, hl⟩ hn
    · have hnq : old = id → (!(s.net.procs old).room.Rules.keepOpen &&
          (mapDelete (s.net.procs old).room.Clients c.id).length == 0) = false := by
        intro hoi
        cases hb : (!(s.net.procs old).room.Rules.keepOpen &&
          (mapDelete (s.net.procs old).room.Clients c.id).length == 0) with
        | false => rfl
        | true =>
          have := (quit_iff _ _).mp hb
          exact absurd ⟨hoi, hoi ▸ this.1, hoi ▸ this.2⟩ hcond
      have hrun1 : (s1.net.procs id).running = true := by
        by_cases hoi : old = id
        · rw [← hoi, u4, hnq hoi]
          rfl
        · rw [u7 id (Ne.symm hoi)]
          exact (f2 id).trans hrun
      have hreg1 : (s1.net.procs id).Register =
          [{ Client := c.id, WantsNick := c.Data.Nick }] := by
        by_cases hoi : old = id
        · subst hoi
          rw [u5]; exact f4
        · rw [u7 id (Ne.symm hoi)]; exact f4
      have hrooms1 : mapGet s1.net.Rooms r = some id := by
        rw [u8]
        by_cases hoi : old = id
        · rw [if_neg (by rw [hnq hoi]; simp)]
          exact hpass.1
        · split
          · rw [mapGet_mapDelete_other]
            · exact hpass.1
            · intro hr
              rw [← hr, hpass.1] at hreg
              exact hoi (Option.some.inj hreg).symm
          · exact hpass.1
      obtain ⟨s2, r0, r1, r2, _, _, r5, r6, _, r8, r9⟩ := recvRegister_running s1 id
        { Client := c.id, WantsNick := c.Data.Nick } [] color hrun1 hreg1
      refine ⟨s1, s2, u0, r0, rfl, ?_, ?_⟩
      · intro h
        exact absurd h hcond
      · intro _
        refine ⟨by rw [r9]; exact hrooms1, r5, r6, r1, ?_⟩
        intro j hj
        rw [member_of_room s1.net s2.net j j c.id (by rw [r8 j hj])]
        by_cases hjo : j = old
        · rw [hjo]; exact hgone
        · exact hothers j hjo
  · intro hroom hout
    rw [join_first s c r password id hpass hroom]
    have g1 : ((s.net.sendRegister id { Client := c.id, WantsNick := c.Data.Nick }).procs
        id).Register = [{ Client := c.id, WantsNick := c.Data.Nick }] := by
      rw [sendRegister_Register_self, hq]
      rfl
    obtain ⟨s2, r0, r1, _, _, _, _, _, _, r8, r9⟩ := recvRegister_running
      { s with
        net := s.net.sendRegister id { Client := c.id, WantsNick := c.Data.Nick }
        Send := fun i => if i = c.id then c.Send else s.Send i }
      id { Client := c.id, WantsNick := c.Data.Nick } [] color
      ((sendRegister_running _ _ _ _).trans hrun) g1
    refine ⟨s2, r0, rfl, by rw [r9]; exact hpass.1, r1, ?_⟩
    intro j hj
    rw [member_of_room s.net s2.net j j c.id (by rw [r8 j hj]; exact sendRegister_room _ _ _ _)]
    exact hout j

theorem soloNet_elsewhere (j : Nat) (h : j ≠ 1) : soloNet.member j 7 = false := by
  simp [Net.member, soloNet, h, roomMain, NewRoom, mapGet]

theorem join_switches_room_unless_own_solo_room_witness :
    (∃ s1 s2 : Server,
      Server.recvUnregister (Server.join { net := soloNet } denGuest "den" none).2 1 = .ok s1 ∧
      s1.recvRegister 1 "#cccccc" = .ok s2 ∧
      (Server.join { net := soloNet } denGuest "den" none).1.Room = some 1 ∧
      mapGet s2.net.Rooms "den" = none ∧ (s2.net.procs 1).running = false ∧
      (s2.net.procs 1).Register = [{ Client := 7, WantsNick := "ann" }] ∧
      ∀ j, s2.net.member j 7 = false) ∧
    (∃ s1 s2 : Server,
      Server.recvUnregister (Server.join { net := soloNet } denGuest "main" none).2 1 = .ok s1 ∧
      s1.recvRegister 0 "#cccccc" = .ok s2 ∧
      (Server.join { net := soloNet } denGuest "main" none).1.Room = some 0 ∧
      mapGet s2.net.Rooms "main" = some 0 ∧ s2.net.member 0 7 = true ∧
      ∀ j, j ≠ 0 → s2.net.member j 7 = false) := by
  constructor
  · obtain ⟨s1, s2, h1, h2, h3, h4, _⟩ :=
      (join_switches_room_unless_own_solo_room { net := soloNet } denGuest "den" none 1
        "#cccccc" ⟨by decide, fun h => absurd h (by decide)⟩ rfl rfl rfl).1 1 rfl (by decide)
        rfl rfl (by decide) soloNet_elsewhere
    obtain ⟨h5, h6, h7, _, h9⟩ := h4 ⟨rfl, rfl, by decide⟩
    exact ⟨s1, s2, h1, h2, h3, h5, h6, h7, h9⟩
  · obtain ⟨s1, s2, h1, h2, h3, _, h4⟩ :=
      (join_switches_room_unless_own_solo_room { net := soloNet } denGuest "main" none 0
        "#cccccc" ⟨by decide, fun h => absurd h (by decide)⟩ rfl rfl rfl).1 1 rfl (by decide)
        rfl rfl (by decide) soloNet_elsewhere
    obtain ⟨h5, _, _, h8, h9⟩ := h4 (fun h => absurd h.1 (by decide))
    exact ⟨s1, s2, h1, h2, h3, h5, h8, h9⟩

end Chat
